import Mathlib

/-!
# vsfsck: consistency checker and repairer for a vsfs image

A shallow embedding of `vsfsck.c`.  C arrays are lists read with `getD` and
written with `set`; `uint32_t` values are natural numbers and the arithmetic
that can wrap (`blocks_count--`, `blocks_count * BLOCK_SIZE`,
`block_references[b]++`) is reduced modulo `2^32`; `uint8_t` bitmap bytes are
reduced modulo `2^8` when written.  The `int` counters `errors` and `fixes`
are natural numbers (they are bounded by a few thousand).  `printf` calls are
dropped.  The global variables of the program are the fields of `Globals`.
-/

namespace Vsfsck

/-! ## Constants (vsfsck.c, lines 8-16) -/

abbrev BLOCK_SIZE : Nat := 4096
abbrev TOTAL_BLOCKS : Nat := 64
abbrev INODE_SIZE : Nat := 256
abbrev MAGIC_NUMBER : Nat := 0xD34D
abbrev INODE_COUNT : Nat := 5 * BLOCK_SIZE / INODE_SIZE
abbrev DATA_BLOCK_START : Nat := 8
abbrev INODE_TABLE_START : Nat := 3
abbrev INODE_BITMAP_BLOCK : Nat := 1
abbrev DATA_BITMAP_BLOCK : Nat := 2

/-- Modulus of `uint32_t` arithmetic. -/
abbrev U32 : Nat := 4294967296

/-! ## Data model (lines 19-56) -/

/-- The `Superblock` struct; `reserved` holds the bytes of the block that are
not one of the nine fields. -/
structure Superblock where
  magic : Nat
  block_size : Nat
  total_blocks : Nat
  inode_bitmap_block : Nat
  data_bitmap_block : Nat
  inode_table_start : Nat
  first_data_block : Nat
  inode_size : Nat
  inode_count : Nat
  reserved : List Nat
  deriving DecidableEq, Repr

/-- The `Inode` struct; `direct` is the array of 12 direct pointers. -/
structure Inode where
  mode : Nat
  uid : Nat
  gid : Nat
  size : Nat
  atime : Nat
  ctime : Nat
  mtime : Nat
  dtime : Nat
  links_count : Nat
  blocks_count : Nat
  direct : List Nat
  single_indirect : Nat
  double_indirect : Nat
  triple_indirect : Nat
  reserved : List Nat
  deriving DecidableEq, Repr

/-- The all-zero inode (what an out-of-range read of the model returns; it has
`links_count = 0`). -/
def Inode.zero : Inode :=
  { mode := 0, uid := 0, gid := 0, size := 0, atime := 0, ctime := 0, mtime := 0,
    dtime := 0, links_count := 0, blocks_count := 0, direct := List.replicate 12 0,
    single_indirect := 0, double_indirect := 0, triple_indirect := 0,
    reserved := List.replicate 156 0 }

instance : Inhabited Inode := ⟨Inode.zero⟩

/-- The global variables `inode_bitmap`, `data_bitmap`, `inodes` and
`block_references` (lines 52-55). -/
structure Globals where
  inode_bitmap : List Nat
  data_bitmap : List Nat
  inodes : List Inode
  block_references : List Nat
  deriving DecidableEq, Repr

/-- The loop `for (i = 0; i < n; i++) body(i)` over a state `σ`. -/
def forLoop {σ : Type} (n : Nat) (body : Nat → σ → σ) (s : σ) : σ :=
  match n with
  | 0 => s
  | k + 1 => body k (forLoop k body s)

/-- The loop `for (i = lo; i < hi; i++) body(i)`. -/
def forFromTo {σ : Type} (lo hi : Nat) (body : Nat → σ → σ) (s : σ) : σ :=
  forLoop (hi - lo) (fun k => body (lo + k)) s

/-- The test `inodes[i].links_count > 0 && inodes[i].dtime == 0` that every
pass makes inline. -/
def Inode.is_valid (ino : Inode) : Bool :=
  decide (ino.links_count > 0) && decide (ino.dtime = 0)

/-! ## Superblock (lines 73-163) -/

/-- The statement `if (c(sb)) { sb = u(sb); fixes++; }`, nine of which make up
`fix_superblock`, on the pair of the superblock and the fix counter. -/
def sb_step (c : Superblock → Prop) [DecidablePred c] (u : Superblock → Superblock)
    (r : Superblock × Nat) : Superblock × Nat :=
  if c r.1 then (u r.1, r.2 + 1) else r

/-- `fix_superblock`: the repaired superblock and the number of fixes. -/
def fix_superblock (sb : Superblock) : Superblock × Nat :=
  let r : Superblock × Nat := (sb, 0)
  let r := sb_step (fun s => s.magic ≠ MAGIC_NUMBER)
    (fun s => { s with magic := MAGIC_NUMBER }) r
  let r := sb_step (fun s => s.block_size ≠ BLOCK_SIZE)
    (fun s => { s with block_size := BLOCK_SIZE }) r
  let r := sb_step (fun s => s.total_blocks ≠ TOTAL_BLOCKS)
    (fun s => { s with total_blocks := TOTAL_BLOCKS }) r
  let r := sb_step (fun s => s.inode_bitmap_block ≠ INODE_BITMAP_BLOCK)
    (fun s => { s with inode_bitmap_block := INODE_BITMAP_BLOCK }) r
  let r := sb_step (fun s => s.data_bitmap_block ≠ DATA_BITMAP_BLOCK)
    (fun s => { s with data_bitmap_block := DATA_BITMAP_BLOCK }) r
  let r := sb_step (fun s => s.inode_table_start ≠ INODE_TABLE_START)
    (fun s => { s with inode_table_start := INODE_TABLE_START }) r
  let r := sb_step (fun s => s.first_data_block ≠ DATA_BLOCK_START)
    (fun s => { s with first_data_block := DATA_BLOCK_START }) r
  let r := sb_step (fun s => s.inode_size ≠ INODE_SIZE)
    (fun s => { s with inode_size := INODE_SIZE }) r
  let r := sb_step (fun s => s.inode_count > INODE_COUNT)
    (fun s => { s with inode_count := INODE_COUNT }) r
  r

/-- `validate_superblock`: the number of errors. -/
def validate_superblock (sb : Superblock) : Nat :=
  let errors := 0
  let errors := if sb.magic ≠ MAGIC_NUMBER then errors + 1 else errors
  let errors := if sb.block_size ≠ BLOCK_SIZE then errors + 1 else errors
  let errors := if sb.total_blocks ≠ TOTAL_BLOCKS then errors + 1 else errors
  let errors := if sb.inode_bitmap_block ≠ INODE_BITMAP_BLOCK then errors + 1 else errors
  let errors := if sb.data_bitmap_block ≠ DATA_BITMAP_BLOCK then errors + 1 else errors
  let errors := if sb.inode_table_start ≠ INODE_TABLE_START then errors + 1 else errors
  let errors := if sb.first_data_block ≠ DATA_BLOCK_START then errors + 1 else errors
  let errors := if sb.inode_size ≠ INODE_SIZE then errors + 1 else errors
  let errors := if sb.inode_count > INODE_COUNT then errors + 1 else errors
  errors

/-! ## Bitmaps (lines 166-177) -/

/-- `is_block_marked`: `(bitmap[block / 8] >> (block % 8)) & 1`. -/
def is_block_marked (bitmap : List Nat) (block : Nat) : Nat :=
  (bitmap.getD (block / 8) 0 >>> (block % 8)) &&& 1

/-- `set_bitmap_bit`: `bitmap[block / 8] |= (1 << (block % 8))` when `value` is
nonzero, `bitmap[block / 8] &= ~(1 << (block % 8))` otherwise.  The complement
is taken within the byte, which is what the conversion of the `int` result to
`uint8_t` keeps. -/
def set_bitmap_bit (bitmap : List Nat) (block : Nat) (value : Nat) : List Nat :=
  if value ≠ 0 then
    bitmap.set (block / 8) ((bitmap.getD (block / 8) 0 ||| (1 <<< (block % 8))) % 256)
  else
    bitmap.set (block / 8) ((bitmap.getD (block / 8) 0 &&& (255 ^^^ (1 <<< (block % 8)))) % 256)

/-! ## Reference counting (lines 180-188) -/

/-- `count_block_references`: one pass over the 12 direct pointers of `inode`,
incrementing `block_references` for each pointer in the data region.  The
parameter `inode_num` of the C function is only printed and is left out. -/
def count_block_references (inode : Inode) (block_references : List Nat) : List Nat :=
  forLoop 12 (fun i refs =>
    if inode.direct.getD i 0 ≥ TOTAL_BLOCKS then refs
    else if inode.direct.getD i 0 ≥ DATA_BLOCK_START then
      refs.set (inode.direct.getD i 0) ((refs.getD (inode.direct.getD i 0) 0 + 1) % U32)
    else refs) block_references

/-- The recount that `fix_bitmaps` and `check_bitmaps` both run (lines 212-217
and 260-265): `memset` to zero, then `count_block_references` for each valid
inode. -/
def recount (inodes : List Inode) : List Nat :=
  forLoop INODE_COUNT (fun i refs =>
    if (inodes.getD i default).is_valid then
      count_block_references (inodes.getD i default) refs
    else refs) (List.replicate TOTAL_BLOCKS 0)

/-! ## Bitmap consistency (lines 191-282) -/

/-- `fix_bitmaps`. -/
def fix_bitmaps (g : Globals) : Globals × Nat :=
  -- Fix inode bitmap
  let r : List Nat × Nat := forLoop INODE_COUNT (fun i r =>
    let marked := is_block_marked r.1 i
    let valid := (g.inodes.getD i default).is_valid
    let r := if marked ≠ 0 ∧ ¬ valid then (set_bitmap_bit r.1 i 0, r.2 + 1) else r
    let r := if valid ∧ marked = 0 then (set_bitmap_bit r.1 i 1, r.2 + 1) else r
    r) (g.inode_bitmap, 0)
  -- Recount block references
  let refs := recount g.inodes
  -- Fix data bitmap
  let d : List Nat × Nat := forFromTo DATA_BLOCK_START TOTAL_BLOCKS (fun i d =>
    let marked := is_block_marked d.1 i
    let referenced := decide (refs.getD i 0 > 0)
    let d := if marked ≠ 0 ∧ ¬ referenced then (set_bitmap_bit d.1 i 0, d.2 + 1) else d
    let d := if referenced ∧ marked = 0 then (set_bitmap_bit d.1 i 1, d.2 + 1) else d
    d) (g.data_bitmap, r.2)
  ({ g with inode_bitmap := r.1, data_bitmap := d.1, block_references := refs }, d.2)

/-- `check_bitmaps`: the error count, and the globals with the recomputed
reference table. -/
def check_bitmaps (g : Globals) : Globals × Nat :=
  -- Check inode bitmap
  let errors : Nat := forLoop INODE_COUNT (fun i errors =>
    let marked := is_block_marked g.inode_bitmap i
    let valid := (g.inodes.getD i default).is_valid
    let errors := if marked ≠ 0 ∧ ¬ valid then errors + 1 else errors
    let errors := if valid ∧ marked = 0 then errors + 1 else errors
    errors) 0
  -- Check data bitmap
  let refs := recount g.inodes
  let errors : Nat := forFromTo DATA_BLOCK_START TOTAL_BLOCKS (fun i errors =>
    let marked := is_block_marked g.data_bitmap i
    let referenced := decide (refs.getD i 0 > 0)
    let errors := if marked ≠ 0 ∧ ¬ referenced then errors + 1 else errors
    let errors := if referenced ∧ marked = 0 then errors + 1 else errors
    errors) errors
  ({ g with block_references := refs }, errors)

/-! ## Duplicate references (lines 285-340) -/

/-- First pass of `fix_duplicates` (lines 287-305): the reference table and
the `first_inode` table. -/
def fix_duplicates_count (inodes : List Inode) : List Nat × List Nat :=
  forLoop INODE_COUNT (fun i t =>
    if (inodes.getD i default).is_valid then
      forLoop 12 (fun j t =>
        let block := (inodes.getD i default).direct.getD j 0
        if block ≥ DATA_BLOCK_START ∧ block < TOTAL_BLOCKS then
          let refs := t.1.set block ((t.1.getD block 0 + 1) % U32)
          if refs.getD block 0 = 1 then (refs, t.2.set block i) else (refs, t.2)
        else t) t
    else t) (List.replicate TOTAL_BLOCKS 0, List.replicate TOTAL_BLOCKS 0xFFFFFFFF)

/-- The statements of lines 315-320 (and 351-356) on `inodes[i]`: clear slot
`j`, decrement `blocks_count`, clamp `size`. -/
def clear_pointer (ino : Inode) (j : Nat) : Inode :=
  let ino := { ino with direct := ino.direct.set j 0 }
  let ino := { ino with blocks_count := (ino.blocks_count + U32 - 1) % U32 }
  if ino.size > ino.blocks_count * BLOCK_SIZE % U32 then
    { ino with size := ino.blocks_count * BLOCK_SIZE % U32 }
  else ino

/-- Second pass of `fix_duplicates` (lines 308-325). -/
def fix_duplicates_clear (refs first_inode : List Nat) (inodes : List Inode) :
    List Inode × Nat :=
  forLoop INODE_COUNT (fun i r =>
    if (r.1.getD i default).is_valid then
      forLoop 12 (fun j r =>
        let block := (r.1.getD i default).direct.getD j 0
        if block ≥ DATA_BLOCK_START ∧ block < TOTAL_BLOCKS ∧ refs.getD block 0 > 1 then
          if i ≠ first_inode.getD block 0 then
            (r.1.set i (clear_pointer (r.1.getD i default) j), r.2 + 1)
          else r
        else r) r
    else r) (inodes, 0)

/-- `fix_duplicates`. -/
def fix_duplicates (g : Globals) : Globals × Nat :=
  let t := fix_duplicates_count g.inodes
  let r := fix_duplicates_clear t.1 t.2 g.inodes
  ({ g with inodes := r.1, block_references := t.1 }, r.2)

/-- `check_duplicates`: reads the reference table left by the last recount. -/
def check_duplicates (g : Globals) : Nat :=
  forFromTo DATA_BLOCK_START TOTAL_BLOCKS (fun i errors =>
    if g.block_references.getD i 0 > 1 then errors + 1 else errors) 0

/-! ## Bad pointers (lines 343-379) -/

/-- `fix_bad_blocks`. -/
def fix_bad_blocks (g : Globals) : Globals × Nat :=
  let r : List Inode × Nat := forLoop INODE_COUNT (fun i r =>
    if (r.1.getD i default).is_valid then
      forLoop 12 (fun j r =>
        let p := (r.1.getD i default).direct.getD j 0
        if p ≠ 0 ∧ (p < DATA_BLOCK_START ∨ p ≥ TOTAL_BLOCKS) then
          (r.1.set i (clear_pointer (r.1.getD i default) j), r.2 + 1)
        else r) r
    else r) (g.inodes, 0)
  ({ g with inodes := r.1 }, r.2)

/-- `check_bad_blocks`. -/
def check_bad_blocks (g : Globals) : Nat :=
  forLoop INODE_COUNT (fun i errors =>
    if (g.inodes.getD i default).is_valid then
      forLoop 12 (fun j errors =>
        let p := (g.inodes.getD i default).direct.getD j 0
        if p ≠ 0 ∧ (p < DATA_BLOCK_START ∨ p ≥ TOTAL_BLOCKS) then errors + 1
        else errors) errors
    else errors) 0

/-! ## Orchestration (lines 381-497) -/

/-- The blocks 0-7 of the image, as `main` reads and writes them. -/
structure Image where
  sb : Superblock
  inode_bitmap : List Nat
  data_bitmap : List Nat
  inodes : List Inode
  deriving DecidableEq, Repr

/-- What a run of `main` leaves behind when every read and write succeeds. -/
structure Report where
  /-- The number printed after "Total errors found initially". -/
  errors_initially : Nat
  /-- The number printed after "Total fixes applied". -/
  fixes_applied : Nat
  /-- The number printed after "Total errors after fixes". -/
  errors_after : Nat
  /-- The exit status. -/
  status : Nat
  /-- The image after the run. -/
  image : Image
  deriving DecidableEq, Repr

/-- The repair sequence of lines 436-438 with its total fix count. -/
def repair (g : Globals) : Globals × Nat :=
  let r1 := fix_bitmaps g
  let r2 := fix_duplicates r1.1
  let r3 := fix_bad_blocks r2.1
  (r3.1, r1.2 + r2.2 + r3.2)

/-- The checks of lines 432-434 (and 487-489) with their total error count. -/
def check_all (g : Globals) : Globals × Nat :=
  let c1 := check_bitmaps g
  (c1.1, c1.2 + check_duplicates c1.1 + check_bad_blocks c1.1)

/-- The globals after the reads of lines 415-429; `block_references` is a
zero-initialised static array. -/
def load (img : Image) : Globals :=
  { inode_bitmap := img.inode_bitmap, data_bitmap := img.data_bitmap, inodes := img.inodes,
    block_references := List.replicate TOTAL_BLOCKS 0 }

/-- `main` on an image whose reads and writes all succeed: the image is read
into the globals, checked, repaired, written back, read again and checked
again. -/
def main (img : Image) : Report :=
  let errors := 0
  let fixes := 0
  -- Read, validate and fix the superblock (lines 396-405)
  let sb := img.sb
  let errors := errors + validate_superblock sb
  let fs := fix_superblock sb
  let fixes := fixes + fs.2
  -- Block 0 after the conditional write of lines 406-412
  let block0 := if fixes > 0 then fs.1 else img.sb
  -- Read bitmaps and inode table (lines 415-429)
  let g := load img
  -- Check and fix consistency (lines 432-438)
  let c := check_all g
  let errors := errors + c.2
  let r := repair c.1
  let fixes := fixes + r.2
  -- Write back bitmaps and inodes (lines 441-455)
  let img : Image := { sb := block0, inode_bitmap := r.1.inode_bitmap,
                       data_bitmap := r.1.data_bitmap, inodes := r.1.inodes }
  -- Re-check (lines 458-489): `errors` is reset, the image is read again
  let errors := 0
  let errors := errors + validate_superblock img.sb
  let g : Globals := { r.1 with inode_bitmap := img.inode_bitmap,
                                data_bitmap := img.data_bitmap, inodes := img.inodes }
  let c := check_all g
  let errors := errors + c.2
  -- Report (lines 491-496)
  { errors_initially := errors + fixes, fixes_applied := fixes, errors_after := errors,
    status := if errors > 0 then 1 else 0, image := img }

/-! ## Definitions used to state the properties -/

/-- The statement `if (c) errors++;`. -/
def err_step (c : Prop) [Decidable c] (e : Nat) : Nat := if c then e + 1 else e

/-- The number of mismatching fields among the nine checked ones. -/
def sb_mismatches (sb : Superblock) : Nat :=
  (if sb.magic ≠ MAGIC_NUMBER then 1 else 0) + (if sb.block_size ≠ BLOCK_SIZE then 1 else 0) +
  (if sb.total_blocks ≠ TOTAL_BLOCKS then 1 else 0) +
  (if sb.inode_bitmap_block ≠ INODE_BITMAP_BLOCK then 1 else 0) +
  (if sb.data_bitmap_block ≠ DATA_BITMAP_BLOCK then 1 else 0) +
  (if sb.inode_table_start ≠ INODE_TABLE_START then 1 else 0) +
  (if sb.first_data_block ≠ DATA_BLOCK_START then 1 else 0) +
  (if sb.inode_size ≠ INODE_SIZE then 1 else 0) +
  (if sb.inode_count > INODE_COUNT then 1 else 0)

/-- An empty, otherwise consistent image whose superblock magic is `0x0000`
(Scenario A). -/
def image_bad_magic : Image :=
  { sb := { magic := 0x0000, block_size := 4096, total_blocks := 64, inode_bitmap_block := 1,
            data_bitmap_block := 2, inode_table_start := 3, first_data_block := 8,
            inode_size := 256, inode_count := 80, reserved := List.replicate 4058 0 },
    inode_bitmap := List.replicate 4096 0, data_bitmap := List.replicate 4096 0,
    inodes := List.replicate 80 Inode.zero }

/-- Bit `i` of a bitmap as a truth value: bit `i % 8`, counted from the least
significant bit, of byte `i / 8`. -/
def bit_set (bitmap : List Nat) (i : Nat) : Bool :=
  (bitmap.getD (i / 8) 0).testBit (i % 8)

/-- The body that the two bitmap loops of `fix_bitmaps` share: bring bit `i`
to the value `want i`, counting a fix when it changes. -/
def sync_bit (want : Nat → Bool) (i : Nat) (r : List Nat × Nat) : List Nat × Nat :=
  let marked := is_block_marked r.1 i
  let r := if marked ≠ 0 ∧ ¬ want i then (set_bitmap_bit r.1 i 0, r.2 + 1) else r
  let r := if want i ∧ marked = 0 then (set_bitmap_bit r.1 i 1, r.2 + 1) else r
  r

/-- The number of slots `j < m` among the direct pointers of `ino` that hold
the block `b`. -/
def slot_refs (ino : Inode) (b : Nat) : Nat → Nat
  | 0 => 0
  | m + 1 => slot_refs ino b m + if ino.direct.getD m 0 = b then 1 else 0

/-- The number of pairs (valid inode `i < n`, slot `j < 12`) whose pointer is
the block `b`. -/
def ref_count (inodes : List Inode) (b : Nat) : Nat → Nat
  | 0 => 0
  | n + 1 => ref_count inodes b n +
      if (inodes.getD n default).is_valid then slot_refs (inodes.getD n default) b 12 else 0

/-- The entry for block `b` of the `first_inode` table after the inodes
`i < n` have been scanned: the first valid inode with a pointer to `b`, or
`0xFFFFFFFF` when there is none. -/
def first_ref (inodes : List Inode) (b : Nat) : Nat → Nat
  | 0 => 0xFFFFFFFF
  | n + 1 =>
      if ref_count inodes b n = 0 ∧ (inodes.getD n default).is_valid = true ∧
          0 < slot_refs (inodes.getD n default) b 12 then n
      else first_ref inodes b n

/-- The statements of lines 297-302 for a pointer value `p` of inode `i`, on
the pair of `block_references` and `first_inode`. -/
def count_step (i p : Nat) (t : List Nat × List Nat) : List Nat × List Nat :=
  if p ≥ DATA_BLOCK_START ∧ p < TOTAL_BLOCKS then
    let refs := t.1.set p ((t.1.getD p 0 + 1) % U32)
    if refs.getD p 0 = 1 then (refs, t.2.set p i) else (refs, t.2)
  else t

/-- The loop shape that the second pass of `fix_duplicates` and
`fix_bad_blocks` share: for every valid inode `i` and slot `j`, when `c i p`
holds of the pointer `p` in the slot, the pointer is cleared and a fix is
counted. -/
def clear_loop (c : Nat → Nat → Prop) [∀ i p, Decidable (c i p)] (n : Nat)
    (r0 : List Inode × Nat) : List Inode × Nat :=
  forLoop n (fun i r =>
    if (r.1.getD i default).is_valid then
      forLoop 12 (fun j r =>
        if c i ((r.1.getD i default).direct.getD j 0) then
          (r.1.set i (clear_pointer (r.1.getD i default) j), r.2 + 1)
        else r) r
    else r) r0

/-- The inner loop of `clear_loop` on one inode taken out of the table. -/
def clear_slots (c : Nat → Prop) [DecidablePred c] (m : Nat) (s : Inode × Nat) : Inode × Nat :=
  forLoop m (fun j s =>
    if c (s.1.direct.getD j 0) then (clear_pointer s.1 j, s.2 + 1) else s) s

/-- The pointer test of `fix_bad_blocks` and `check_bad_blocks`: nonzero and
outside the data region. -/
def bad_pointer (p : Nat) : Prop := p ≠ 0 ∧ (p < DATA_BLOCK_START ∨ p ≥ TOTAL_BLOCKS)

instance (p : Nat) : Decidable (bad_pointer p) :=
  inferInstanceAs (Decidable (p ≠ 0 ∧ (p < DATA_BLOCK_START ∨ p ≥ TOTAL_BLOCKS)))

/-- The pointer test of the second pass of `fix_duplicates` for inode `i`: in
the data region, referenced more than once, and `i` is not the first owner. -/
def dup_pointer (refs first_inode : List Nat) (i p : Nat) : Prop :=
  (p ≥ DATA_BLOCK_START ∧ p < TOTAL_BLOCKS ∧ refs.getD p 0 > 1) ∧ i ≠ first_inode.getD p 0

instance (refs first_inode : List Nat) (i p : Nat) :
    Decidable (dup_pointer refs first_inode i p) :=
  inferInstanceAs (Decidable ((p ≥ DATA_BLOCK_START ∧ p < TOTAL_BLOCKS ∧ refs.getD p 0 > 1) ∧
    i ≠ first_inode.getD p 0))

/-- Two inodes agree on every field that no repair pass writes, that is on
all fields but `direct`, `blocks_count` and `size`. -/
def Inode.same_frame (a b : Inode) : Prop :=
  a.mode = b.mode ∧ a.uid = b.uid ∧ a.gid = b.gid ∧ a.atime = b.atime ∧ a.ctime = b.ctime ∧
  a.mtime = b.mtime ∧ a.dtime = b.dtime ∧ a.links_count = b.links_count ∧
  a.single_indirect = b.single_indirect ∧ a.double_indirect = b.double_indirect ∧
  a.triple_indirect = b.triple_indirect ∧ a.reserved = b.reserved

/-- The inode has a direct pointer equal to `b` in one of its 12 slots. -/
def Inode.references (ino : Inode) (b : Nat) : Prop :=
  ∃ j, j < 12 ∧ ino.direct.getD j 0 = b

/-- Inode `i` is the lowest-indexed valid inode of the table with a direct
pointer equal to `b`. -/
def lowest_owner (inodes : List Inode) (b i : Nat) : Prop :=
  i < INODE_COUNT ∧ (inodes.getD i default).is_valid = true ∧
  (inodes.getD i default).references b ∧
  ∀ k, k < i → ¬ ((inodes.getD k default).is_valid = true ∧ (inodes.getD k default).references b)

/-- Some valid inode of the table has a direct pointer equal to `b`. -/
def referenced (inodes : List Inode) (b : Nat) : Prop :=
  ∃ i, i < INODE_COUNT ∧ (inodes.getD i default).is_valid = true ∧
    (inodes.getD i default).references b

/-- Scenario B: inodes 0 and 1 are valid and both list data block 10; the
bitmaps are empty. -/
def globals_shared_block : Globals :=
  { inode_bitmap := List.replicate 4096 0, data_bitmap := List.replicate 4096 0,
    inodes :=
      { Inode.zero with links_count := 1, blocks_count := 1, size := 4096,
                        direct := [10, 0, 0, 0, 0, 0, 0, 0, 0, 0, 0, 0] } ::
      { Inode.zero with links_count := 1, blocks_count := 1, size := 4096,
                        direct := [10, 0, 0, 0, 0, 0, 0, 0, 0, 0, 0, 0] } ::
      List.replicate 78 Inode.zero,
    block_references := List.replicate 64 0 }

/-- Scenario C next to a referenced block: inode 0 is valid and lists data
block 10, inode 1 has `links_count = 0` but its inode-bitmap bit is set (the
first bitmap byte is `0b10`), and the data bitmap is empty. -/
def globals_stale_bit : Globals :=
  { inode_bitmap := 2 :: List.replicate 4095 0, data_bitmap := List.replicate 4096 0,
    inodes :=
      { Inode.zero with links_count := 1, blocks_count := 1, size := 4096,
                        direct := [10, 0, 0, 0, 0, 0, 0, 0, 0, 0, 0, 0] } ::
      List.replicate 79 Inode.zero,
    block_references := List.replicate 64 0 }

/-- The four repair passes in the order `main` runs them, on the blocks of the
image: `fix_superblock` on block 0, then `fix_bitmaps`, `fix_duplicates` and
`fix_bad_blocks` on the loaded bitmaps and inode table, with the total fix
count. -/
def repair_image (img : Image) : Image × Nat :=
  let fs := fix_superblock img.sb
  let r := repair (load img)
  ({ sb := fs.1, inode_bitmap := r.1.inode_bitmap, data_bitmap := r.1.data_bitmap,
     inodes := r.1.inodes }, fs.2 + r.2)

/-- Scenario C as an image: a correct superblock, inode 0 valid and listing
data block 10, inode 1 free with its inode-bitmap bit set, an empty data
bitmap. -/
def image_stale_bit : Image :=
  { sb := { magic := 0xD34D, block_size := 4096, total_blocks := 64, inode_bitmap_block := 1,
            data_bitmap_block := 2, inode_table_start := 3, first_data_block := 8,
            inode_size := 256, inode_count := 80, reserved := List.replicate 4058 0 },
    inode_bitmap := 2 :: List.replicate 4095 0, data_bitmap := List.replicate 4096 0,
    inodes :=
      { Inode.zero with links_count := 1, blocks_count := 1, size := 4096,
                        direct := [10, 0, 0, 0, 0, 0, 0, 0, 0, 0, 0, 0] } ::
      List.replicate 79 Inode.zero }

/-- The number of valid inodes of the table that list `b` among their direct
pointers, as the claim words the content of `block_references[b]`. -/
def valid_inodes_listing (inodes : List Inode) (b : Nat) : Nat :=
  (inodes.filter (fun ino => ino.is_valid && decide (b ∈ ino.direct))).length

/-- The number of pairs of a valid inode of the table and one of its direct
slots such that the slot holds `b`. -/
def valid_slots_holding (inodes : List Inode) (b : Nat) : Nat :=
  (inodes.map (fun ino => if ino.is_valid then ino.direct.count b else 0)).sum

/-- A consistent state in which inode 0 is valid and lists data block 10 in
two of its slots. -/
def globals_block_twice : Globals :=
  { inode_bitmap := 1 :: List.replicate 4095 0,
    data_bitmap := 0 :: 4 :: List.replicate 4094 0,
    inodes :=
      { Inode.zero with links_count := 1, blocks_count := 2, size := 8192,
                        direct := [10, 10, 0, 0, 0, 0, 0, 0, 0, 0, 0, 0] } ::
      List.replicate 79 Inode.zero,
    block_references := List.replicate 64 0 }

/-- An image with a correct superblock and consistent bitmaps in which the
only valid inode, inode 0, lists data block 10 in two of its direct slots. -/
def image_block_twice : Image :=
  { sb := { magic := 0xD34D, block_size := 4096, total_blocks := 64, inode_bitmap_block := 1,
            data_bitmap_block := 2, inode_table_start := 3, first_data_block := 8,
            inode_size := 256, inode_count := 80, reserved := List.replicate 4058 0 },
    inode_bitmap := 1 :: List.replicate 4095 0,
    data_bitmap := 0 :: 4 :: List.replicate 4094 0,
    inodes :=
      { Inode.zero with links_count := 1, blocks_count := 2, size := 8192,
                        direct := [10, 10, 0, 0, 0, 0, 0, 0, 0, 0, 0, 0] } ::
      List.replicate 79 Inode.zero }

/-- Scenario D: inode 0 is valid and holds the pointer 70 in slot 0 and the
pointer 9 in slot 1; inode 1 is free and holds the pointer 70 in slot 0. -/
def globals_bad_pointer : Globals :=
  { inode_bitmap := 1 :: List.replicate 4095 0,
    data_bitmap := 0 :: 2 :: List.replicate 4094 0,
    inodes :=
      { Inode.zero with links_count := 1, blocks_count := 2, size := 8192,
                        direct := [70, 9, 0, 0, 0, 0, 0, 0, 0, 0, 0, 0] } ::
      { Inode.zero with direct := [70, 0, 0, 0, 0, 0, 0, 0, 0, 0, 0, 0] } ::
      List.replicate 78 Inode.zero,
    block_references := List.replicate 64 0 }

/-- The number of indices `j < n` that satisfy `P`. -/
def count_below (P : Nat → Prop) [DecidablePred P] : Nat → Nat
  | 0 => 0
  | n + 1 => count_below P n + if P n then 1 else 0

/-- The sum of `f j` over the indices `j < n`. -/
def sum_below (f : Nat → Nat) : Nat → Nat
  | 0 => 0
  | n + 1 => sum_below f n + f n

/-- The effect of one cleared pointer on the pair of `blocks_count` and
`size` (lines 316-319 and 352-355): the decrement modulo `2^32`, then the
clamp of `size` against the product modulo `2^32`. -/
def clamp_step (bs : Nat × Nat) : Nat × Nat :=
  ((bs.1 + U32 - 1) % U32,
   if bs.2 > (bs.1 + U32 - 1) % U32 * BLOCK_SIZE % U32 then
     (bs.1 + U32 - 1) % U32 * BLOCK_SIZE % U32
   else bs.2)

/-- The effect of `k` cleared pointers, one after the other. -/
def clamp_iter : Nat → Nat × Nat → Nat × Nat
  | 0, bs => bs
  | k + 1, bs => clamp_step (clamp_iter k bs)

/-- The number of direct slots, among the 12, that hold a pointer in `before`
and 0 in `after`. -/
def pointers_cleared (before after : Inode) : Nat :=
  ((List.range 12).filter (fun j =>
    decide (before.direct.getD j 0 ≠ 0 ∧ after.direct.getD j 0 = 0))).length

/-- The number of direct slots of the 80 inodes that hold a pointer in the
table `before` and 0 in the table `after`. -/
def slots_cleared (before after : List Inode) : Nat :=
  ((List.range INODE_COUNT).map (fun i =>
    pointers_cleared (before.getD i default) (after.getD i default))).sum

/-- The number of pairs of a valid inode `i < 80` and a slot `j < 12` whose
pointer is nonzero and outside `[8, 64)`. -/
def bad_pairs (inodes : List Inode) : Nat :=
  ((List.range INODE_COUNT).map (fun i =>
    if (inodes.getD i default).is_valid then
      ((List.range 12).filter (fun j =>
        decide (bad_pointer ((inodes.getD i default).direct.getD j 0)))).length
    else 0)).sum

/-- A state whose valid inode 0 has `blocks_count = 2^20 + 1`, `size = 5000`
and the bad pointer 70 in slot 0. -/
def globals_large_count : Globals :=
  { inode_bitmap := 1 :: List.replicate 4095 0, data_bitmap := List.replicate 4096 0,
    inodes :=
      { Inode.zero with links_count := 1, blocks_count := 1048577, size := 5000,
                        direct := [70, 0, 0, 0, 0, 0, 0, 0, 0, 0, 0, 0] } ::
      List.replicate 79 Inode.zero,
    block_references := List.replicate 64 0 }

/-- The body that the two bitmap loops of `check_bitmaps` share: count an
error when bit `i` differs from `want i`. -/
def mismatch_step (bitmap : List Nat) (want : Nat → Bool) (i : Nat) (errors : Nat) : Nat :=
  let marked := is_block_marked bitmap i
  let errors := if marked ≠ 0 ∧ ¬ want i then errors + 1 else errors
  let errors := if want i ∧ marked = 0 then errors + 1 else errors
  errors

/-- Two tables agree on every valid inode: for each of the 80 slots, the
`links_count` and `dtime` fields are equal, and the whole record is equal when
the inode is valid. -/
def same_valid_inodes (t1 t2 : List Inode) : Prop :=
  ∀ i, i < INODE_COUNT →
    (t1.getD i default).links_count = (t2.getD i default).links_count ∧
    (t1.getD i default).dtime = (t2.getD i default).dtime ∧
    ((t1.getD i default).is_valid = true → t1.getD i default = t2.getD i default)

/-- The state of Scenario D with other pointers, another size and other
indirect fields in the free inode 1. -/
def globals_bad_pointer_variant : Globals :=
  { inode_bitmap := 1 :: List.replicate 4095 0,
    data_bitmap := 0 :: 2 :: List.replicate 4094 0,
    inodes :=
      { Inode.zero with links_count := 1, blocks_count := 2, size := 8192,
                        direct := [70, 9, 0, 0, 0, 0, 0, 0, 0, 0, 0, 0] } ::
      { Inode.zero with size := 77, single_indirect := 5,
                        direct := [9, 9, 3, 100, 0, 0, 0, 0, 0, 0, 0, 0] } ::
      List.replicate 78 Inode.zero,
    block_references := List.replicate 64 0 }

/-! ## Reads and writes that can fail (lines 58-70 and 395-497) -/

/-- A call of `read_block` or of `write_block`, with its block number. -/
inductive BlockCall where
  | read (block_num : Nat)
  | write (block_num : Nat)
  deriving DecidableEq, Repr

/-- What `lseek`, `read` and `write` do at the calls of `read_block` and
`write_block` of one run; the calls are numbered from 0 in the order in which
they are made. -/
structure Transfers where
  /-- The value returned by call `k`: `-1` when `lseek`, `read` or `write`
  fails, else the number of bytes transferred, between 0 and 4096. -/
  ret : Nat → Int
  /-- The buffer `sb` after call `k`, a read into it, from the buffer before. -/
  read_sb : Nat → Superblock → Superblock
  /-- A bitmap buffer after call `k`, a read of block `block_num` into it. -/
  read_bitmap : Nat → Nat → List Nat → List Nat
  /-- The inode table after call `k`, a read into 16 of its records. -/
  read_inodes : Nat → List Inode → List Inode

/-- The exit status of a run and the calls of `read_block` and `write_block`
it made, in order. -/
structure Run where
  status : Nat
  calls : List BlockCall
  deriving DecidableEq, Repr

/-- The static arrays of lines 52-55 at program start. -/
def globals_initial : Globals :=
  { inode_bitmap := List.replicate BLOCK_SIZE 0, data_bitmap := List.replicate BLOCK_SIZE 0,
    inodes := List.replicate INODE_COUNT Inode.zero,
    block_references := List.replicate TOTAL_BLOCKS 0 }

/-- The globals after call `k` has returned: a read of block 1 or 2 fills a
bitmap, a read of a block of the inode table fills the table, a write leaves
the globals as they are. -/
def transfer (env : Transfers) (k : Nat) (c : BlockCall) (g : Globals) : Globals :=
  match c with
  | BlockCall.read b =>
    if b = INODE_BITMAP_BLOCK then { g with inode_bitmap := env.read_bitmap k b g.inode_bitmap }
    else if b = DATA_BITMAP_BLOCK then { g with data_bitmap := env.read_bitmap k b g.data_bitmap }
    else { g with inodes := env.read_inodes k g.inodes }
  | BlockCall.write _ => g

/-- Calls made one after the other under the test `< 0`, as in the `||`
chains and the loops of `main`: the sequence stops after the first call that
returns a negative value.  `log` holds the calls made so far.  The result is
the log, the globals, and whether no call returned a negative value. -/
def do_calls (env : Transfers) :
    List BlockCall → List BlockCall → Globals → List BlockCall × Globals × Bool
  | [], log, g => (log, g, true)
  | c :: cs, log, g =>
    if env.ret log.length < 0 then (log ++ [c], g, false)
    else do_calls env cs (log ++ [c]) (transfer env log.length c g)

/-- The blocks of the two bitmaps and of the inode table, in the order in
which `main` transfers them (lines 415-429, 441-455, 470-484). -/
def table_blocks : List Nat :=
  [INODE_BITMAP_BLOCK, DATA_BITMAP_BLOCK, INODE_TABLE_START + 0, INODE_TABLE_START + 1,
   INODE_TABLE_START + 2, INODE_TABLE_START + 3, INODE_TABLE_START + 4]

/-- Lines 458-497 of `main`: the re-check, after the calls in `log`. -/
def main_recheck (env : Transfers) (log : List BlockCall) (sb : Superblock) (g : Globals) : Run :=
  let errors := 0
  -- Re-read superblock (lines 462-466)
  if env.ret log.length < 0 then { status := 1, calls := log ++ [BlockCall.read 0] } else
  let sb := env.read_sb log.length sb
  let errors := errors + validate_superblock sb
  -- Re-read bitmaps and inode table (lines 470-484)
  let r := do_calls env (table_blocks.map BlockCall.read) (log ++ [BlockCall.read 0]) g
  if r.2.2 = false then { status := 1, calls := r.1 } else
  -- Re-run checks (lines 487-489)
  let c := check_all r.2.1
  let errors := errors + c.2
  { status := if errors > 0 then 1 else 0, calls := r.1 }

/-- Lines 414-456 of `main`, followed by the re-check. -/
def main_tables (env : Transfers) (log : List BlockCall) (sb : Superblock) : Run :=
  -- Read bitmaps and inode table (lines 415-429)
  let r := do_calls env (table_blocks.map BlockCall.read) log globals_initial
  if r.2.2 = false then { status := 1, calls := r.1 } else
  -- Check and fix consistency (lines 432-438)
  let c := check_all r.2.1
  let f := repair c.1
  -- Write back bitmaps and inodes (lines 441-455)
  let w := do_calls env (table_blocks.map BlockCall.write) r.1 f.1
  if w.2.2 = false then { status := 1, calls := w.1 } else
  main_recheck env w.1 sb w.2.1

/-- `main` from line 395 on, with reads and writes that can fail or be short;
`sb0` is the content of the local `sb` before the first read. -/
def main_transfers (env : Transfers) (sb0 : Superblock) : Run :=
  let fixes := 0
  -- Read superblock (lines 396-401)
  if env.ret 0 < 0 then { status := 1, calls := [BlockCall.read 0] } else
  let sb := env.read_sb 0 sb0
  -- Validate and fix superblock (lines 404-412)
  let fs := fix_superblock sb
  let fixes := fixes + fs.2
  if fixes > 0 then
    if env.ret 1 < 0 then { status := 1, calls := [BlockCall.read 0, BlockCall.write 0] }
    else main_tables env [BlockCall.read 0, BlockCall.write 0] fs.1
  else main_tables env [BlockCall.read 0] fs.1

/-- A superblock whose nine fields have the expected values. -/
def superblock_good : Superblock :=
  { magic := 0xD34D, block_size := 4096, total_blocks := 64, inode_bitmap_block := 1,
    data_bitmap_block := 2, inode_table_start := 3, first_data_block := 8,
    inode_size := 256, inode_count := 80, reserved := List.replicate 4058 0 }

/-- A run on an image file of 4096 bytes that holds a good superblock: the
seven reads of blocks 1 to 7 are at the end of the file, return 0 and leave
the buffers as they are; the writes extend the file, and the reads after them
return what was written. -/
def transfers_truncated : Transfers :=
  { ret := fun k => if 1 ≤ k ∧ k ≤ 7 then 0 else 4096,
    read_sb := fun _ _ => superblock_good,
    read_bitmap := fun _ _ old => old,
    read_inodes := fun _ old => old }

/-- The calls of a run in which no call returns a negative value; `w0` tells
whether the superblock is written at lines 406-412. -/
def full_calls (w0 : Bool) : List BlockCall :=
  (if w0 then [BlockCall.read 0, BlockCall.write 0] else [BlockCall.read 0]) ++
  table_blocks.map BlockCall.read ++ table_blocks.map BlockCall.write ++ [BlockCall.read 0] ++
  table_blocks.map BlockCall.read

/-- The calls `k < n` returned a non-negative value. -/
def nonneg_upto (env : Transfers) (n : Nat) : Prop := ∀ k, k < n → 0 ≤ env.ret k

/-- The run ended with status 1 at a call that returned a negative value,
the first such call. -/
def aborted (env : Transfers) (r : Run) : Prop :=
  r.status = 1 ∧ r.calls ≠ [] ∧ env.ret (r.calls.length - 1) < 0 ∧
  nonneg_upto env (r.calls.length - 1)

/-- A run on the image `img` in which every call transfers the whole block:
the first reads return the image, and the reads after the writes return what
was written from the buffers. -/
def transfers_of_image (img : Image) : Transfers :=
  { ret := fun _ => 4096,
    read_sb := fun k old => if k = 0 then img.sb else old,
    read_bitmap := fun k b old =>
      if k < 9 then (if b = INODE_BITMAP_BLOCK then img.inode_bitmap else img.data_bitmap)
      else old,
    read_inodes := fun k old => if k < 9 then img.inodes else old }

/-- A state whose valid inode 0 has `blocks_count = 0`, `size = 100` and the
bad pointer 70 in slot 0. -/
def globals_zero_count : Globals :=
  { inode_bitmap := 1 :: List.replicate 4095 0, data_bitmap := List.replicate 4096 0,
    inodes :=
      { Inode.zero with links_count := 1, blocks_count := 0, size := 100,
                        direct := [70, 0, 0, 0, 0, 0, 0, 0, 0, 0, 0, 0] } ::
      List.replicate 79 Inode.zero,
    block_references := List.replicate 64 0 }

/-- A consistent state: inode 0 is valid and lists data block 10, its
inode-bitmap bit and the data-bitmap bit of block 10 are set, and nothing else
is in use. -/
def globals_consistent : Globals :=
  { inode_bitmap := 1 :: List.replicate 4095 0,
    data_bitmap := 0 :: 4 :: List.replicate 4094 0,
    inodes :=
      { Inode.zero with links_count := 1, blocks_count := 1, size := 4096,
                        direct := [10, 0, 0, 0, 0, 0, 0, 0, 0, 0, 0, 0] } ::
      List.replicate 79 Inode.zero,
    block_references := List.replicate 64 0 }

/-! # Theorems -/

/-! ## Loops -/

theorem forLoop_zero {σ : Type} (body : Nat → σ → σ) (s : σ) : forLoop 0 body s = s := rfl

theorem forLoop_succ {σ : Type} (n : Nat) (body : Nat → σ → σ) (s : σ) :
    forLoop (n + 1) body s = body n (forLoop n body s) := rfl

-- From here on loops are unfolded with `forLoop_zero` and `forLoop_succ` only.
attribute [irreducible] forLoop

/-! ## Superblock -/

theorem sb_step_eq (c : Superblock → Prop) [DecidablePred c] (u : Superblock → Superblock)
    (r : Superblock × Nat) (h : ∀ s, ¬ c s → u s = s) :
    sb_step c u r = (u r.1, r.2 + if c r.1 then 1 else 0) := by
  unfold sb_step
  by_cases hc : c r.1
  · simp [hc]
  · simp [hc, h _ hc]

theorem err_step_eq {c : Prop} [Decidable c] (e : Nat) :
    err_step c e = e + if c then 1 else 0 := by
  unfold err_step
  by_cases hc : c <;> simp [hc]

theorem validate_superblock_eq (sb : Superblock) :
    validate_superblock sb = sb_mismatches sb := by
  have h : validate_superblock sb =
      err_step (sb.inode_count > INODE_COUNT) (err_step (sb.inode_size ≠ INODE_SIZE)
      (err_step (sb.first_data_block ≠ DATA_BLOCK_START)
      (err_step (sb.inode_table_start ≠ INODE_TABLE_START)
      (err_step (sb.data_bitmap_block ≠ DATA_BITMAP_BLOCK)
      (err_step (sb.inode_bitmap_block ≠ INODE_BITMAP_BLOCK)
      (err_step (sb.total_blocks ≠ TOTAL_BLOCKS) (err_step (sb.block_size ≠ BLOCK_SIZE)
      (err_step (sb.magic ≠ MAGIC_NUMBER) 0)))))))) := rfl
  rw [h]
  simp only [err_step_eq, sb_mismatches, Nat.zero_add]

/-- Closed form of `fix_superblock`: eight fields are set to their constants,
`inode_count` is capped, and the fix count is the number of mismatches. -/
theorem fix_superblock_eq (sb : Superblock) :
    fix_superblock sb =
      ({ magic := MAGIC_NUMBER, block_size := BLOCK_SIZE, total_blocks := TOTAL_BLOCKS,
         inode_bitmap_block := INODE_BITMAP_BLOCK, data_bitmap_block := DATA_BITMAP_BLOCK,
         inode_table_start := INODE_TABLE_START, first_data_block := DATA_BLOCK_START,
         inode_size := INODE_SIZE, inode_count := min sb.inode_count INODE_COUNT,
         reserved := sb.reserved }, sb_mismatches sb) := by
  have e1 := sb_step_eq (fun s => s.magic ≠ MAGIC_NUMBER)
    (fun s => { s with magic := MAGIC_NUMBER })
  have e2 := sb_step_eq (fun s => s.block_size ≠ BLOCK_SIZE)
    (fun s => { s with block_size := BLOCK_SIZE })
  have e3 := sb_step_eq (fun s => s.total_blocks ≠ TOTAL_BLOCKS)
    (fun s => { s with total_blocks := TOTAL_BLOCKS })
  have e4 := sb_step_eq (fun s => s.inode_bitmap_block ≠ INODE_BITMAP_BLOCK)
    (fun s => { s with inode_bitmap_block := INODE_BITMAP_BLOCK })
  have e5 := sb_step_eq (fun s => s.data_bitmap_block ≠ DATA_BITMAP_BLOCK)
    (fun s => { s with data_bitmap_block := DATA_BITMAP_BLOCK })
  have e6 := sb_step_eq (fun s => s.inode_table_start ≠ INODE_TABLE_START)
    (fun s => { s with inode_table_start := INODE_TABLE_START })
  have e7 := sb_step_eq (fun s => s.first_data_block ≠ DATA_BLOCK_START)
    (fun s => { s with first_data_block := DATA_BLOCK_START })
  have e8 := sb_step_eq (fun s => s.inode_size ≠ INODE_SIZE)
    (fun s => { s with inode_size := INODE_SIZE })
  obtain ⟨m, bs, tb, ib, db, it, fd, is, ic, rs⟩ := sb
  unfold fix_superblock
  simp only []
  rw [e1 _ (by rintro ⟨⟩ h; simp only [ne_eq, not_not] at h; simp [h]),
    e2 _ (by rintro ⟨⟩ h; simp only [ne_eq, not_not] at h; simp [h]),
    e3 _ (by rintro ⟨⟩ h; simp only [ne_eq, not_not] at h; simp [h]),
    e4 _ (by rintro ⟨⟩ h; simp only [ne_eq, not_not] at h; simp [h]),
    e5 _ (by rintro ⟨⟩ h; simp only [ne_eq, not_not] at h; simp [h]),
    e6 _ (by rintro ⟨⟩ h; simp only [ne_eq, not_not] at h; simp [h]),
    e7 _ (by rintro ⟨⟩ h; simp only [ne_eq, not_not] at h; simp [h]),
    e8 _ (by rintro ⟨⟩ h; simp only [ne_eq, not_not] at h; simp [h])]
  unfold sb_step sb_mismatches
  by_cases hc : ic > INODE_COUNT
  · simp only [hc, if_true, Nat.min_eq_right (Nat.le_of_lt hc), Nat.zero_add]
  · simp only [hc, if_false, Nat.min_eq_left (Nat.le_of_not_lt hc), Nat.zero_add, Nat.add_zero]

theorem fix_superblock_snd (sb : Superblock) :
    (fix_superblock sb).2 = validate_superblock sb := by
  rw [fix_superblock_eq, validate_superblock_eq]

theorem validate_fix_superblock (sb : Superblock) :
    validate_superblock (fix_superblock sb).1 = 0 := by
  rw [fix_superblock_eq, validate_superblock_eq]
  simp [sb_mismatches]

theorem sb_mismatches_eq_zero (sb : Superblock) (h : sb_mismatches sb = 0) :
    sb.magic = MAGIC_NUMBER ∧ sb.block_size = BLOCK_SIZE ∧ sb.total_blocks = TOTAL_BLOCKS ∧
    sb.inode_bitmap_block = INODE_BITMAP_BLOCK ∧ sb.data_bitmap_block = DATA_BITMAP_BLOCK ∧
    sb.inode_table_start = INODE_TABLE_START ∧ sb.first_data_block = DATA_BLOCK_START ∧
    sb.inode_size = INODE_SIZE ∧ sb.inode_count ≤ INODE_COUNT := by
  simp only [sb_mismatches, Nat.add_eq_zero_iff, ite_eq_right_iff, one_ne_zero, imp_false,
    ne_eq, not_not, gt_iff_lt, not_lt] at h
  obtain ⟨⟨⟨⟨⟨⟨⟨⟨h1, h2⟩, h3⟩, h4⟩, h5⟩, h6⟩, h7⟩, h8⟩, h9⟩ := h
  exact ⟨h1, h2, h3, h4, h5, h6, h7, h8, h9⟩

theorem fix_superblock_of_valid (sb : Superblock) (h : validate_superblock sb = 0) :
    fix_superblock sb = (sb, 0) := by
  rw [fix_superblock_eq]
  rw [validate_superblock_eq] at h
  rw [h]
  obtain ⟨h1, h2, h3, h4, h5, h6, h7, h8, h9⟩ := sb_mismatches_eq_zero sb h
  obtain ⟨m, bs, tb, ib, db, it, fd, is, ic, rs⟩ := sb
  simp only at h1 h2 h3 h4 h5 h6 h7 h8 h9
  simp only [h1, h2, h3, h4, h5, h6, h7, h8, Nat.min_eq_left h9]

-- From here on the superblock passes are used through the lemmas above only.
attribute [irreducible] fix_superblock validate_superblock

/-- C6: after `fix_superblock` the eight constant fields hold their required
values and `inode_count` is at most 80, so `validate_superblock` returns 0 on
the result; a superblock whose only wrong field is a magic of `0x0000`
(Scenario A) is repaired by setting the magic to `0xD34D` and nothing else. -/
theorem fix_superblock_repairs_fields (sb : Superblock) :
    (fix_superblock sb).1.magic = 0xD34D ∧ (fix_superblock sb).1.block_size = 4096 ∧
    (fix_superblock sb).1.total_blocks = 64 ∧ (fix_superblock sb).1.inode_bitmap_block = 1 ∧
    (fix_superblock sb).1.data_bitmap_block = 2 ∧ (fix_superblock sb).1.inode_table_start = 3 ∧
    (fix_superblock sb).1.first_data_block = 8 ∧ (fix_superblock sb).1.inode_size = 256 ∧
    (fix_superblock sb).1.inode_count ≤ 80 ∧
    validate_superblock (fix_superblock sb).1 = 0 ∧
    (sb.magic = 0x0000 ∧ validate_superblock { sb with magic := 0xD34D } = 0 →
      (fix_superblock sb).1 = { sb with magic := 0xD34D }) := by
  refine ⟨?_, ?_, ?_, ?_, ?_, ?_, ?_, ?_, ?_, validate_fix_superblock sb, ?_⟩
  any_goals (rw [fix_superblock_eq])
  · exact Nat.min_le_right _ _
  · rintro ⟨-, hv⟩
    rw [validate_superblock_eq] at hv
    obtain ⟨-, h2, h3, h4, h5, h6, h7, h8, h9⟩ := sb_mismatches_eq_zero _ hv
    obtain ⟨m, bs, tb, ib, db, it, fd, is, ic, rs⟩ := sb
    simp only at h2 h3 h4 h5 h6 h7 h8 h9
    simp only [h2, h3, h4, h5, h6, h7, h8, Nat.min_eq_left h9]

/-- C7: `fix_superblock` is idempotent: on its own result it changes no field,
leaves the reserved bytes as they are, and returns a fix count of 0. -/
theorem fix_superblock_idempotent (sb : Superblock) :
    fix_superblock (fix_superblock sb).1 = ((fix_superblock sb).1, 0) :=
  fix_superblock_of_valid _ (validate_fix_superblock sb)

/-! ## Orchestration -/

theorem check_all_refs_irrelevant (g : Globals) (refs : List Nat) :
    (check_all { g with block_references := refs }).2 = (check_all g).2 := rfl

/-- The outputs of `main` in terms of the passes. -/
theorem main_eq (img : Image) :
    main img =
      { errors_initially := validate_superblock (fix_superblock img.sb).1 +
            (check_all (repair (load img)).1).2 +
            ((fix_superblock img.sb).2 + (repair (load img)).2),
        fixes_applied := (fix_superblock img.sb).2 + (repair (load img)).2,
        errors_after := validate_superblock (fix_superblock img.sb).1 +
            (check_all (repair (load img)).1).2,
        status := if validate_superblock (fix_superblock img.sb).1 +
            (check_all (repair (load img)).1).2 > 0 then 1 else 0,
        image := { sb := (fix_superblock img.sb).1,
                   inode_bitmap := (repair (load img)).1.inode_bitmap,
                   data_bitmap := (repair (load img)).1.data_bitmap,
                   inodes := (repair (load img)).1.inodes } } := by
  have hsb : (if 0 + (fix_superblock img.sb).2 > 0 then (fix_superblock img.sb).1 else img.sb) =
      (fix_superblock img.sb).1 := by
    by_cases h : 0 + (fix_superblock img.sb).2 > 0
    · rw [if_pos h]
    · rw [if_neg h]
      have h0 : validate_superblock img.sb = 0 := by
        rw [← fix_superblock_snd]; omega
      rw [fix_superblock_of_valid _ h0]
  have h1 : repair (check_all (load img)).1 = repair (load img) := rfl
  unfold main
  conv => lhs; zeta
  rw [hsb, h1]
  generalize repair (load img) = R
  generalize fix_superblock img.sb = F
  generalize check_all = ca
  generalize validate_superblock = vs
  simp only [Nat.zero_add]

theorem main_errors_after_eq (img : Image) :
    (main img).errors_after = validate_superblock (fix_superblock img.sb).1 +
      (check_all (repair (load img)).1).2 :=
  congrArg Report.errors_after (main_eq img)

theorem main_fixes_applied_eq (img : Image) :
    (main img).fixes_applied = (fix_superblock img.sb).2 + (repair (load img)).2 :=
  congrArg Report.fixes_applied (main_eq img)

theorem main_errors_initially_eq (img : Image) :
    (main img).errors_initially = validate_superblock (fix_superblock img.sb).1 +
      (check_all (repair (load img)).1).2 +
      ((fix_superblock img.sb).2 + (repair (load img)).2) :=
  congrArg Report.errors_initially (main_eq img)

theorem main_status_eq (img : Image) :
    (main img).status = if validate_superblock (fix_superblock img.sb).1 +
      (check_all (repair (load img)).1).2 > 0 then 1 else 0 :=
  congrArg Report.status (main_eq img)

theorem main_image_eq (img : Image) :
    (main img).image = { sb := (fix_superblock img.sb).1,
                         inode_bitmap := (repair (load img)).1.inode_bitmap,
                         data_bitmap := (repair (load img)).1.data_bitmap,
                         inodes := (repair (load img)).1.inodes } := by
  rw [main_eq]

/-- C10, as stated, fails: on an empty image whose only defect is a superblock
magic of `0x0000`, `main` prints 1 after "Total errors found initially", while
the errors counted on the as-loaded state (1) plus the fixes applied (1) make
2. -/
theorem main_errors_initially_counterexample :
    (main image_bad_magic).errors_initially ≠
      validate_superblock image_bad_magic.sb + (check_all (load image_bad_magic)).2 +
        (main image_bad_magic).fixes_applied ∧
    (main image_bad_magic).errors_initially = 1 ∧
    validate_superblock image_bad_magic.sb + (check_all (load image_bad_magic)).2 = 1 ∧
    (main image_bad_magic).fixes_applied = 1 := by
  decide!

/-- C10, amended: the number printed after "Total errors found initially" is
the error count of the re-validation of the repaired image (the number printed
after "Total errors after fixes") plus the total number of fixes applied. -/
theorem main_errors_initially_is_after_plus_fixes (img : Image) :
    (main img).errors_initially = (main img).errors_after + (main img).fixes_applied ∧
    (main img).errors_after =
      validate_superblock (main img).image.sb + (check_all (load (main img).image)).2 ∧
    (main img).fixes_applied = (fix_superblock img.sb).2 + (repair (load img)).2 := by
  rw [main_errors_initially_eq, main_errors_after_eq, main_fixes_applied_eq, main_image_eq]
  refine ⟨rfl, ?_, rfl⟩
  generalize repair (load img) = R
  generalize fix_superblock img.sb = F
  generalize validate_superblock = vs
  exact congrArg _ (check_all_refs_irrelevant R.1 _).symm

/-! ## Lists as arrays -/

theorem getD_set_self {α : Type} (l : List α) (i : Nat) (a d : α) (h : i < l.length) :
    (l.set i a).getD i d = a := by
  simp [List.getD_eq_getElem?_getD, List.getElem?_set, h]

theorem getD_set_of_ne {α : Type} (l : List α) (i j : Nat) (a d : α) (h : i ≠ j) :
    (l.set i a).getD j d = l.getD j d := by
  simp [List.getD_eq_getElem?_getD, List.getElem?_set, h]

theorem getD_of_length_le {α : Type} (l : List α) (i : Nat) (d : α) (h : l.length ≤ i) :
    l.getD i d = d := by
  simp [List.getD_eq_getElem?_getD, List.getElem?_eq_none h]

theorem set_getD_self {α : Type} (l : List α) (i : Nat) (d : α) :
    l.set i (l.getD i d) = l := by
  apply List.ext_getElem?
  intro j
  by_cases hij : i = j
  · subst hij
    by_cases h : i < l.length
    · simp [List.getElem?_set, h, List.getD_eq_getElem?_getD]
    · have h2 : l.length ≤ i := Nat.le_of_not_lt h
      simp [List.getElem?_set, h, List.getElem?_eq_none h2]
  · simp [List.getElem?_set, hij]

theorem list_ext_getD {α : Type} (l₁ l₂ : List α) (d : α) (hl : l₁.length = l₂.length)
    (h : ∀ i, i < l₁.length → l₁.getD i d = l₂.getD i d) : l₁ = l₂ := by
  apply List.ext_getElem hl
  intro i h1 h2
  have := h i h1
  simpa [List.getD_eq_getElem?_getD, List.getElem?_eq_getElem h1,
    List.getElem?_eq_getElem h2] using this

theorem getD_replicate {α : Type} (n i : Nat) (a : α) : (List.replicate n a).getD i a = a := by
  by_cases h : i < n
  · simp [List.getD_eq_getElem?_getD, List.getElem?_replicate, h]
  · simp [List.getD_eq_getElem?_getD, List.getElem?_replicate, h]

/-! ## Loops -/

/-- Loop invariant rule: `P k` holds of the state after the first `k` iterations. -/
theorem forLoop_invariant {σ : Type} (P : Nat → σ → Prop) (n : Nat) (body : Nat → σ → σ)
    (s : σ) (h0 : P 0 s) (hstep : ∀ k t, k < n → P k t → P (k + 1) (body k t)) :
    P n (forLoop n body s) := by
  induction n with
  | zero => rw [forLoop_zero]; exact h0
  | succ m ih =>
    rw [forLoop_succ]
    exact hstep m _ (Nat.lt_succ_self m)
      (ih (fun k t hk hp => hstep k t (Nat.lt_succ_of_lt hk) hp))

/-- A loop whose body never changes the state it is started in leaves it as it is. -/
theorem forLoop_fixed {σ : Type} (n : Nat) (body : Nat → σ → σ) (s : σ)
    (h : ∀ k, k < n → body k s = s) : forLoop n body s = s :=
  forLoop_invariant (fun _ t => t = s) n body s rfl (fun k t hk ht => by rw [ht]; exact h k hk)

/-- Two loops whose bodies agree on the first `n` indices agree. -/
theorem forLoop_congr {σ : Type} (n : Nat) (f g : Nat → σ → σ) (s : σ)
    (h : ∀ k t, k < n → f k t = g k t) : forLoop n f s = forLoop n g s := by
  induction n with
  | zero => rw [forLoop_zero, forLoop_zero]
  | succ m ih =>
    rw [forLoop_succ, forLoop_succ, ih (fun k t hk => h k t (Nat.lt_succ_of_lt hk)),
      h m _ (Nat.lt_succ_self m)]

/-- A projection that commutes with the bodies commutes with the loops. -/
theorem forLoop_map {σ τ : Type} (p : σ → τ) (n : Nat) (f : Nat → σ → σ) (g : Nat → τ → τ)
    (s : σ) (h : ∀ k t, k < n → p (f k t) = g k (p t)) :
    p (forLoop n f s) = forLoop n g (p s) := by
  induction n with
  | zero => rw [forLoop_zero, forLoop_zero]
  | succ m ih =>
    rw [forLoop_succ, forLoop_succ, h m _ (Nat.lt_succ_self m),
      ih (fun k t hk => h k t (Nat.lt_succ_of_lt hk))]

/-! ## Bitmap bits -/

theorem is_block_marked_eq (bm : List Nat) (i : Nat) :
    is_block_marked bm i = if bit_set bm i then 1 else 0 := by
  unfold is_block_marked bit_set
  rw [Nat.and_one_is_mod, Nat.testBit_to_div_mod, Nat.shiftRight_eq_div_pow]
  generalize bm.getD (i / 8) 0 / 2 ^ (i % 8) = x
  rcases Nat.mod_two_eq_zero_or_one x with h | h <;> simp [h]

theorem is_block_marked_ne_zero (bm : List Nat) (i : Nat) :
    is_block_marked bm i ≠ 0 ↔ bit_set bm i = true := by
  rw [is_block_marked_eq]
  cases bit_set bm i <;> simp

theorem is_block_marked_eq_zero (bm : List Nat) (i : Nat) :
    is_block_marked bm i = 0 ↔ bit_set bm i = false := by
  rw [is_block_marked_eq]
  cases bit_set bm i <;> simp

theorem is_block_marked_eq_one (bm : List Nat) (i : Nat) :
    is_block_marked bm i = 1 ↔ bit_set bm i = true := by
  rw [is_block_marked_eq]
  cases bit_set bm i <;> simp

theorem set_bitmap_bit_length (bm : List Nat) (i v : Nat) :
    (set_bitmap_bit bm i v).length = bm.length := by
  unfold set_bitmap_bit
  split_ifs <;> simp

theorem testBit_255 (j : Nat) (hj : j < 8) : Nat.testBit 255 j = true := by
  have := Nat.testBit_two_pow_sub_one 8 j
  simpa [hj] using this

/-- After `set_bitmap_bit(bitmap, i, v)` bit `i` is set exactly when `v` is
nonzero. -/
theorem bit_set_set_self (bm : List Nat) (i v : Nat) (h : i / 8 < bm.length) :
    bit_set (set_bitmap_bit bm i v) i = decide (v ≠ 0) := by
  have h8 : i % 8 < 8 := Nat.mod_lt _ (by decide)
  unfold set_bitmap_bit bit_set
  by_cases hv : v ≠ 0
  · rw [if_pos hv, getD_set_self _ _ _ _ h]
    rw [show (256 : Nat) = 2 ^ 8 from rfl, Nat.testBit_mod_two_pow, Nat.testBit_or,
      Nat.one_shiftLeft, Nat.testBit_two_pow_self]
    simp [h8, hv]
  · rw [if_neg hv, getD_set_self _ _ _ _ h]
    rw [show (256 : Nat) = 2 ^ 8 from rfl, Nat.testBit_mod_two_pow, Nat.testBit_and,
      Nat.testBit_xor, Nat.one_shiftLeft, Nat.testBit_two_pow_self, testBit_255 _ h8]
    simp [hv]

/-- `set_bitmap_bit(bitmap, i, v)` leaves every other bit as it was. -/
theorem bit_set_set_other (bm : List Nat) (i k v : Nat) (hk : k ≠ i) :
    bit_set (set_bitmap_bit bm i v) k = bit_set bm k := by
  have h8 : k % 8 < 8 := Nat.mod_lt _ (by decide)
  by_cases hb : i / 8 = k / 8
  · have hm : i % 8 ≠ k % 8 := by omega
    by_cases hl : i / 8 < bm.length
    · unfold set_bitmap_bit bit_set
      rw [← hb]
      by_cases hv : v ≠ 0
      · rw [if_pos hv, getD_set_self _ _ _ _ hl]
        rw [show (256 : Nat) = 2 ^ 8 from rfl, Nat.testBit_mod_two_pow, Nat.testBit_or,
          Nat.one_shiftLeft, Nat.testBit_two_pow_of_ne hm]
        simp [h8]
      · rw [if_neg hv, getD_set_self _ _ _ _ hl]
        rw [show (256 : Nat) = 2 ^ 8 from rfl, Nat.testBit_mod_two_pow, Nat.testBit_and,
          Nat.testBit_xor, Nat.one_shiftLeft, Nat.testBit_two_pow_of_ne hm, testBit_255 _ h8]
        simp [h8]
    · unfold set_bitmap_bit bit_set
      have hl2 : bm.length ≤ i / 8 := Nat.le_of_not_lt hl
      split_ifs <;> rw [List.set_eq_of_length_le hl2]
  · unfold set_bitmap_bit bit_set
    split_ifs <;> rw [getD_set_of_ne _ _ _ _ _ hb]

/-! ## The bitmap repair loops -/

theorem sync_bit_eq (want : Nat → Bool) (i : Nat) (r : List Nat × Nat) :
    sync_bit want i r =
      if bit_set r.1 i = want i then r
      else (set_bitmap_bit r.1 i (if want i then 1 else 0), r.2 + 1) := by
  unfold sync_bit
  simp only [is_block_marked_ne_zero, is_block_marked_eq_zero]
  cases hb : bit_set r.1 i <;> cases hw : want i <;> simp

theorem sync_bit_fixed (want : Nat → Bool) (i : Nat) (r : List Nat × Nat)
    (h : bit_set r.1 i = want i) : sync_bit want i r = r := by
  rw [sync_bit_eq, if_pos h]

theorem sync_bit_length (want : Nat → Bool) (i : Nat) (r : List Nat × Nat) :
    (sync_bit want i r).1.length = r.1.length := by
  rw [sync_bit_eq]
  by_cases hb : bit_set r.1 i = want i
  · rw [if_pos hb]
  · rw [if_neg hb]
    exact set_bitmap_bit_length _ _ _

theorem sync_bit_self (want : Nat → Bool) (i : Nat) (r : List Nat × Nat)
    (h : i / 8 < r.1.length) : bit_set (sync_bit want i r).1 i = want i := by
  rw [sync_bit_eq]
  by_cases hb : bit_set r.1 i = want i
  · rw [if_pos hb]
    exact hb
  · rw [if_neg hb]
    show bit_set (set_bitmap_bit r.1 i _) i = _
    rw [bit_set_set_self _ _ _ h]
    cases want i <;> simp

theorem sync_bit_other (want : Nat → Bool) (i k : Nat) (r : List Nat × Nat) (hk : k ≠ i) :
    bit_set (sync_bit want i r).1 k = bit_set r.1 k := by
  rw [sync_bit_eq]
  by_cases hb : bit_set r.1 i = want i
  · rw [if_pos hb]
  · rw [if_neg hb]
    exact bit_set_set_other _ _ _ _ hk

/-- A loop that brings the bits `lo .. lo + n - 1` to `want` sets exactly these
bits and keeps the length of the bitmap. -/
theorem sync_loop (want : Nat → Bool) (lo n : Nat) (bm : List Nat) (f : Nat)
    (h : lo + n ≤ 8 * bm.length) :
    (forLoop n (fun k => sync_bit want (lo + k)) (bm, f)).1.length = bm.length ∧
    (∀ i, lo ≤ i → i < lo + n →
      bit_set (forLoop n (fun k => sync_bit want (lo + k)) (bm, f)).1 i = want i) ∧
    (∀ i, i < lo ∨ lo + n ≤ i →
      bit_set (forLoop n (fun k => sync_bit want (lo + k)) (bm, f)).1 i = bit_set bm i) := by
  refine forLoop_invariant (fun k (t : List Nat × Nat) => t.1.length = bm.length ∧
    (∀ i, lo ≤ i → i < lo + k → bit_set t.1 i = want i) ∧
    (∀ i, i < lo ∨ lo + k ≤ i → bit_set t.1 i = bit_set bm i)) n _ _ ?_ ?_
  · exact ⟨rfl, fun i h1 h2 => absurd h2 (by omega), fun i _ => rfl⟩
  · rintro k t hk ⟨hlen, hin, hout⟩
    refine ⟨by rw [sync_bit_length, hlen], ?_, ?_⟩
    · intro i h1 h2
      by_cases hi : i = lo + k
      · subst hi
        exact sync_bit_self _ _ _ (by rw [hlen]; omega)
      · rw [sync_bit_other _ _ _ _ hi]
        exact hin i h1 (by omega)
    · intro i hi
      rw [sync_bit_other _ _ _ _ (by omega)]
      exact hout i (by omega)

/-- A loop over bits that already agree with `want` changes nothing. -/
theorem sync_loop_fixed (want : Nat → Bool) (lo n : Nat) (bm : List Nat) (f : Nat)
    (h : ∀ i, lo ≤ i → i < lo + n → bit_set bm i = want i) :
    forLoop n (fun k => sync_bit want (lo + k)) (bm, f) = (bm, f) :=
  forLoop_fixed n _ _ (fun k hk => sync_bit_fixed _ _ _ (h _ (by omega) (by omega)))

/-- `fix_bitmaps` as two runs of the shared loop around the recount. -/
theorem fix_bitmaps_eq (g : Globals) :
    fix_bitmaps g =
      ({ g with
          inode_bitmap := (forLoop INODE_COUNT
            (fun k => sync_bit (fun i => (g.inodes.getD i default).is_valid) (0 + k))
            (g.inode_bitmap, 0)).1,
          data_bitmap := (forLoop (TOTAL_BLOCKS - DATA_BLOCK_START)
            (fun k => sync_bit (fun i => decide ((recount g.inodes).getD i 0 > 0))
              (DATA_BLOCK_START + k))
            (g.data_bitmap, (forLoop INODE_COUNT
              (fun k => sync_bit (fun i => (g.inodes.getD i default).is_valid) (0 + k))
              (g.inode_bitmap, 0)).2)).1,
          block_references := recount g.inodes },
       (forLoop (TOTAL_BLOCKS - DATA_BLOCK_START)
            (fun k => sync_bit (fun i => decide ((recount g.inodes).getD i 0 > 0))
              (DATA_BLOCK_START + k))
            (g.data_bitmap, (forLoop INODE_COUNT
              (fun k => sync_bit (fun i => (g.inodes.getD i default).is_valid) (0 + k))
              (g.inode_bitmap, 0)).2)).2) := by
  have e : ∀ (n : Nat) (want : Nat → Bool) (s : List Nat × Nat),
      forLoop n (fun k => sync_bit want (0 + k)) s = forLoop n (fun k => sync_bit want k) s :=
    fun n want s => forLoop_congr _ _ _ _ (fun k t _ => by rw [Nat.zero_add])
  rw [e]
  rfl

/-! ## Reference counts -/

theorem slot_refs_le (ino : Inode) (b m : Nat) : slot_refs ino b m ≤ m := by
  induction m with
  | zero => simp [slot_refs]
  | succ k ih =>
    simp only [slot_refs]
    split_ifs <;> omega

theorem ref_count_le (inodes : List Inode) (b n : Nat) : ref_count inodes b n ≤ 12 * n := by
  induction n with
  | zero => simp [ref_count]
  | succ k ih =>
    simp only [ref_count]
    have := slot_refs_le (inodes.getD k default) b 12
    split_ifs <;> omega

theorem slot_refs_pos (ino : Inode) (b m : Nat) :
    0 < slot_refs ino b m ↔ ∃ j, j < m ∧ ino.direct.getD j 0 = b := by
  induction m with
  | zero => simp [slot_refs]
  | succ k ih =>
    simp only [slot_refs]
    constructor
    · intro h
      by_cases hk : ino.direct.getD k 0 = b
      · exact ⟨k, Nat.lt_succ_self k, hk⟩
      · rw [if_neg hk, Nat.add_zero] at h
        obtain ⟨j, hj, hjb⟩ := ih.mp h
        exact ⟨j, Nat.lt_succ_of_lt hj, hjb⟩
    · rintro ⟨j, hj, hjb⟩
      by_cases hjk : j = k
      · subst hjk
        rw [if_pos hjb]
        omega
      · have := ih.mpr ⟨j, by omega, hjb⟩
        omega

theorem ref_count_mono (inodes : List Inode) (b : Nat) {n m : Nat} (h : n ≤ m) :
    ref_count inodes b n ≤ ref_count inodes b m := by
  induction m with
  | zero =>
    have : n = 0 := by omega
    subst this
    exact Nat.le_refl _
  | succ k ih =>
    by_cases hk : n = k + 1
    · subst hk
      exact Nat.le_refl _
    · have := ih (by omega)
      simp only [ref_count]
      omega

theorem ref_count_succ_of_ref (inodes : List Inode) (b i : Nat)
    (hv : (inodes.getD i default).is_valid = true)
    (hr : 0 < slot_refs (inodes.getD i default) b 12) :
    ref_count inodes b i + 1 ≤ ref_count inodes b (i + 1) := by
  simp only [ref_count, hv, if_true]
  omega

theorem ref_count_pos (inodes : List Inode) (b n : Nat) :
    0 < ref_count inodes b n ↔
      ∃ i, i < n ∧ (inodes.getD i default).is_valid = true ∧
        0 < slot_refs (inodes.getD i default) b 12 := by
  induction n with
  | zero => simp [ref_count]
  | succ k ih =>
    constructor
    · intro h
      by_cases hk : 0 < ref_count inodes b k
      · obtain ⟨i, hi, hv, hr⟩ := ih.mp hk
        exact ⟨i, Nat.lt_succ_of_lt hi, hv, hr⟩
      · simp only [ref_count] at h
        by_cases hv : (inodes.getD k default).is_valid = true
        · rw [if_pos hv] at h
          exact ⟨k, Nat.lt_succ_self k, hv, by omega⟩
        · rw [if_neg hv] at h
          omega
    · rintro ⟨i, hi, hv, hr⟩
      have h1 := ref_count_succ_of_ref inodes b i hv hr
      have h2 := ref_count_mono inodes b (show i + 1 ≤ k + 1 by omega)
      omega

/-- Two different valid inodes that point to `b` make its count at least 2. -/
theorem two_le_ref_count (inodes : List Inode) (b n i k : Nat) (hik : i < k) (hk : k < n)
    (hvi : (inodes.getD i default).is_valid = true)
    (hri : 0 < slot_refs (inodes.getD i default) b 12)
    (hvk : (inodes.getD k default).is_valid = true)
    (hrk : 0 < slot_refs (inodes.getD k default) b 12) :
    2 ≤ ref_count inodes b n := by
  have h1 := ref_count_succ_of_ref inodes b i hvi hri
  have h2 := ref_count_succ_of_ref inodes b k hvk hrk
  have h3 := ref_count_mono inodes b (show i + 1 ≤ k by omega)
  have h4 := ref_count_mono inodes b (show k + 1 ≤ n by omega)
  omega

/-- When `b` is referenced, `first_ref` is the lowest-indexed valid inode with
a pointer to `b`. -/
theorem first_ref_spec (inodes : List Inode) (b n : Nat) (h : 0 < ref_count inodes b n) :
    first_ref inodes b n < n ∧
    (inodes.getD (first_ref inodes b n) default).is_valid = true ∧
    0 < slot_refs (inodes.getD (first_ref inodes b n) default) b 12 ∧
    ∀ k, k < first_ref inodes b n →
      ¬ ((inodes.getD k default).is_valid = true ∧
         0 < slot_refs (inodes.getD k default) b 12) := by
  induction n with
  | zero => simp [ref_count] at h
  | succ m ih =>
    simp only [first_ref]
    by_cases hc : ref_count inodes b m = 0 ∧ (inodes.getD m default).is_valid = true ∧
        0 < slot_refs (inodes.getD m default) b 12
    · rw [if_pos hc]
      refine ⟨Nat.lt_succ_self m, hc.2.1, hc.2.2, ?_⟩
      rintro k hk ⟨hv, hr⟩
      have := (ref_count_pos inodes b m).mpr ⟨k, hk, hv, hr⟩
      omega
    · rw [if_neg hc]
      have hm : 0 < ref_count inodes b m := by
        by_contra h0
        have h0' : ref_count inodes b m = 0 := by omega
        simp only [ref_count, h0', Nat.zero_add] at h
        by_cases hv : (inodes.getD m default).is_valid = true
        · rw [if_pos hv] at h
          exact hc ⟨h0', hv, h⟩
        · rw [if_neg hv] at h
          omega
      obtain ⟨h1, h2, h3, h4⟩ := ih hm
      exact ⟨Nat.lt_succ_of_lt h1, h2, h3, h4⟩

/-! ## The first pass of `fix_duplicates` -/

theorem count_step_eq (i p : Nat) (t : List Nat × List Nat) :
    count_step i p t =
      if p ≥ DATA_BLOCK_START ∧ p < TOTAL_BLOCKS then
        (t.1.set p ((t.1.getD p 0 + 1) % U32),
         if (t.1.set p ((t.1.getD p 0 + 1) % U32)).getD p 0 = 1 then t.2.set p i else t.2)
      else t := by
  unfold count_step
  by_cases hr : p ≥ DATA_BLOCK_START ∧ p < TOTAL_BLOCKS
  · rw [if_pos hr, if_pos hr]
    by_cases h1 : (t.1.set p ((t.1.getD p 0 + 1) % U32)).getD p 0 = 1
    · simp only [h1, if_true]
    · simp only [h1, if_false]
  · rw [if_neg hr, if_neg hr]

theorem count_step_length (i p : Nat) (t : List Nat × List Nat) :
    (count_step i p t).1.length = t.1.length ∧ (count_step i p t).2.length = t.2.length := by
  rw [count_step_eq]
  by_cases hr : p ≥ DATA_BLOCK_START ∧ p < TOTAL_BLOCKS
  · rw [if_pos hr]
    refine ⟨List.length_set _ _ _, ?_⟩
    show (if _ then _ else _ : List Nat).length = _
    split_ifs
    · exact List.length_set _ _ _
    · rfl
  · rw [if_neg hr]
    exact ⟨rfl, rfl⟩

theorem count_step_refs (i p b : Nat) (t : List Nat × List Nat) (hl : t.1.length = TOTAL_BLOCKS)
    (hb1 : DATA_BLOCK_START ≤ b) (hb2 : b < TOTAL_BLOCKS) (hlt : t.1.getD b 0 + 1 < U32) :
    (count_step i p t).1.getD b 0 = t.1.getD b 0 + if p = b then 1 else 0 := by
  rw [count_step_eq]
  by_cases hp : p = b
  · subst hp
    have hpl : p < t.1.length := by rw [hl]; exact hb2
    rw [if_pos ⟨hb1, hb2⟩, if_pos rfl]
    show (t.1.set p _).getD p 0 = _
    rw [getD_set_self _ _ _ _ hpl, Nat.mod_eq_of_lt hlt]
  · have e : (if p = b then 1 else 0) = 0 := if_neg hp
    rw [e, Nat.add_zero (t.1.getD b 0)]
    by_cases hr : p ≥ DATA_BLOCK_START ∧ p < TOTAL_BLOCKS
    · rw [if_pos hr]
      exact getD_set_of_ne _ _ _ _ _ hp
    · rw [if_neg hr]

theorem count_step_first (i p b : Nat) (t : List Nat × List Nat)
    (hl : t.1.length = TOTAL_BLOCKS) (hl2 : t.2.length = TOTAL_BLOCKS)
    (hb1 : DATA_BLOCK_START ≤ b) (hb2 : b < TOTAL_BLOCKS) (hlt : t.1.getD b 0 + 1 < U32) :
    (count_step i p t).2.getD b 0 = if p = b ∧ t.1.getD b 0 = 0 then i else t.2.getD b 0 := by
  rw [count_step_eq]
  by_cases hp : p = b
  · subst hp
    have hpl : p < t.1.length := by rw [hl]; exact hb2
    have hpl2 : p < t.2.length := by rw [hl2]; exact hb2
    rw [if_pos ⟨hb1, hb2⟩]
    show (if (t.1.set p _).getD p 0 = 1 then t.2.set p i else t.2).getD p 0 = _
    rw [getD_set_self _ _ _ _ hpl, Nat.mod_eq_of_lt hlt]
    by_cases h0 : t.1.getD p 0 = 0
    · rw [if_pos (by omega), if_pos ⟨rfl, h0⟩]
      exact getD_set_self _ _ _ _ hpl2
    · rw [if_neg (by omega), if_neg (fun h => h0 h.2)]
  · have e : (if p = b ∧ t.1.getD b 0 = 0 then i else t.2.getD b 0) = t.2.getD b 0 :=
      if_neg (fun h => hp h.1)
    rw [e]
    by_cases hr : p ≥ DATA_BLOCK_START ∧ p < TOTAL_BLOCKS
    · rw [if_pos hr]
      show (if _ then t.2.set p i else t.2).getD b 0 = _
      split_ifs
      · exact getD_set_of_ne _ _ _ _ _ hp
      · rfl
    · rw [if_neg hr]

theorem first_update_arith (p b x s i f : Nat) :
    (if p = b ∧ x + s = 0 then i else if x = 0 ∧ 0 < s then i else f) =
      if x = 0 ∧ 0 < s + (if p = b then 1 else 0) then i else f := by
  by_cases hp : p = b <;> by_cases h0 : x = 0 <;> by_cases hs : s = 0 <;>
    simp [hp, h0, hs]

/-- The inner loop of the first pass (lines 295-303) on inode `i`. -/
theorem count_inner (ino : Inode) (i m : Nat) (t0 : List Nat × List Nat)
    (hl : t0.1.length = TOTAL_BLOCKS) (hl2 : t0.2.length = TOTAL_BLOCKS)
    (hlt : ∀ b, DATA_BLOCK_START ≤ b → b < TOTAL_BLOCKS → t0.1.getD b 0 + m < U32) :
    (forLoop m (fun j t => count_step i (ino.direct.getD j 0) t) t0).1.length = TOTAL_BLOCKS ∧
    (forLoop m (fun j t => count_step i (ino.direct.getD j 0) t) t0).2.length = TOTAL_BLOCKS ∧
    ∀ b, DATA_BLOCK_START ≤ b → b < TOTAL_BLOCKS →
      (forLoop m (fun j t => count_step i (ino.direct.getD j 0) t) t0).1.getD b 0 =
        t0.1.getD b 0 + slot_refs ino b m ∧
      (forLoop m (fun j t => count_step i (ino.direct.getD j 0) t) t0).2.getD b 0 =
        if t0.1.getD b 0 = 0 ∧ 0 < slot_refs ino b m then i else t0.2.getD b 0 := by
  induction m with
  | zero =>
    rw [forLoop_zero]
    refine ⟨hl, hl2, fun b _ _ => ⟨by simp [slot_refs], by simp [slot_refs]⟩⟩
  | succ k ih =>
    obtain ⟨h1, h2, h3⟩ := ih (fun b hb1 hb2 => by have := hlt b hb1 hb2; omega)
    rw [forLoop_succ]
    generalize forLoop k (fun j t => count_step i (ino.direct.getD j 0) t) t0 = t at h1 h2 h3
    have hlen := count_step_length i (ino.direct.getD k 0) t
    refine ⟨hlen.1.trans h1, hlen.2.trans h2, fun b hb1 hb2 => ?_⟩
    obtain ⟨hr, hf⟩ := h3 b hb1 hb2
    have hbound : t.1.getD b 0 + 1 < U32 := by
      have := hlt b hb1 hb2
      have := slot_refs_le ino b k
      omega
    rw [count_step_refs i _ b t h1 hb1 hb2 hbound, count_step_first i _ b t h1 h2 hb1 hb2 hbound,
      hr, hf]
    simp only [slot_refs]
    refine ⟨by omega, ?_⟩
    exact first_update_arith _ _ _ _ _ _


theorem getD_replicate_lt {α : Type} (n i : Nat) (a d : α) (h : i < n) :
    (List.replicate n a).getD i d = a := by
  simp [List.getD_eq_getElem?_getD, List.getElem?_replicate, h]

theorem ref_count_succ_valid (inodes : List Inode) (b k : Nat)
    (hv : (inodes.getD k default).is_valid = true) :
    ref_count inodes b (k + 1) =
      ref_count inodes b k + slot_refs (inodes.getD k default) b 12 := by
  simp only [ref_count]
  rw [if_pos hv]

theorem ref_count_succ_invalid (inodes : List Inode) (b k : Nat)
    (hv : ¬ (inodes.getD k default).is_valid = true) :
    ref_count inodes b (k + 1) = ref_count inodes b k := by
  simp only [ref_count]
  rw [if_neg hv]
  rfl

theorem first_ref_succ_valid (inodes : List Inode) (b k : Nat)
    (hv : (inodes.getD k default).is_valid = true) :
    first_ref inodes b (k + 1) =
      if ref_count inodes b k = 0 ∧ 0 < slot_refs (inodes.getD k default) b 12 then k
      else first_ref inodes b k := by
  simp only [first_ref]
  by_cases h : ref_count inodes b k = 0 ∧ 0 < slot_refs (inodes.getD k default) b 12
  · rw [if_pos h, if_pos ⟨h.1, hv, h.2⟩]
  · rw [if_neg h, if_neg (fun g => h ⟨g.1, g.2.2⟩)]

theorem first_ref_succ_invalid (inodes : List Inode) (b k : Nat)
    (hv : ¬ (inodes.getD k default).is_valid = true) :
    first_ref inodes b (k + 1) = first_ref inodes b k := by
  simp only [first_ref]
  rw [if_neg (fun g => hv g.2.1)]

theorem fix_duplicates_count_eq (inodes : List Inode) :
    fix_duplicates_count inodes =
      forLoop INODE_COUNT (fun i t =>
        if (inodes.getD i default).is_valid then
          forLoop 12 (fun j t => count_step i ((inodes.getD i default).direct.getD j 0) t) t
        else t) (List.replicate TOTAL_BLOCKS 0, List.replicate TOTAL_BLOCKS 0xFFFFFFFF) := rfl

/-- The outer loop of the first pass after `n` inodes: the tables hold
`ref_count` and `first_ref`. -/
theorem count_outer (inodes : List Inode) (n : Nat) (hn : 12 * n < U32) :
    (forLoop n (fun i t =>
        if (inodes.getD i default).is_valid then
          forLoop 12 (fun j t => count_step i ((inodes.getD i default).direct.getD j 0) t) t
        else t)
        (List.replicate TOTAL_BLOCKS 0, List.replicate TOTAL_BLOCKS 0xFFFFFFFF)).1.length
      = TOTAL_BLOCKS ∧
    (forLoop n (fun i t =>
        if (inodes.getD i default).is_valid then
          forLoop 12 (fun j t => count_step i ((inodes.getD i default).direct.getD j 0) t) t
        else t)
        (List.replicate TOTAL_BLOCKS 0, List.replicate TOTAL_BLOCKS 0xFFFFFFFF)).2.length
      = TOTAL_BLOCKS ∧
    ∀ b, DATA_BLOCK_START ≤ b → b < TOTAL_BLOCKS →
      (forLoop n (fun i t =>
        if (inodes.getD i default).is_valid then
          forLoop 12 (fun j t => count_step i ((inodes.getD i default).direct.getD j 0) t) t
        else t)
        (List.replicate TOTAL_BLOCKS 0, List.replicate TOTAL_BLOCKS 0xFFFFFFFF)).1.getD b 0
        = ref_count inodes b n ∧
      (forLoop n (fun i t =>
        if (inodes.getD i default).is_valid then
          forLoop 12 (fun j t => count_step i ((inodes.getD i default).direct.getD j 0) t) t
        else t)
        (List.replicate TOTAL_BLOCKS 0, List.replicate TOTAL_BLOCKS 0xFFFFFFFF)).2.getD b 0
        = first_ref inodes b n := by
  induction n with
  | zero =>
    rw [forLoop_zero]
    refine ⟨List.length_replicate _ _, List.length_replicate _ _, fun b hb1 hb2 => ⟨?_, ?_⟩⟩
    · exact getD_replicate _ _ _
    · exact getD_replicate_lt _ _ _ _ hb2
  | succ k ih =>
    obtain ⟨h1, h2, h3⟩ := ih (by omega)
    rw [forLoop_succ]
    generalize forLoop k (fun i t =>
        if (inodes.getD i default).is_valid then
          forLoop 12 (fun j t => count_step i ((inodes.getD i default).direct.getD j 0) t) t
        else t)
        (List.replicate TOTAL_BLOCKS 0, List.replicate TOTAL_BLOCKS 0xFFFFFFFF) = t at h1 h2 h3
    by_cases hv : (inodes.getD k default).is_valid = true
    · rw [if_pos hv]
      obtain ⟨g1, g2, g3⟩ := count_inner (inodes.getD k default) k 12 t h1 h2
        (fun b hb1 hb2 => by
          rw [(h3 b hb1 hb2).1]
          have := ref_count_le inodes b k
          omega)
      refine ⟨g1, g2, fun b hb1 hb2 => ?_⟩
      obtain ⟨g4, g5⟩ := g3 b hb1 hb2
      rw [g4, g5, (h3 b hb1 hb2).1, (h3 b hb1 hb2).2]
      rw [ref_count_succ_valid _ _ _ hv, first_ref_succ_valid _ _ _ hv]
      exact ⟨rfl, rfl⟩
    · rw [if_neg hv]
      refine ⟨h1, h2, fun b hb1 hb2 => ?_⟩
      rw [(h3 b hb1 hb2).1, (h3 b hb1 hb2).2]
      rw [ref_count_succ_invalid _ _ _ hv, first_ref_succ_invalid _ _ _ hv]
      exact ⟨rfl, rfl⟩

theorem fix_duplicates_count_spec (inodes : List Inode) :
    (fix_duplicates_count inodes).1.length = TOTAL_BLOCKS ∧
    (fix_duplicates_count inodes).2.length = TOTAL_BLOCKS ∧
    ∀ b, DATA_BLOCK_START ≤ b → b < TOTAL_BLOCKS →
      (fix_duplicates_count inodes).1.getD b 0 = ref_count inodes b INODE_COUNT ∧
      (fix_duplicates_count inodes).2.getD b 0 = first_ref inodes b INODE_COUNT := by
  rw [fix_duplicates_count_eq]
  exact count_outer inodes INODE_COUNT (by decide)

theorem count_step_fst (i p : Nat) (t : List Nat × List Nat) :
    (count_step i p t).1 =
      if p ≥ TOTAL_BLOCKS then t.1
      else if p ≥ DATA_BLOCK_START then t.1.set p ((t.1.getD p 0 + 1) % U32)
      else t.1 := by
  rw [count_step_eq]
  by_cases h1 : p ≥ TOTAL_BLOCKS
  · rw [if_pos h1, if_neg (fun h => absurd h.2 (by omega))]
  · rw [if_neg h1]
    by_cases h2 : p ≥ DATA_BLOCK_START
    · rw [if_pos h2, if_pos ⟨h2, by omega⟩]
    · rw [if_neg h2, if_neg (fun h => h2 h.1)]

/-- The recount of `fix_bitmaps` and `check_bitmaps` computes the same table
as the first pass of `fix_duplicates`. -/
theorem recount_eq (inodes : List Inode) :
    recount inodes = (fix_duplicates_count inodes).1 := by
  rw [fix_duplicates_count_eq]
  unfold recount
  symm
  apply forLoop_map Prod.fst
  intro k t _
  by_cases hv : (inodes.getD k default).is_valid = true
  · rw [if_pos hv, if_pos hv]
    unfold count_block_references
    apply forLoop_map Prod.fst
    intro j u _
    exact count_step_fst _ _ _
  · rw [if_neg hv, if_neg hv]

theorem recount_spec (inodes : List Inode) :
    (recount inodes).length = TOTAL_BLOCKS ∧
    ∀ b, DATA_BLOCK_START ≤ b → b < TOTAL_BLOCKS →
      (recount inodes).getD b 0 = ref_count inodes b INODE_COUNT := by
  rw [recount_eq]
  obtain ⟨h1, _, h3⟩ := fix_duplicates_count_spec inodes
  exact ⟨h1, fun b hb1 hb2 => (h3 b hb1 hb2).1⟩

/-! ## The pointer-clearing loops -/

theorem default_not_valid : (default : Inode).is_valid = false := rfl

theorem same_frame_refl (a : Inode) : a.same_frame a :=
  ⟨rfl, rfl, rfl, rfl, rfl, rfl, rfl, rfl, rfl, rfl, rfl, rfl⟩

theorem same_frame_trans {a b c : Inode} (h1 : a.same_frame b) (h2 : b.same_frame c) :
    a.same_frame c := by
  obtain ⟨a1, a2, a3, a4, a5, a6, a7, a8, a9, a10, a11, a12⟩ := h1
  obtain ⟨b1, b2, b3, b4, b5, b6, b7, b8, b9, b10, b11, b12⟩ := h2
  exact ⟨a1.trans b1, a2.trans b2, a3.trans b3, a4.trans b4, a5.trans b5, a6.trans b6,
    a7.trans b7, a8.trans b8, a9.trans b9, a10.trans b10, a11.trans b11, a12.trans b12⟩

theorem same_frame_valid {a b : Inode} (h : a.same_frame b) : a.is_valid = b.is_valid := by
  unfold Inode.is_valid
  rw [h.2.2.2.2.2.2.1, h.2.2.2.2.2.2.2.1]

theorem clear_pointer_frame (ino : Inode) (j : Nat) : (clear_pointer ino j).same_frame ino := by
  unfold clear_pointer Inode.same_frame
  simp only []
  split_ifs <;> exact ⟨rfl, rfl, rfl, rfl, rfl, rfl, rfl, rfl, rfl, rfl, rfl, rfl⟩

theorem clear_pointer_direct (ino : Inode) (j : Nat) :
    (clear_pointer ino j).direct = ino.direct.set j 0 := by
  unfold clear_pointer
  simp only []
  split_ifs <;> rfl

/-- The inner loop on the table is the inner loop on the inode, written back. -/
theorem clear_inner_eq (c : Nat → Prop) [DecidablePred c] (i m : Nat) (tbl : List Inode) (f : Nat)
    (hi : i < tbl.length) :
    forLoop m (fun j (r : List Inode × Nat) =>
        if c ((r.1.getD i default).direct.getD j 0) then
          (r.1.set i (clear_pointer (r.1.getD i default) j), r.2 + 1)
        else r) (tbl, f) =
      (tbl.set i (clear_slots c m (tbl.getD i default, f)).1,
       (clear_slots c m (tbl.getD i default, f)).2) := by
  unfold clear_slots
  induction m with
  | zero =>
    rw [forLoop_zero, forLoop_zero]
    show (tbl, f) = (tbl.set i (tbl.getD i default), f)
    rw [set_getD_self]
  | succ k ih =>
    rw [forLoop_succ, forLoop_succ, ih]
    generalize forLoop k (fun j (s : Inode × Nat) =>
      if c (s.1.direct.getD j 0) then (clear_pointer s.1 j, s.2 + 1) else s)
      (tbl.getD i default, f) = s
    show (if c (((tbl.set i s.1).getD i default).direct.getD k 0) then
        ((tbl.set i s.1).set i (clear_pointer ((tbl.set i s.1).getD i default) k), s.2 + 1)
      else (tbl.set i s.1, s.2)) = _
    rw [getD_set_self _ _ _ _ hi, List.set_set]
    by_cases hc : c (s.1.direct.getD k 0)
    · rw [if_pos hc, if_pos hc]
    · rw [if_neg hc, if_neg hc]

/-- What the inner loop does to one inode: the slots `j < m` whose pointer
satisfies `c` are zeroed, the other slots and the fields outside `direct`,
`blocks_count` and `size` are kept. -/
theorem clear_slots_spec (c : Nat → Prop) [DecidablePred c] (hc0 : ¬ c 0) (m : Nat)
    (ino : Inode) (f : Nat) :
    (clear_slots c m (ino, f)).1.same_frame ino ∧
    (clear_slots c m (ino, f)).1.direct.length = ino.direct.length ∧
    ∀ j, (clear_slots c m (ino, f)).1.direct.getD j 0 =
      if j < m ∧ c (ino.direct.getD j 0) then 0 else ino.direct.getD j 0 := by
  unfold clear_slots
  induction m with
  | zero =>
    rw [forLoop_zero]
    exact ⟨same_frame_refl _, rfl, fun j => by simp⟩
  | succ k ih =>
    obtain ⟨h1, h2, h3⟩ := ih
    rw [forLoop_succ]
    generalize forLoop k (fun j (s : Inode × Nat) =>
      if c (s.1.direct.getD j 0) then (clear_pointer s.1 j, s.2 + 1) else s) (ino, f) = s
      at h1 h2 h3
    have hk : s.1.direct.getD k 0 = ino.direct.getD k 0 := by
      rw [h3 k, if_neg (fun h => absurd h.1 (Nat.lt_irrefl k))]
    by_cases hc : c (s.1.direct.getD k 0)
    · rw [if_pos hc]
      have hlen : k < s.1.direct.length := by
        by_contra hge
        rw [getD_of_length_le _ _ _ (Nat.le_of_not_lt hge)] at hc
        exact hc0 hc
      refine ⟨same_frame_trans (clear_pointer_frame _ _) h1, ?_, fun j => ?_⟩
      · show (clear_pointer s.1 k).direct.length = _
        rw [clear_pointer_direct, List.length_set, h2]
      · show (clear_pointer s.1 k).direct.getD j 0 = _
        rw [clear_pointer_direct]
        by_cases hj : j = k
        · subst hj
          rw [getD_set_self _ _ _ _ hlen, if_pos ⟨Nat.lt_succ_self j, hk ▸ hc⟩]
        · rw [getD_set_of_ne _ _ _ _ _ (Ne.symm hj), h3 j]
          by_cases hcj : c (ino.direct.getD j 0)
          · by_cases hjk : j < k
            · rw [if_pos ⟨hjk, hcj⟩, if_pos ⟨Nat.lt_succ_of_lt hjk, hcj⟩]
            · rw [if_neg (fun h => hjk h.1), if_neg (fun h => hjk (by omega))]
          · rw [if_neg (fun h => hcj h.2), if_neg (fun h => hcj h.2)]
    · rw [if_neg hc]
      refine ⟨h1, h2, fun j => ?_⟩
      rw [h3 j]
      by_cases hj : j = k
      · subst hj
        rw [if_neg (fun h => absurd h.1 (Nat.lt_irrefl j)), if_neg (fun h => hc (hk ▸ h.2))]
      · by_cases hcj : c (ino.direct.getD j 0)
        · by_cases hjk : j < k
          · rw [if_pos ⟨hjk, hcj⟩, if_pos ⟨Nat.lt_succ_of_lt hjk, hcj⟩]
          · rw [if_neg (fun h => hjk h.1), if_neg (fun h => hjk (by omega))]
        · rw [if_neg (fun h => hcj h.2), if_neg (fun h => hcj h.2)]

/-- The inode that the inner loop produces does not depend on the fix counter
it starts from. -/
theorem clear_slots_fst (c : Nat → Prop) [DecidablePred c] (m : Nat) (ino : Inode) (f : Nat) :
    (clear_slots c m (ino, f)).1 = (clear_slots c m (ino, 0)).1 := by
  unfold clear_slots
  induction m with
  | zero => rw [forLoop_zero, forLoop_zero]
  | succ k ih =>
    rw [forLoop_succ, forLoop_succ]
    generalize forLoop k (fun j (s : Inode × Nat) =>
      if c (s.1.direct.getD j 0) then (clear_pointer s.1 j, s.2 + 1) else s) (ino, f) = s at ih
    generalize forLoop k (fun j (s : Inode × Nat) =>
      if c (s.1.direct.getD j 0) then (clear_pointer s.1 j, s.2 + 1) else s) (ino, 0) = s' at ih
    rw [ih]
    by_cases hc : c (s'.1.direct.getD k 0)
    · rw [if_pos hc, if_pos hc]
    · rw [if_neg hc, if_neg hc, ih]

/-- An inode none of whose slots satisfies `c` is left as it is. -/
theorem clear_slots_fixed (c : Nat → Prop) [DecidablePred c] (m : Nat) (ino : Inode) (f : Nat)
    (h : ∀ j, j < m → ¬ c (ino.direct.getD j 0)) : clear_slots c m (ino, f) = (ino, f) := by
  unfold clear_slots
  exact forLoop_fixed m _ _ (fun j hj => if_neg (h j hj))

/-- What `clear_loop` does to the table: every valid inode `i < n` goes through
the inner loop, every other entry is kept. -/
theorem clear_loop_spec (c : Nat → Nat → Prop) [∀ i p, Decidable (c i p)] (n : Nat)
    (tbl : List Inode) (f : Nat) :
    (clear_loop c n (tbl, f)).1.length = tbl.length ∧
    ∀ i, (clear_loop c n (tbl, f)).1.getD i default =
      if i < n ∧ (tbl.getD i default).is_valid = true then
        (clear_slots (c i) 12 (tbl.getD i default, 0)).1
      else tbl.getD i default := by
  unfold clear_loop
  induction n with
  | zero =>
    rw [forLoop_zero]
    exact ⟨rfl, fun i => by rw [if_neg (fun h => absurd h.1 (Nat.not_lt_zero i))]⟩
  | succ k ih =>
    obtain ⟨h1, h2⟩ := ih
    rw [forLoop_succ]
    generalize forLoop k (fun i (r : List Inode × Nat) =>
      if (r.1.getD i default).is_valid then
        forLoop 12 (fun j (r : List Inode × Nat) =>
          if c i ((r.1.getD i default).direct.getD j 0) then
            (r.1.set i (clear_pointer (r.1.getD i default) j), r.2 + 1)
          else r) r
      else r) (tbl, f) = r at h1 h2
    obtain ⟨t, f'⟩ := r
    have hk : t.getD k default = tbl.getD k default := by
      have := h2 k
      rw [if_neg (fun h => absurd h.1 (Nat.lt_irrefl k))] at this
      exact this
    by_cases hv : (t.getD k default).is_valid = true
    · have hlen : k < t.length := by
        by_contra hge
        rw [getD_of_length_le _ _ _ (Nat.le_of_not_lt hge), default_not_valid] at hv
        exact Bool.false_ne_true hv
      rw [if_pos hv, clear_inner_eq (c k) k 12 t f' hlen]
      refine ⟨by rw [List.length_set]; exact h1, fun i => ?_⟩
      by_cases hik : i = k
      · subst hik
        rw [getD_set_self _ _ _ _ hlen, clear_slots_fst, hk,
          if_pos ⟨Nat.lt_succ_self i, hk ▸ hv⟩]
      · rw [getD_set_of_ne _ _ _ _ _ (Ne.symm hik)]
        have := h2 i
        rw [this]
        by_cases hc : i < k ∧ (tbl.getD i default).is_valid = true
        · rw [if_pos hc, if_pos ⟨Nat.lt_succ_of_lt hc.1, hc.2⟩]
        · rw [if_neg hc, if_neg (fun h => hc ⟨by omega, h.2⟩)]
    · rw [if_neg hv]
      refine ⟨h1, fun i => ?_⟩
      have := h2 i
      rw [this]
      by_cases hik : i = k
      · subst hik
        rw [if_neg (fun h => absurd h.1 (Nat.lt_irrefl i)), if_neg (fun h => hv (hk ▸ h.2))]
      · by_cases hc : i < k ∧ (tbl.getD i default).is_valid = true
        · rw [if_pos hc, if_pos ⟨Nat.lt_succ_of_lt hc.1, hc.2⟩]
        · rw [if_neg hc, if_neg (fun h => hc ⟨by omega, h.2⟩)]

/-- Pointwise form of `clear_loop_spec`: frame, length of `direct`, and the
value of every slot after the loop. -/
theorem clear_loop_slots (c : Nat → Nat → Prop) [∀ i p, Decidable (c i p)]
    (hc0 : ∀ i, ¬ c i 0) (n : Nat) (tbl : List Inode) (f : Nat) (i : Nat) :
    ((clear_loop c n (tbl, f)).1.getD i default).same_frame (tbl.getD i default) ∧
    ((clear_loop c n (tbl, f)).1.getD i default).direct.length =
      (tbl.getD i default).direct.length ∧
    ∀ j, ((clear_loop c n (tbl, f)).1.getD i default).direct.getD j 0 =
      if (i < n ∧ (tbl.getD i default).is_valid = true) ∧
          j < 12 ∧ c i ((tbl.getD i default).direct.getD j 0) then 0
      else (tbl.getD i default).direct.getD j 0 := by
  rw [(clear_loop_spec c n tbl f).2 i]
  by_cases hv : i < n ∧ (tbl.getD i default).is_valid = true
  · rw [if_pos hv]
    obtain ⟨h1, h2, h3⟩ := clear_slots_spec (c i) (hc0 i) 12 (tbl.getD i default) 0
    refine ⟨h1, h2, fun j => ?_⟩
    rw [h3 j]
    by_cases hj : j < 12 ∧ c i ((tbl.getD i default).direct.getD j 0)
    · rw [if_pos hj, if_pos ⟨hv, hj⟩]
    · rw [if_neg hj, if_neg (fun h => hj h.2)]
  · rw [if_neg hv]
    exact ⟨same_frame_refl _, rfl, fun j => by rw [if_neg (fun h => hv h.1)]⟩

/-- The loop leaves alone every inode that is invalid or beyond its range. -/
theorem clear_loop_invalid (c : Nat → Nat → Prop) [∀ i p, Decidable (c i p)] (n : Nat)
    (tbl : List Inode) (f : Nat) (i : Nat)
    (h : ¬ (i < n ∧ (tbl.getD i default).is_valid = true)) :
    (clear_loop c n (tbl, f)).1.getD i default = tbl.getD i default := by
  rw [(clear_loop_spec c n tbl f).2 i, if_neg h]

/-- A table in which no slot of a valid inode satisfies `c` is left as it is,
and no fix is counted. -/
theorem clear_loop_fixed (c : Nat → Nat → Prop) [∀ i p, Decidable (c i p)] (n : Nat)
    (tbl : List Inode) (f : Nat)
    (h : ∀ i, i < n → (tbl.getD i default).is_valid = true →
      ∀ j, j < 12 → ¬ c i ((tbl.getD i default).direct.getD j 0)) :
    clear_loop c n (tbl, f) = (tbl, f) := by
  unfold clear_loop
  apply forLoop_fixed
  intro i hi
  by_cases hv : (tbl.getD i default).is_valid = true
  · show (if (tbl.getD i default).is_valid = true then _ else _) = _
    rw [if_pos hv]
    apply forLoop_fixed
    intro j hj
    exact if_neg (h i hi hv j hj)
  · show (if (tbl.getD i default).is_valid = true then _ else _) = _
    rw [if_neg hv]

theorem fix_bad_blocks_eq (g : Globals) :
    fix_bad_blocks g =
      ({ g with inodes := (clear_loop (fun _ p => bad_pointer p) INODE_COUNT (g.inodes, 0)).1 },
       (clear_loop (fun _ p => bad_pointer p) INODE_COUNT (g.inodes, 0)).2) := rfl

theorem fix_duplicates_clear_eq (refs first_inode : List Nat) (inodes : List Inode) :
    fix_duplicates_clear refs first_inode inodes =
      clear_loop (dup_pointer refs first_inode) INODE_COUNT (inodes, 0) := by
  unfold fix_duplicates_clear clear_loop
  apply forLoop_congr
  intro i r _
  by_cases hv : (r.1.getD i default).is_valid = true
  · rw [if_pos hv, if_pos hv]
    apply forLoop_congr
    intro j u _
    unfold dup_pointer
    by_cases h1 : (u.1.getD i default).direct.getD j 0 ≥ DATA_BLOCK_START ∧
        (u.1.getD i default).direct.getD j 0 < TOTAL_BLOCKS ∧
        refs.getD ((u.1.getD i default).direct.getD j 0) 0 > 1
    · by_cases h2 : i ≠ first_inode.getD ((u.1.getD i default).direct.getD j 0) 0
      · simp only [h1, h2, and_self, if_true, ne_eq, not_false_eq_true]
      · simp only [h1, h2, and_false, and_self, if_false, if_true]
    · simp only [h1, false_and, if_false]
  · rw [if_neg hv, if_neg hv]

theorem fix_duplicates_eq (g : Globals) :
    fix_duplicates g =
      ({ g with
          inodes := (clear_loop (dup_pointer (fix_duplicates_count g.inodes).1
            (fix_duplicates_count g.inodes).2) INODE_COUNT (g.inodes, 0)).1,
          block_references := (fix_duplicates_count g.inodes).1 },
       (clear_loop (dup_pointer (fix_duplicates_count g.inodes).1
            (fix_duplicates_count g.inodes).2) INODE_COUNT (g.inodes, 0)).2) := by
  unfold fix_duplicates
  simp only [fix_duplicates_clear_eq]

/-! ## Owners of a block -/

theorem references_iff (ino : Inode) (b : Nat) : ino.references b ↔ 0 < slot_refs ino b 12 :=
  (slot_refs_pos ino b 12).symm

theorem referenced_iff (inodes : List Inode) (b : Nat) :
    referenced inodes b ↔ 0 < ref_count inodes b INODE_COUNT := by
  rw [ref_count_pos]
  unfold referenced
  simp only [references_iff]

theorem lowest_owner_unique (inodes : List Inode) (b i k : Nat)
    (hi : lowest_owner inodes b i) (hk : lowest_owner inodes b k) : i = k := by
  obtain ⟨_, hv1, hr1, hm1⟩ := hi
  obtain ⟨_, hv2, hr2, hm2⟩ := hk
  by_contra hne
  rcases Nat.lt_or_gt_of_ne hne with h | h
  · exact hm2 i h ⟨hv1, hr1⟩
  · exact hm1 k h ⟨hv2, hr2⟩

/-- The `first_inode` entry of a referenced block is its lowest owner. -/
theorem first_ref_lowest_owner (inodes : List Inode) (b : Nat)
    (h : 0 < ref_count inodes b INODE_COUNT) :
    lowest_owner inodes b (first_ref inodes b INODE_COUNT) := by
  obtain ⟨h1, h2, h3, h4⟩ := first_ref_spec inodes b INODE_COUNT h
  refine ⟨h1, h2, (references_iff _ _).mpr h3, fun k hk hc => ?_⟩
  exact h4 k hk ⟨hc.1, (references_iff _ _).mp hc.2⟩

/-- A valid inode with a pointer to a block that is referenced at most once
is the lowest owner of the block. -/
theorem lowest_owner_of_single (inodes : List Inode) (b i : Nat) (hi : i < INODE_COUNT)
    (hv : (inodes.getD i default).is_valid = true) (hr : (inodes.getD i default).references b)
    (h1 : ref_count inodes b INODE_COUNT ≤ 1) : lowest_owner inodes b i := by
  have hr' := (references_iff _ _).mp hr
  have hpos : 0 < ref_count inodes b INODE_COUNT :=
    (ref_count_pos inodes b INODE_COUNT).mpr ⟨i, hi, hv, hr'⟩
  have ho := first_ref_lowest_owner inodes b hpos
  obtain ⟨o1, o2, o3, o4⟩ := ho
  have o3' := (references_iff _ _).mp o3
  by_cases hio : i = first_ref inodes b INODE_COUNT
  · rw [hio]
    exact ⟨o1, o2, o3, o4⟩
  · exfalso
    rcases Nat.lt_or_gt_of_ne hio with h | h
    · have := two_le_ref_count inodes b INODE_COUNT _ _ h o1 hv hr' o2 o3'
      omega
    · have := two_le_ref_count inodes b INODE_COUNT _ _ h hi o2 o3' hv hr'
      omega

/-! ## What `fix_duplicates` and `fix_bad_blocks` do to the table -/

theorem dup_pointer_zero (refs first_inode : List Nat) (i : Nat) :
    ¬ dup_pointer refs first_inode i 0 := by
  unfold dup_pointer
  intro h
  exact absurd h.1.1 (by decide)

theorem bad_pointer_zero : ¬ bad_pointer 0 := fun h => h.1 rfl

theorem fix_duplicates_frame (g : Globals) :
    (fix_duplicates g).1.inode_bitmap = g.inode_bitmap ∧
    (fix_duplicates g).1.data_bitmap = g.data_bitmap ∧
    (fix_duplicates g).1.block_references = (fix_duplicates_count g.inodes).1 ∧
    (fix_duplicates g).1.inodes.length = g.inodes.length := by
  rw [fix_duplicates_eq]
  exact ⟨rfl, rfl, rfl, (clear_loop_spec _ _ _ _).1⟩

theorem fix_bad_blocks_frame (g : Globals) :
    (fix_bad_blocks g).1.inode_bitmap = g.inode_bitmap ∧
    (fix_bad_blocks g).1.data_bitmap = g.data_bitmap ∧
    (fix_bad_blocks g).1.block_references = g.block_references ∧
    (fix_bad_blocks g).1.inodes.length = g.inodes.length := by
  rw [fix_bad_blocks_eq]
  exact ⟨rfl, rfl, rfl, (clear_loop_spec _ _ _ _).1⟩

/-- Every slot after `fix_duplicates`: zero when the inode is valid and the
slot held a block of the data region that is referenced more than once and
first owned by another inode, unchanged otherwise. -/
theorem fix_duplicates_slots (g : Globals) (i : Nat) :
    ((fix_duplicates g).1.inodes.getD i default).same_frame (g.inodes.getD i default) ∧
    ((fix_duplicates g).1.inodes.getD i default).direct.length =
      (g.inodes.getD i default).direct.length ∧
    ∀ j, ((fix_duplicates g).1.inodes.getD i default).direct.getD j 0 =
      if (i < INODE_COUNT ∧ (g.inodes.getD i default).is_valid = true) ∧ j < 12 ∧
          dup_pointer (fix_duplicates_count g.inodes).1 (fix_duplicates_count g.inodes).2 i
            ((g.inodes.getD i default).direct.getD j 0) then 0
      else (g.inodes.getD i default).direct.getD j 0 := by
  rw [fix_duplicates_eq]
  exact clear_loop_slots _ (dup_pointer_zero _ _) _ _ _ _

/-- Every slot after `fix_bad_blocks`: zero when the inode is valid and the
slot held a nonzero pointer outside the data region, unchanged otherwise. -/
theorem fix_bad_blocks_slots (g : Globals) (i : Nat) :
    ((fix_bad_blocks g).1.inodes.getD i default).same_frame (g.inodes.getD i default) ∧
    ((fix_bad_blocks g).1.inodes.getD i default).direct.length =
      (g.inodes.getD i default).direct.length ∧
    ∀ j, ((fix_bad_blocks g).1.inodes.getD i default).direct.getD j 0 =
      if (i < INODE_COUNT ∧ (g.inodes.getD i default).is_valid = true) ∧ j < 12 ∧
          bad_pointer ((g.inodes.getD i default).direct.getD j 0) then 0
      else (g.inodes.getD i default).direct.getD j 0 := by
  rw [fix_bad_blocks_eq]
  exact clear_loop_slots (fun _ p => bad_pointer p) (fun _ => bad_pointer_zero) _ _ _ _

/-- After `fix_duplicates` the valid inodes with a pointer to a data block are
exactly the lowest owners of the block before the repair. -/
theorem fix_duplicates_owner (g : Globals) (b i : Nat) (hb1 : DATA_BLOCK_START ≤ b)
    (hb2 : b < TOTAL_BLOCKS) (hi : i < INODE_COUNT) :
    (((fix_duplicates g).1.inodes.getD i default).is_valid = true ∧
      ((fix_duplicates g).1.inodes.getD i default).references b) ↔
    lowest_owner g.inodes b i := by
  obtain ⟨hf, _, hs⟩ := fix_duplicates_slots g i
  obtain ⟨_, _, hc⟩ := fix_duplicates_count_spec g.inodes
  obtain ⟨hrefs, hfirst⟩ := hc b hb1 hb2
  have hb0 : b ≠ 0 := by
    intro h; rw [h] at hb1; exact absurd hb1 (by decide)
  rw [same_frame_valid hf]
  constructor
  · rintro ⟨hv, j, hj, hjb⟩
    rw [hs j] at hjb
    by_cases hc : (i < INODE_COUNT ∧ (g.inodes.getD i default).is_valid = true) ∧ j < 12 ∧
        dup_pointer (fix_duplicates_count g.inodes).1 (fix_duplicates_count g.inodes).2 i
          ((g.inodes.getD i default).direct.getD j 0)
    · rw [if_pos hc] at hjb
      exact absurd hjb.symm hb0
    · rw [if_neg hc] at hjb
      have hr : (g.inodes.getD i default).references b := ⟨j, hj, hjb⟩
      have hnd : ¬ dup_pointer (fix_duplicates_count g.inodes).1
          (fix_duplicates_count g.inodes).2 i b := by
        intro hd
        exact hc ⟨⟨hi, hv⟩, hj, hjb ▸ hd⟩
      unfold dup_pointer at hnd
      rw [hrefs, hfirst] at hnd
      by_cases h1 : ref_count g.inodes b INODE_COUNT ≤ 1
      · exact lowest_owner_of_single g.inodes b i hi hv hr h1
      · have hio : i = first_ref g.inodes b INODE_COUNT := by
          by_contra hne
          exact hnd ⟨⟨hb1, hb2, by omega⟩, hne⟩
        rw [hio]
        exact first_ref_lowest_owner g.inodes b (by omega)
  · intro ho
    have ho' := ho
    obtain ⟨_, hv, ⟨j, hj, hjb⟩, _⟩ := ho
    refine ⟨hv, j, hj, ?_⟩
    rw [hs j]
    have hpos : 0 < ref_count g.inodes b INODE_COUNT :=
      (referenced_iff g.inodes b).mp ⟨i, hi, hv, j, hj, hjb⟩
    have hio : i = first_ref g.inodes b INODE_COUNT :=
      lowest_owner_unique g.inodes b _ _ ho' (first_ref_lowest_owner g.inodes b hpos)
    rw [if_neg, hjb]
    rintro ⟨_, _, hd⟩
    rw [hjb] at hd
    unfold dup_pointer at hd
    rw [hfirst] at hd
    exact hd.2 hio

/-- `fix_duplicates` keeps every data block that was referenced referenced. -/
theorem fix_duplicates_referenced (g : Globals) (b : Nat) (hb1 : DATA_BLOCK_START ≤ b)
    (hb2 : b < TOTAL_BLOCKS) :
    referenced (fix_duplicates g).1.inodes b ↔ referenced g.inodes b := by
  constructor
  · rintro ⟨i, hi, hv, hr⟩
    obtain ⟨_, h2, h3, _⟩ := (fix_duplicates_owner g b i hb1 hb2 hi).mp ⟨hv, hr⟩
    exact ⟨i, hi, h2, h3⟩
  · intro h
    have hpos := (referenced_iff g.inodes b).mp h
    have ho := first_ref_lowest_owner g.inodes b hpos
    have := (fix_duplicates_owner g b _ hb1 hb2 ho.1).mpr ho
    exact ⟨_, ho.1, this.1, this.2⟩

/-- `fix_bad_blocks` neither adds nor removes a pointer to a data block. -/
theorem fix_bad_blocks_references (g : Globals) (b i : Nat) (hb1 : DATA_BLOCK_START ≤ b)
    (hb2 : b < TOTAL_BLOCKS) :
    ((fix_bad_blocks g).1.inodes.getD i default).references b ↔
      (g.inodes.getD i default).references b := by
  obtain ⟨_, _, hs⟩ := fix_bad_blocks_slots g i
  have hb0 : b ≠ 0 := by
    intro h; rw [h] at hb1; exact absurd hb1 (by decide)
  have hnb : ¬ bad_pointer b := by
    unfold bad_pointer
    rintro ⟨_, h | h⟩
    · exact absurd hb1 (Nat.not_le_of_lt h)
    · exact absurd hb2 (Nat.not_lt_of_le h)
  constructor
  · rintro ⟨j, hj, hjb⟩
    refine ⟨j, hj, ?_⟩
    rw [hs j] at hjb
    split_ifs at hjb with hc
    · exact absurd hjb.symm hb0
    · exact hjb
  · rintro ⟨j, hj, hjb⟩
    refine ⟨j, hj, ?_⟩
    rw [hs j, if_neg, hjb]
    rintro ⟨_, _, hbad⟩
    rw [hjb] at hbad
    exact hnb hbad

theorem fix_bad_blocks_valid (g : Globals) (i : Nat) :
    ((fix_bad_blocks g).1.inodes.getD i default).is_valid =
      (g.inodes.getD i default).is_valid :=
  same_frame_valid (fix_bad_blocks_slots g i).1

theorem fix_duplicates_valid (g : Globals) (i : Nat) :
    ((fix_duplicates g).1.inodes.getD i default).is_valid =
      (g.inodes.getD i default).is_valid :=
  same_frame_valid (fix_duplicates_slots g i).1

theorem fix_bad_blocks_referenced (g : Globals) (b : Nat) (hb1 : DATA_BLOCK_START ≤ b)
    (hb2 : b < TOTAL_BLOCKS) :
    referenced (fix_bad_blocks g).1.inodes b ↔ referenced g.inodes b := by
  unfold referenced
  simp only [fix_bad_blocks_valid, fix_bad_blocks_references g b _ hb1 hb2]

/-! ## Duplicate references and bad pointers: the contracts -/

/-- C3: after `fix_duplicates`, for every data block `b` with `8 <= b < 64`,
at most one valid inode has a direct pointer equal to `b`; the valid inodes
that reference `b` afterwards are exactly the lowest-indexed valid inode that
referenced `b` before; and when some valid inode referenced `b` before, that
lowest-indexed one still references it afterwards. -/
theorem fix_duplicates_sole_owner (g : Globals) (b : Nat) (hb1 : 8 ≤ b) (hb2 : b < 64) :
    (∀ i k, i < 80 → k < 80 →
      ((fix_duplicates g).1.inodes.getD i default).is_valid = true →
      ((fix_duplicates g).1.inodes.getD i default).references b →
      ((fix_duplicates g).1.inodes.getD k default).is_valid = true →
      ((fix_duplicates g).1.inodes.getD k default).references b → i = k) ∧
    (∀ i, i < 80 →
      ((((fix_duplicates g).1.inodes.getD i default).is_valid = true ∧
        ((fix_duplicates g).1.inodes.getD i default).references b) ↔
       lowest_owner g.inodes b i)) ∧
    (referenced g.inodes b →
      ∃ i, lowest_owner g.inodes b i ∧
        ((fix_duplicates g).1.inodes.getD i default).is_valid = true ∧
        ((fix_duplicates g).1.inodes.getD i default).references b) := by
  refine ⟨fun i k hi hk hv1 hr1 hv2 hr2 => ?_, fun i hi => fix_duplicates_owner g b i hb1 hb2 hi,
    fun h => ?_⟩
  · exact lowest_owner_unique g.inodes b i k
      ((fix_duplicates_owner g b i hb1 hb2 hi).mp ⟨hv1, hr1⟩)
      ((fix_duplicates_owner g b k hb1 hb2 hk).mp ⟨hv2, hr2⟩)
  · have ho := first_ref_lowest_owner g.inodes b ((referenced_iff g.inodes b).mp h)
    exact ⟨_, ho, (fix_duplicates_owner g b _ hb1 hb2 ho.1).mpr ho⟩

/-- Witness for C3: Scenario B, two valid inodes listing block 10. -/
theorem fix_duplicates_sole_owner_witness :
    (8 ≤ 10 ∧ 10 < 64) ∧
    ((∀ i k, i < 80 → k < 80 →
      ((fix_duplicates globals_shared_block).1.inodes.getD i default).is_valid = true →
      ((fix_duplicates globals_shared_block).1.inodes.getD i default).references 10 →
      ((fix_duplicates globals_shared_block).1.inodes.getD k default).is_valid = true →
      ((fix_duplicates globals_shared_block).1.inodes.getD k default).references 10 → i = k) ∧
    (∀ i, i < 80 →
      ((((fix_duplicates globals_shared_block).1.inodes.getD i default).is_valid = true ∧
        ((fix_duplicates globals_shared_block).1.inodes.getD i default).references 10) ↔
       lowest_owner globals_shared_block.inodes 10 i)) ∧
    (referenced globals_shared_block.inodes 10 →
      ∃ i, lowest_owner globals_shared_block.inodes 10 i ∧
        ((fix_duplicates globals_shared_block).1.inodes.getD i default).is_valid = true ∧
        ((fix_duplicates globals_shared_block).1.inodes.getD i default).references 10)) :=
  ⟨by decide, fix_duplicates_sole_owner globals_shared_block 10 (by decide) (by decide)⟩

theorem check_bad_blocks_eq_zero (g : Globals)
    (h : ∀ i, i < INODE_COUNT → (g.inodes.getD i default).is_valid = true →
      ∀ j, j < 12 → ¬ bad_pointer ((g.inodes.getD i default).direct.getD j 0)) :
    check_bad_blocks g = 0 := by
  unfold check_bad_blocks
  apply forLoop_fixed
  intro i hi
  by_cases hv : (g.inodes.getD i default).is_valid = true
  · show (if (g.inodes.getD i default).is_valid = true then _ else _) = _
    rw [if_pos hv]
    apply forLoop_fixed
    intro j hj
    exact if_neg (h i hi hv j hj)
  · show (if (g.inodes.getD i default).is_valid = true then _ else _) = _
    rw [if_neg hv]

/-- After `fix_bad_blocks` no slot of a valid inode holds a bad pointer. -/
theorem fix_bad_blocks_no_bad (g : Globals) (i j : Nat) (hi : i < INODE_COUNT)
    (hv : ((fix_bad_blocks g).1.inodes.getD i default).is_valid = true) (hj : j < 12) :
    ¬ bad_pointer (((fix_bad_blocks g).1.inodes.getD i default).direct.getD j 0) := by
  obtain ⟨_, _, hs⟩ := fix_bad_blocks_slots g i
  rw [fix_bad_blocks_valid] at hv
  rw [hs j]
  by_cases hc : (i < INODE_COUNT ∧ (g.inodes.getD i default).is_valid = true) ∧ j < 12 ∧
      bad_pointer ((g.inodes.getD i default).direct.getD j 0)
  · rw [if_pos hc]
    exact bad_pointer_zero
  · rw [if_neg hc]
    exact fun hb => hc ⟨⟨hi, hv⟩, hj, hb⟩

/-- C5: after `fix_bad_blocks` every direct pointer of every valid inode is 0
or lies in `[8, 64)`, and `check_bad_blocks` returns 0 on the result. -/
theorem fix_bad_blocks_in_range (g : Globals) :
    (∀ i j, i < 80 → j < 12 →
      ((fix_bad_blocks g).1.inodes.getD i default).is_valid = true →
      ((fix_bad_blocks g).1.inodes.getD i default).direct.getD j 0 = 0 ∨
      (8 ≤ ((fix_bad_blocks g).1.inodes.getD i default).direct.getD j 0 ∧
       ((fix_bad_blocks g).1.inodes.getD i default).direct.getD j 0 < 64)) ∧
    check_bad_blocks (fix_bad_blocks g).1 = 0 := by
  refine ⟨fun i j hi hj hv => ?_, check_bad_blocks_eq_zero _
    (fun i hi hv j hj => fix_bad_blocks_no_bad g i j hi hv hj)⟩
  have h := fix_bad_blocks_no_bad g i j hi hv hj
  simp only [bad_pointer, DATA_BLOCK_START, TOTAL_BLOCKS] at h
  omega

/-! ## The repair sequence -/

theorem is_valid_iff (ino : Inode) :
    ino.is_valid = true ↔ ino.links_count > 0 ∧ ino.dtime = 0 := by
  unfold Inode.is_valid
  simp

theorem fix_bitmaps_inodes (g : Globals) : (fix_bitmaps g).1.inodes = g.inodes := by
  rw [fix_bitmaps_eq]

theorem fix_bitmaps_refs (g : Globals) :
    (fix_bitmaps g).1.block_references = recount g.inodes := by
  rw [fix_bitmaps_eq]

/-- After `fix_bitmaps` the inode-bitmap bit of every slot is the validity of
its inode; the bits beyond the 80 slots are kept. -/
theorem fix_bitmaps_inode_bits (g : Globals) (h : INODE_COUNT ≤ 8 * g.inode_bitmap.length) :
    (fix_bitmaps g).1.inode_bitmap.length = g.inode_bitmap.length ∧
    (∀ i, i < INODE_COUNT →
      bit_set (fix_bitmaps g).1.inode_bitmap i = (g.inodes.getD i default).is_valid) ∧
    (∀ i, INODE_COUNT ≤ i →
      bit_set (fix_bitmaps g).1.inode_bitmap i = bit_set g.inode_bitmap i) := by
  rw [fix_bitmaps_eq]
  obtain ⟨h1, h2, h3⟩ := sync_loop (fun i => (g.inodes.getD i default).is_valid) 0 INODE_COUNT
    g.inode_bitmap 0 (by omega)
  exact ⟨h1, fun i hi => h2 i (Nat.zero_le i) (by omega), fun i hi => h3 i (Or.inr (by omega))⟩

/-- After `fix_bitmaps` the data-bitmap bit of every data block tells whether
the recount found a reference to it; the bits of the blocks 0-7 and beyond 63
are kept. -/
theorem fix_bitmaps_data_bits (g : Globals) (h : TOTAL_BLOCKS ≤ 8 * g.data_bitmap.length) :
    (fix_bitmaps g).1.data_bitmap.length = g.data_bitmap.length ∧
    (∀ b, DATA_BLOCK_START ≤ b → b < TOTAL_BLOCKS →
      bit_set (fix_bitmaps g).1.data_bitmap b = decide ((recount g.inodes).getD b 0 > 0)) ∧
    (∀ b, b < DATA_BLOCK_START ∨ TOTAL_BLOCKS ≤ b →
      bit_set (fix_bitmaps g).1.data_bitmap b = bit_set g.data_bitmap b) := by
  rw [fix_bitmaps_eq]
  obtain ⟨h1, h2, h3⟩ := sync_loop (fun i => decide ((recount g.inodes).getD i 0 > 0))
    DATA_BLOCK_START (TOTAL_BLOCKS - DATA_BLOCK_START) g.data_bitmap
    (forLoop INODE_COUNT
      (fun k => sync_bit (fun i => (g.inodes.getD i default).is_valid) (0 + k))
      (g.inode_bitmap, 0)).2 (by simp only [TOTAL_BLOCKS, DATA_BLOCK_START] at *; omega)
  refine ⟨h1, fun b hb1 hb2 => h2 b hb1 ?_, fun b hb => h3 b ?_⟩
  · simp only [TOTAL_BLOCKS, DATA_BLOCK_START] at *; omega
  · simp only [TOTAL_BLOCKS, DATA_BLOCK_START] at *; omega

theorem fix_bitmaps_data_bits_referenced (g : Globals)
    (h : TOTAL_BLOCKS ≤ 8 * g.data_bitmap.length) (b : Nat) (hb1 : DATA_BLOCK_START ≤ b)
    (hb2 : b < TOTAL_BLOCKS) :
    bit_set (fix_bitmaps g).1.data_bitmap b = true ↔ referenced g.inodes b := by
  rw [(fix_bitmaps_data_bits g h).2.1 b hb1 hb2, (recount_spec g.inodes).2 b hb1 hb2,
    referenced_iff]
  simp

theorem repair_fst (g : Globals) :
    (repair g).1 = (fix_bad_blocks (fix_duplicates (fix_bitmaps g).1).1).1 := rfl

theorem repair_snd (g : Globals) :
    (repair g).2 = (fix_bitmaps g).2 + (fix_duplicates (fix_bitmaps g).1).2 +
      (fix_bad_blocks (fix_duplicates (fix_bitmaps g).1).1).2 := rfl

theorem repair_inode_bitmap_eq (g : Globals) :
    (repair g).1.inode_bitmap = (fix_bitmaps g).1.inode_bitmap := by
  rw [repair_fst, (fix_bad_blocks_frame _).1, (fix_duplicates_frame _).1]

theorem repair_data_bitmap_eq (g : Globals) :
    (repair g).1.data_bitmap = (fix_bitmaps g).1.data_bitmap := by
  rw [repair_fst, (fix_bad_blocks_frame _).2.1, (fix_duplicates_frame _).2.1]

/-- The inode table after the repair sequence depends on the inode table only. -/
theorem repair_inodes (g : Globals) :
    (repair g).1.inodes = (fix_bad_blocks (fix_duplicates g).1).1.inodes := by
  rw [repair_fst]
  have h1 : fix_duplicates (fix_bitmaps g).1 =
      ({ (fix_duplicates g).1 with
          inode_bitmap := (fix_bitmaps g).1.inode_bitmap,
          data_bitmap := (fix_bitmaps g).1.data_bitmap }, (fix_duplicates g).2) := by
    rw [fix_duplicates_eq, fix_duplicates_eq, fix_bitmaps_inodes]
  rw [h1, fix_bad_blocks_eq, fix_bad_blocks_eq]

theorem repair_frame (g : Globals) (i : Nat) :
    ((repair g).1.inodes.getD i default).same_frame (g.inodes.getD i default) := by
  rw [repair_inodes]
  exact same_frame_trans (fix_bad_blocks_slots _ i).1 (fix_duplicates_slots g i).1

theorem repair_valid (g : Globals) (i : Nat) :
    ((repair g).1.inodes.getD i default).is_valid = (g.inodes.getD i default).is_valid :=
  same_frame_valid (repair_frame g i)

/-- The repair sequence leaves every invalid inode exactly as it was. -/
theorem repair_invalid (g : Globals) (i : Nat)
    (hv : ¬ (g.inodes.getD i default).is_valid = true) :
    (repair g).1.inodes.getD i default = g.inodes.getD i default := by
  have h1 : (fix_duplicates g).1.inodes.getD i default = g.inodes.getD i default := by
    rw [fix_duplicates_eq]
    exact clear_loop_invalid _ _ _ _ _ (fun h => hv h.2)
  rw [repair_inodes, fix_bad_blocks_eq]
  show (clear_loop _ _ _).1.getD i default = _
  rw [clear_loop_invalid _ _ _ _ _ (fun h => hv (h1 ▸ h.2)), h1]

/-- After the repair sequence a valid inode references a data block exactly
when it was the lowest owner of the block before. -/
theorem repair_owner (g : Globals) (b i : Nat) (hb1 : DATA_BLOCK_START ≤ b)
    (hb2 : b < TOTAL_BLOCKS) (hi : i < INODE_COUNT) :
    (((repair g).1.inodes.getD i default).is_valid = true ∧
      ((repair g).1.inodes.getD i default).references b) ↔
    lowest_owner g.inodes b i := by
  rw [repair_inodes, fix_bad_blocks_valid, fix_bad_blocks_references _ b i hb1 hb2]
  exact fix_duplicates_owner g b i hb1 hb2 hi

theorem repair_referenced (g : Globals) (b : Nat) (hb1 : DATA_BLOCK_START ≤ b)
    (hb2 : b < TOTAL_BLOCKS) :
    referenced (repair g).1.inodes b ↔ referenced g.inodes b := by
  rw [repair_inodes, fix_bad_blocks_referenced _ b hb1 hb2,
    fix_duplicates_referenced g b hb1 hb2]

/-! ## Bitmaps after the repair sequence -/

/-- C1: after the repair sequence `fix_bitmaps`, `fix_duplicates`,
`fix_bad_blocks` on a loaded state (the data bitmap is one block of 4096
bytes), for every data block `b` with `8 <= b < 64`, bit `b` of the data
bitmap is 1 exactly when some inode that is valid in the repaired table has a
direct pointer equal to `b`. -/
theorem repair_data_bitmap_matches (g : Globals) (hlen : g.data_bitmap.length = BLOCK_SIZE)
    (b : Nat) (hb1 : 8 ≤ b) (hb2 : b < 64) :
    (is_block_marked (repair g).1.data_bitmap b = 1 ↔
      ∃ i, i < 80 ∧
        (((repair g).1.inodes.getD i default).links_count > 0 ∧
          ((repair g).1.inodes.getD i default).dtime = 0) ∧
        ∃ j, j < 12 ∧ ((repair g).1.inodes.getD i default).direct.getD j 0 = b) ∧
    (is_block_marked (repair g).1.data_bitmap b = 1 ↔
      (recount (repair g).1.inodes).getD b 0 > 0) := by
  have h : TOTAL_BLOCKS ≤ 8 * g.data_bitmap.length := by rw [hlen]; decide
  have hbit : is_block_marked (repair g).1.data_bitmap b = 1 ↔
      referenced (repair g).1.inodes b := by
    rw [is_block_marked_eq_one, repair_data_bitmap_eq,
      fix_bitmaps_data_bits_referenced g h b hb1 hb2, ← repair_referenced g b hb1 hb2]
  refine ⟨?_, ?_⟩
  · rw [hbit]
    unfold referenced Inode.references
    simp only [is_valid_iff]
    exact Iff.rfl
  · rw [hbit, (recount_spec _).2 b hb1 hb2, referenced_iff]

/-- Witness for C1: a state with one valid inode listing block 10 and an
empty data bitmap. -/
theorem repair_data_bitmap_matches_witness :
    globals_stale_bit.data_bitmap.length = BLOCK_SIZE ∧ 8 ≤ 10 ∧ 10 < 64 ∧
    ((is_block_marked (repair globals_stale_bit).1.data_bitmap 10 = 1 ↔
      ∃ i, i < 80 ∧
        (((repair globals_stale_bit).1.inodes.getD i default).links_count > 0 ∧
          ((repair globals_stale_bit).1.inodes.getD i default).dtime = 0) ∧
        ∃ j, j < 12 ∧
          ((repair globals_stale_bit).1.inodes.getD i default).direct.getD j 0 = 10) ∧
    (is_block_marked (repair globals_stale_bit).1.data_bitmap 10 = 1 ↔
      (recount (repair globals_stale_bit).1.inodes).getD 10 0 > 0)) :=
  ⟨List.length_replicate _ _, by decide, by decide,
    repair_data_bitmap_matches globals_stale_bit (List.length_replicate _ _) 10
      (by decide) (by decide)⟩

/-- After the repair sequence the inode-bitmap bit of every slot is the
validity of the repaired inode. -/
theorem repair_inode_bits (g : Globals) (h : INODE_COUNT ≤ 8 * g.inode_bitmap.length) (i : Nat)
    (hi : i < INODE_COUNT) :
    bit_set (repair g).1.inode_bitmap i = ((repair g).1.inodes.getD i default).is_valid := by
  rw [repair_inode_bitmap_eq, (fix_bitmaps_inode_bits g h).2.1 i hi, repair_valid]

/-- C4: after the repair sequence on a loaded state (the inode bitmap is one
block of 4096 bytes), for every inode slot `i < 80`, bit `i` of the inode
bitmap is 1 exactly when inode `i` has `links_count > 0` and `dtime == 0`; the
repair changes neither `links_count` nor `dtime`; and a slot whose inode has
`links_count = 0` ends with its bit cleared and its inode record unchanged
(Scenario C). -/
theorem repair_inode_bitmap_matches (g : Globals) (hlen : g.inode_bitmap.length = BLOCK_SIZE)
    (i : Nat) (hi : i < 80) :
    (is_block_marked (repair g).1.inode_bitmap i = 1 ↔
      ((repair g).1.inodes.getD i default).links_count > 0 ∧
        ((repair g).1.inodes.getD i default).dtime = 0) ∧
    ((repair g).1.inodes.getD i default).links_count = (g.inodes.getD i default).links_count ∧
    ((repair g).1.inodes.getD i default).dtime = (g.inodes.getD i default).dtime ∧
    ((g.inodes.getD i default).links_count = 0 →
      is_block_marked (repair g).1.inode_bitmap i = 0 ∧
      (repair g).1.inodes.getD i default = g.inodes.getD i default) := by
  have h : INODE_COUNT ≤ 8 * g.inode_bitmap.length := by rw [hlen]; decide
  have hf := repair_frame g i
  refine ⟨?_, hf.2.2.2.2.2.2.2.1, hf.2.2.2.2.2.2.1, fun h0 => ?_⟩
  · rw [is_block_marked_eq_one, repair_inode_bits g h i hi, is_valid_iff]
  · have hv : ¬ (g.inodes.getD i default).is_valid = true := by
      rw [is_valid_iff, h0]
      exact fun h => absurd h.1 (Nat.lt_irrefl 0)
    refine ⟨?_, repair_invalid g i hv⟩
    rw [is_block_marked_eq_zero, repair_inode_bits g h i hi, repair_valid]
    exact Bool.eq_false_iff.mpr hv

/-- Witness for C4: slot 1 of a state whose inode 1 has `links_count = 0` and
a set bit. -/
theorem repair_inode_bitmap_matches_witness :
    globals_stale_bit.inode_bitmap.length = BLOCK_SIZE ∧ 1 < 80 ∧
    ((is_block_marked (repair globals_stale_bit).1.inode_bitmap 1 = 1 ↔
      ((repair globals_stale_bit).1.inodes.getD 1 default).links_count > 0 ∧
        ((repair globals_stale_bit).1.inodes.getD 1 default).dtime = 0) ∧
    ((repair globals_stale_bit).1.inodes.getD 1 default).links_count =
      (globals_stale_bit.inodes.getD 1 default).links_count ∧
    ((repair globals_stale_bit).1.inodes.getD 1 default).dtime =
      (globals_stale_bit.inodes.getD 1 default).dtime ∧
    ((globals_stale_bit.inodes.getD 1 default).links_count = 0 →
      is_block_marked (repair globals_stale_bit).1.inode_bitmap 1 = 0 ∧
      (repair globals_stale_bit).1.inodes.getD 1 default =
        globals_stale_bit.inodes.getD 1 default)) :=
  ⟨congrArg (· + 1) (List.length_replicate 4095 0), by decide,
    repair_inode_bitmap_matches globals_stale_bit
      (congrArg (· + 1) (List.length_replicate 4095 0)) 1 (by decide)⟩

/-! ## Idempotence of the repair -/

theorem fix_bitmaps_fixed (g : Globals)
    (hi : ∀ i, i < INODE_COUNT → bit_set g.inode_bitmap i = (g.inodes.getD i default).is_valid)
    (hd : ∀ b, DATA_BLOCK_START ≤ b → b < TOTAL_BLOCKS →
      bit_set g.data_bitmap b = decide ((recount g.inodes).getD b 0 > 0)) :
    fix_bitmaps g = ({ g with block_references := recount g.inodes }, 0) := by
  rw [fix_bitmaps_eq]
  rw [sync_loop_fixed (fun i => (g.inodes.getD i default).is_valid) 0 INODE_COUNT g.inode_bitmap 0
    (fun i _ h2 => hi i (by omega))]
  rw [sync_loop_fixed (fun i => decide ((recount g.inodes).getD i 0 > 0)) DATA_BLOCK_START
    (TOTAL_BLOCKS - DATA_BLOCK_START) g.data_bitmap 0
    (fun b h1 h2 => hd b h1 (by simp only [TOTAL_BLOCKS, DATA_BLOCK_START] at *; omega))]

theorem fix_duplicates_fixed (g : Globals)
    (h : ∀ i, i < INODE_COUNT → (g.inodes.getD i default).is_valid = true → ∀ j, j < 12 →
      ¬ dup_pointer (fix_duplicates_count g.inodes).1 (fix_duplicates_count g.inodes).2 i
        ((g.inodes.getD i default).direct.getD j 0)) :
    fix_duplicates g =
      ({ g with block_references := (fix_duplicates_count g.inodes).1 }, 0) := by
  rw [fix_duplicates_eq, clear_loop_fixed _ _ _ _ h]

theorem fix_bad_blocks_fixed (g : Globals)
    (h : ∀ i, i < INODE_COUNT → (g.inodes.getD i default).is_valid = true → ∀ j, j < 12 →
      ¬ bad_pointer ((g.inodes.getD i default).direct.getD j 0)) :
    fix_bad_blocks g = (g, 0) := by
  rw [fix_bad_blocks_eq, clear_loop_fixed (fun _ p => bad_pointer p) _ _ _ h]

/-- A table in which every data block has at most one owner has nothing for
the second pass of `fix_duplicates` to clear. -/
theorem no_dup_pointer_of_unique (inodes : List Inode)
    (huniq : ∀ b i k, DATA_BLOCK_START ≤ b → b < TOTAL_BLOCKS → i < INODE_COUNT →
      k < INODE_COUNT →
      (inodes.getD i default).is_valid = true → (inodes.getD i default).references b →
      (inodes.getD k default).is_valid = true → (inodes.getD k default).references b → i = k)
    (i : Nat) (hi : i < INODE_COUNT) (hv : (inodes.getD i default).is_valid = true)
    (j : Nat) (hj : j < 12) :
    ¬ dup_pointer (fix_duplicates_count inodes).1 (fix_duplicates_count inodes).2 i
      ((inodes.getD i default).direct.getD j 0) := by
  intro hd
  unfold dup_pointer at hd
  obtain ⟨⟨hb1, hb2, hgt⟩, hne⟩ := hd
  obtain ⟨_, _, hc⟩ := fix_duplicates_count_spec inodes
  obtain ⟨hrefs, hfirst⟩ := hc _ hb1 hb2
  rw [hrefs] at hgt
  rw [hfirst] at hne
  have hpos : 0 < ref_count inodes ((inodes.getD i default).direct.getD j 0) INODE_COUNT :=
    Nat.lt_trans Nat.zero_lt_one hgt
  have ho := first_ref_lowest_owner inodes _ hpos
  exact hne (huniq _ i _ hb1 hb2 hi ho.1 hv ⟨j, hj, rfl⟩ ho.2.1 ho.2.2.1)

/-- Running the repair sequence on its own result changes neither bitmap nor
the inode table, and applies no fix. -/
theorem repair_repair (g : Globals) (h1 : INODE_COUNT ≤ 8 * g.inode_bitmap.length)
    (h2 : TOTAL_BLOCKS ≤ 8 * g.data_bitmap.length) :
    (repair (repair g).1).1.inode_bitmap = (repair g).1.inode_bitmap ∧
    (repair (repair g).1).1.data_bitmap = (repair g).1.data_bitmap ∧
    (repair (repair g).1).1.inodes = (repair g).1.inodes ∧
    (repair (repair g).1).2 = 0 := by
  have e1 : fix_bitmaps (repair g).1 =
      ({ (repair g).1 with block_references := recount (repair g).1.inodes }, 0) := by
    apply fix_bitmaps_fixed
    · exact fun i hi => repair_inode_bits g h1 i hi
    · intro b hb1 hb2
      rw [Bool.eq_iff_iff, repair_data_bitmap_eq,
        fix_bitmaps_data_bits_referenced g h2 b hb1 hb2, (recount_spec _).2 b hb1 hb2,
        decide_eq_true_iff, gt_iff_lt, ← referenced_iff, repair_referenced g b hb1 hb2]
  have e2 : fix_duplicates
      { (repair g).1 with block_references := recount (repair g).1.inodes } =
      ({ (repair g).1 with
          block_references := (fix_duplicates_count (repair g).1.inodes).1 }, 0) := by
    rw [fix_duplicates_fixed]
    intro i hi hv j hj
    refine no_dup_pointer_of_unique (repair g).1.inodes ?_ i hi hv j hj
    intro b x y hb1 hb2 hx hy hvx hrx hvy hry
    exact lowest_owner_unique g.inodes b x y
      ((repair_owner g b x hb1 hb2 hx).mp ⟨hvx, hrx⟩)
      ((repair_owner g b y hb1 hb2 hy).mp ⟨hvy, hry⟩)
  have e3 : fix_bad_blocks
      { (repair g).1 with block_references := (fix_duplicates_count (repair g).1.inodes).1 } =
      ({ (repair g).1 with
          block_references := (fix_duplicates_count (repair g).1.inodes).1 }, 0) := by
    apply fix_bad_blocks_fixed
    intro i hi hv j hj
    show ¬ bad_pointer (((repair g).1.inodes.getD i default).direct.getD j 0)
    have hv' : ((repair g).1.inodes.getD i default).is_valid = true := hv
    rw [repair_inodes] at hv' ⊢
    exact fix_bad_blocks_no_bad _ i j hi hv' hj
  have e : repair (repair g).1 =
      ({ (repair g).1 with
          block_references := (fix_duplicates_count (repair g).1.inodes).1 }, 0) := by
    generalize repair g = r at e1 e2 e3 ⊢
    unfold repair
    simp only [e1, e2, e3]
  rw [e]
  exact ⟨rfl, rfl, rfl, rfl⟩

theorem repair_refs_irrelevant (g : Globals) (refs : List Nat) :
    repair { g with block_references := refs } = repair g := rfl

/-- C8: the whole repair is idempotent.  On a loaded image (both bitmaps are
blocks of 4096 bytes), running `fix_superblock`, `fix_bitmaps`,
`fix_duplicates`, `fix_bad_blocks` on the image that a first run produced
gives back the same superblock, inode bitmap, data bitmap and inode table,
with a total fix count of 0. -/
theorem repair_image_idempotent (img : Image) (h1 : img.inode_bitmap.length = BLOCK_SIZE)
    (h2 : img.data_bitmap.length = BLOCK_SIZE) :
    repair_image (repair_image img).1 = ((repair_image img).1, 0) := by
  have hl : load (repair_image img).1 =
      { (repair (load img)).1 with block_references := List.replicate TOTAL_BLOCKS 0 } := rfl
  have hs : (repair_image img).1.sb = (fix_superblock img.sb).1 := rfl
  have hr : (repair_image img).1 =
      { sb := (fix_superblock img.sb).1, inode_bitmap := (repair (load img)).1.inode_bitmap,
        data_bitmap := (repair (load img)).1.data_bitmap,
        inodes := (repair (load img)).1.inodes } := rfl
  obtain ⟨r1, r2, r3, r4⟩ := repair_repair (load img)
    (by show INODE_COUNT ≤ 8 * img.inode_bitmap.length; rw [h1]; decide)
    (by show TOTAL_BLOCKS ≤ 8 * img.data_bitmap.length; rw [h2]; decide)
  have e : repair_image (repair_image img).1 =
      ({ sb := (fix_superblock (repair_image img).1.sb).1,
         inode_bitmap := (repair (load (repair_image img).1)).1.inode_bitmap,
         data_bitmap := (repair (load (repair_image img).1)).1.data_bitmap,
         inodes := (repair (load (repair_image img).1)).1.inodes },
       (fix_superblock (repair_image img).1.sb).2 + (repair (load (repair_image img).1)).2) :=
    rfl
  rw [e, hl, hs, repair_refs_irrelevant,
    fix_superblock_of_valid _ (validate_fix_superblock img.sb), r1, r2, r3, r4, hr]

/-- Witness for C8: the Scenario C image. -/
theorem repair_image_idempotent_witness :
    image_stale_bit.inode_bitmap.length = BLOCK_SIZE ∧
    image_stale_bit.data_bitmap.length = BLOCK_SIZE ∧
    repair_image (repair_image image_stale_bit).1 = ((repair_image image_stale_bit).1, 0) :=
  ⟨congrArg (· + 1) (List.length_replicate 4095 0), List.length_replicate _ _,
    repair_image_idempotent image_stale_bit (congrArg (· + 1) (List.length_replicate 4095 0))
      (List.length_replicate _ _)⟩

/-- The image and the fix count that `main` reports are those of
`repair_image`. -/
theorem main_repair_image (img : Image) :
    (main img).image = (repair_image img).1 ∧ (main img).fixes_applied = (repair_image img).2 := by
  rw [main_image_eq, main_fixes_applied_eq]
  exact ⟨rfl, rfl⟩

/-! ## The reference table -/

theorem slot_refs_eq_count (ino : Inode) (b m : Nat) (hm : m ≤ ino.direct.length) :
    slot_refs ino b m = (ino.direct.take m).count b := by
  induction m with
  | zero => simp [slot_refs]
  | succ k ih =>
    have hk : k < ino.direct.length := hm
    rw [slot_refs, ih (Nat.le_of_lt hk), List.take_succ, List.getElem?_eq_getElem hk,
      List.count_append, List.getD_eq_getElem _ _ hk]
    congr 1
    simp only [Option.toList, List.count_singleton]
    by_cases h : ino.direct[k] = b
    · simp [h]
    · have h' : ¬ (b = ino.direct[k]) := fun e => h e.symm
      simp [h, h']

theorem ref_count_eq_sum (inodes : List Inode) (b n : Nat) (hn : n ≤ inodes.length)
    (hd : ∀ ino ∈ inodes, ino.direct.length = 12) :
    ref_count inodes b n =
      ((inodes.take n).map (fun ino => if ino.is_valid then ino.direct.count b else 0)).sum := by
  induction n with
  | zero => simp [ref_count]
  | succ k ih =>
    have hk : k < inodes.length := hn
    have hmem : inodes[k] ∈ inodes := List.getElem_mem hk
    have h12 := hd _ hmem
    rw [ref_count, ih (Nat.le_of_lt hk), List.take_succ, List.getElem?_eq_getElem hk,
      List.map_append, List.sum_append, List.getD_eq_getElem _ _ hk,
      slot_refs_eq_count _ _ _ (Nat.le_of_eq h12.symm), ← h12, List.take_length]
    simp [Option.toList]

/-- On a table of 80 inodes with 12 direct slots each, `ref_count` is the
number of pairs of a valid inode and a slot holding `b`. -/
theorem ref_count_eq_valid_slots (inodes : List Inode) (b : Nat)
    (hlen : inodes.length = INODE_COUNT) (hd : ∀ ino ∈ inodes, ino.direct.length = 12) :
    ref_count inodes b INODE_COUNT = valid_slots_holding inodes b := by
  rw [ref_count_eq_sum inodes b INODE_COUNT (Nat.le_of_eq hlen.symm) hd, ← hlen,
    List.take_length]
  rfl

/-- C9, as stated, fails: with one valid inode that lists block 10 in two
slots, each of the three recounts leaves `block_references[10] = 2`, while the
number of valid inodes listing block 10 is 1. -/
theorem block_references_counterexample :
    (check_bitmaps globals_block_twice).1.block_references.getD 10 0 ≠
      valid_inodes_listing globals_block_twice.inodes 10 ∧
    (check_bitmaps globals_block_twice).1.block_references.getD 10 0 = 2 ∧
    (fix_bitmaps globals_block_twice).1.block_references.getD 10 0 = 2 ∧
    (fix_duplicates globals_block_twice).1.block_references.getD 10 0 = 2 ∧
    valid_inodes_listing globals_block_twice.inodes 10 = 1 := by
  decide!

theorem check_bitmaps_refs (g : Globals) :
    (check_bitmaps g).1.block_references = recount g.inodes := rfl

/-- C9, amended: on a loaded table (80 inodes of 12 direct slots), after the
reference table is recomputed by `check_bitmaps`, by `fix_bitmaps` or by the
first pass of `fix_duplicates`, for every data block `b` with `8 <= b < 64`
the entry `block_references[b]` is the number of pairs of a valid inode and
one of its 12 direct slots such that the slot holds `b`: an inode that lists
`b` in several slots is counted once per slot. -/
theorem block_references_counts_slots (g : Globals) (hlen : g.inodes.length = INODE_COUNT)
    (hd : ∀ ino ∈ g.inodes, ino.direct.length = 12) (b : Nat) (hb1 : 8 ≤ b) (hb2 : b < 64) :
    (check_bitmaps g).1.block_references.getD b 0 = valid_slots_holding g.inodes b ∧
    (fix_bitmaps g).1.block_references.getD b 0 = valid_slots_holding g.inodes b ∧
    (fix_duplicates g).1.block_references.getD b 0 = valid_slots_holding g.inodes b := by
  rw [check_bitmaps_refs, fix_bitmaps_refs, (fix_duplicates_frame g).2.2.1,
    (recount_spec g.inodes).2 b hb1 hb2, ((fix_duplicates_count_spec g.inodes).2.2 b hb1 hb2).1,
    ref_count_eq_valid_slots g.inodes b hlen hd]
  exact ⟨rfl, rfl, rfl⟩

theorem globals_block_twice_direct :
    ∀ ino ∈ globals_block_twice.inodes, ino.direct.length = 12 := by
  intro ino h
  rcases List.mem_cons.mp h with h | h
  · rw [h]; rfl
  · rw [List.eq_of_mem_replicate h]; rfl

/-- Witness for C9: the state with block 10 listed twice by inode 0. -/
theorem block_references_counts_slots_witness :
    globals_block_twice.inodes.length = INODE_COUNT ∧
    (∀ ino ∈ globals_block_twice.inodes, ino.direct.length = 12) ∧ 8 ≤ 10 ∧ 10 < 64 ∧
    ((check_bitmaps globals_block_twice).1.block_references.getD 10 0 =
        valid_slots_holding globals_block_twice.inodes 10 ∧
     (fix_bitmaps globals_block_twice).1.block_references.getD 10 0 =
        valid_slots_holding globals_block_twice.inodes 10 ∧
     (fix_duplicates globals_block_twice).1.block_references.getD 10 0 =
        valid_slots_holding globals_block_twice.inodes 10) :=
  ⟨congrArg (· + 1) (List.length_replicate 79 Inode.zero), globals_block_twice_direct,
    by decide, by decide,
    block_references_counts_slots globals_block_twice
      (congrArg (· + 1) (List.length_replicate 79 Inode.zero)) globals_block_twice_direct 10
      (by decide) (by decide)⟩

/-! ## The fixed point -/

/-- C2, at the failing input: when a valid inode lists a data block twice,
`check_duplicates` reports the block before the repair, the repair sequence
applies no fix and leaves the image as it is, and the re-validation still
counts one duplicate error, so `main` exits with status 1. -/
theorem main_block_twice_not_fixed :
    check_duplicates (check_bitmaps (load image_block_twice)).1 = 1 ∧
    (main image_block_twice).fixes_applied = 0 ∧
    (main image_block_twice).image = image_block_twice ∧
    validate_superblock (main image_block_twice).image.sb = 0 ∧
    (check_bitmaps (load (main image_block_twice).image)).2 = 0 ∧
    check_duplicates (check_bitmaps (load (main image_block_twice).image)).1 = 1 ∧
    check_bad_blocks (check_bitmaps (load (main image_block_twice).image)).1 = 0 ∧
    (main image_block_twice).errors_after = 1 ∧
    (main image_block_twice).status = 1 := by
  decide!

/-! ## Exit status -/

theorem check_all_snd (g : Globals) :
    (check_all g).2 = (check_bitmaps g).2 + check_duplicates (check_bitmaps g).1 +
      check_bad_blocks (check_bitmaps g).1 := rfl

/-- The error count of the re-validation is that of the four checks on the
image that the run leaves behind. -/
theorem main_errors_after_image (img : Image) :
    (main img).errors_after =
      validate_superblock (main img).image.sb + (check_all (load (main img).image)).2 := by
  rw [main_errors_after_eq, main_image_eq]
  generalize repair (load img) = R
  generalize fix_superblock img.sb = F
  generalize validate_superblock = vs
  exact congrArg _ (check_all_refs_irrelevant R.1 _).symm

/-- C11: when all reads and writes succeed, `main` returns exit status 0
exactly when the re-validation after repair (`validate_superblock`,
`check_bitmaps`, `check_duplicates` and `check_bad_blocks` on the state read
back from the image) reports 0 errors, and returns 1 otherwise. -/
theorem main_status_iff_no_errors (img : Image) :
    ((main img).status = 0 ↔ (main img).errors_after = 0) ∧
    ((main img).errors_after ≠ 0 → (main img).status = 1) ∧
    (main img).errors_after =
      validate_superblock (main img).image.sb +
      ((check_bitmaps (load (main img).image)).2 +
       check_duplicates (check_bitmaps (load (main img).image)).1 +
       check_bad_blocks (check_bitmaps (load (main img).image)).1) := by
  refine ⟨?_, ?_, ?_⟩
  · rw [main_status_eq, main_errors_after_eq]
    generalize validate_superblock (fix_superblock img.sb).1 +
      (check_all (repair (load img)).1).2 = e
    by_cases h : e > 0
    · rw [if_pos h]
      constructor
      · intro h1; exact absurd h1 (by decide)
      · intro h0; omega
    · rw [if_neg h]
      constructor
      · intro _; omega
      · intro _; rfl
  · rw [main_status_eq, main_errors_after_eq]
    generalize validate_superblock (fix_superblock img.sb).1 +
      (check_all (repair (load img)).1).2 = e
    intro h
    rw [if_pos (by omega)]
  · rw [main_errors_after_image, check_all_snd]

/-! ## Frame properties of the repair passes -/

theorem repair_inodes_length (g : Globals) : (repair g).1.inodes.length = g.inodes.length := by
  rw [repair_inodes, (fix_bad_blocks_frame _).2.2.2, (fix_duplicates_frame _).2.2.2]

/-- C14: no repair pass touches the indirect pointers.  `fix_bitmaps` leaves
the inode table as it is, and after `fix_duplicates`, after `fix_bad_blocks`
and after the whole repair sequence the fields `single_indirect`,
`double_indirect` and `triple_indirect` of every inode, valid or not and
whatever their values, are those from before. -/
theorem repair_keeps_indirect (g : Globals) (i : Nat) :
    (fix_bitmaps g).1.inodes = g.inodes ∧
    (((fix_duplicates g).1.inodes.getD i default).single_indirect =
        (g.inodes.getD i default).single_indirect ∧
      ((fix_duplicates g).1.inodes.getD i default).double_indirect =
        (g.inodes.getD i default).double_indirect ∧
      ((fix_duplicates g).1.inodes.getD i default).triple_indirect =
        (g.inodes.getD i default).triple_indirect) ∧
    (((fix_bad_blocks g).1.inodes.getD i default).single_indirect =
        (g.inodes.getD i default).single_indirect ∧
      ((fix_bad_blocks g).1.inodes.getD i default).double_indirect =
        (g.inodes.getD i default).double_indirect ∧
      ((fix_bad_blocks g).1.inodes.getD i default).triple_indirect =
        (g.inodes.getD i default).triple_indirect) ∧
    (((repair g).1.inodes.getD i default).single_indirect =
        (g.inodes.getD i default).single_indirect ∧
      ((repair g).1.inodes.getD i default).double_indirect =
        (g.inodes.getD i default).double_indirect ∧
      ((repair g).1.inodes.getD i default).triple_indirect =
        (g.inodes.getD i default).triple_indirect) ∧
    (repair g).1.inodes.length = g.inodes.length := by
  have h1 := (fix_duplicates_slots g i).1
  have h2 := (fix_bad_blocks_slots g i).1
  have h3 := repair_frame g i
  exact ⟨fix_bitmaps_inodes g,
    ⟨h1.2.2.2.2.2.2.2.2.1, h1.2.2.2.2.2.2.2.2.2.1, h1.2.2.2.2.2.2.2.2.2.2.1⟩,
    ⟨h2.2.2.2.2.2.2.2.2.1, h2.2.2.2.2.2.2.2.2.2.1, h2.2.2.2.2.2.2.2.2.2.2.1⟩,
    ⟨h3.2.2.2.2.2.2.2.2.1, h3.2.2.2.2.2.2.2.2.2.1, h3.2.2.2.2.2.2.2.2.2.2.1⟩,
    repair_inodes_length g⟩

/-! ## The superblock error count -/

theorem ite_one_le_one (c : Prop) [Decidable c] : (if c then 1 else 0 : Nat) ≤ 1 := by
  split_ifs <;> omega

theorem sb_mismatches_le (sb : Superblock) : sb_mismatches sb ≤ 9 := by
  have h1 := ite_one_le_one (sb.magic ≠ MAGIC_NUMBER)
  have h2 := ite_one_le_one (sb.block_size ≠ BLOCK_SIZE)
  have h3 := ite_one_le_one (sb.total_blocks ≠ TOTAL_BLOCKS)
  have h4 := ite_one_le_one (sb.inode_bitmap_block ≠ INODE_BITMAP_BLOCK)
  have h5 := ite_one_le_one (sb.data_bitmap_block ≠ DATA_BITMAP_BLOCK)
  have h6 := ite_one_le_one (sb.inode_table_start ≠ INODE_TABLE_START)
  have h7 := ite_one_le_one (sb.first_data_block ≠ DATA_BLOCK_START)
  have h8 := ite_one_le_one (sb.inode_size ≠ INODE_SIZE)
  have h9 := ite_one_le_one (sb.inode_count > INODE_COUNT)
  unfold sb_mismatches
  omega

/-- C15: `validate_superblock` returns the number of mismatching fields among
the nine checked ones (eight compared with `!=` against their constants,
`inode_count` compared with `>` against 80); the result is at most 9, and it
is exactly 1 when only the magic number is wrong. -/
theorem validate_superblock_counts_mismatches (sb : Superblock) :
    validate_superblock sb =
      (if sb.magic ≠ 0xD34D then 1 else 0) + (if sb.block_size ≠ 4096 then 1 else 0) +
      (if sb.total_blocks ≠ 64 then 1 else 0) + (if sb.inode_bitmap_block ≠ 1 then 1 else 0) +
      (if sb.data_bitmap_block ≠ 2 then 1 else 0) + (if sb.inode_table_start ≠ 3 then 1 else 0) +
      (if sb.first_data_block ≠ 8 then 1 else 0) + (if sb.inode_size ≠ 256 then 1 else 0) +
      (if sb.inode_count > 80 then 1 else 0) ∧
    validate_superblock sb = sb_mismatches sb ∧
    0 ≤ validate_superblock sb ∧ validate_superblock sb ≤ 9 ∧
    (sb.magic ≠ 0xD34D ∧ sb.block_size = 4096 ∧ sb.total_blocks = 64 ∧
      sb.inode_bitmap_block = 1 ∧ sb.data_bitmap_block = 2 ∧ sb.inode_table_start = 3 ∧
      sb.first_data_block = 8 ∧ sb.inode_size = 256 ∧ sb.inode_count ≤ 80 →
      validate_superblock sb = 1) := by
  rw [validate_superblock_eq]
  refine ⟨rfl, rfl, Nat.zero_le _, sb_mismatches_le sb, ?_⟩
  rintro ⟨h1, h2, h3, h4, h5, h6, h7, h8, h9⟩
  unfold sb_mismatches
  rw [if_pos h1, if_neg (not_not.mpr h2), if_neg (not_not.mpr h3), if_neg (not_not.mpr h4),
    if_neg (not_not.mpr h5), if_neg (not_not.mpr h6), if_neg (not_not.mpr h7),
    if_neg (not_not.mpr h8),
    if_neg (show ¬ sb.inode_count > INODE_COUNT from Nat.not_lt.mpr h9)]

/-! ## What `fix_bad_blocks` changes -/

theorem fix_bad_blocks_invalid (g : Globals) (i : Nat)
    (hv : ¬ (g.inodes.getD i default).is_valid = true) :
    (fix_bad_blocks g).1.inodes.getD i default = g.inodes.getD i default := by
  rw [fix_bad_blocks_eq]
  exact clear_loop_invalid (fun _ p => bad_pointer p) _ _ _ _ (fun h => hv h.2)

theorem fix_duplicates_invalid (g : Globals) (i : Nat)
    (hv : ¬ (g.inodes.getD i default).is_valid = true) :
    (fix_duplicates g).1.inodes.getD i default = g.inodes.getD i default := by
  rw [fix_duplicates_eq]
  exact clear_loop_invalid _ _ _ _ _ (fun h => hv h.2)

/-- C19: `fix_bad_blocks` sets to 0 exactly the direct slots of valid inodes
whose value `p` is nonzero with `p < 8` or `p >= 64`; every other slot of
every inode keeps its value, in particular every zero or in-range slot of a
valid inode; and an invalid inode keeps all its fields.  In Scenario D the
slot holding 70 of the valid inode is zeroed and its slot holding 9 is kept,
and the free inode keeps its pointer 70. -/
theorem fix_bad_blocks_clears_exactly (g : Globals) (i j : Nat) :
    ((fix_bad_blocks g).1.inodes.getD i default).direct.getD j 0 =
      (if (i < 80 ∧ (g.inodes.getD i default).is_valid = true) ∧ j < 12 ∧
          ((g.inodes.getD i default).direct.getD j 0 ≠ 0 ∧
           ((g.inodes.getD i default).direct.getD j 0 < 8 ∨
            (g.inodes.getD i default).direct.getD j 0 ≥ 64)) then 0
       else (g.inodes.getD i default).direct.getD j 0) ∧
    ((g.inodes.getD i default).direct.getD j 0 = 0 ∨
      (8 ≤ (g.inodes.getD i default).direct.getD j 0 ∧
        (g.inodes.getD i default).direct.getD j 0 < 64) →
      ((fix_bad_blocks g).1.inodes.getD i default).direct.getD j 0 =
        (g.inodes.getD i default).direct.getD j 0) ∧
    (¬ (g.inodes.getD i default).is_valid = true →
      (fix_bad_blocks g).1.inodes.getD i default = g.inodes.getD i default) ∧
    ((fix_bad_blocks globals_bad_pointer).1.inodes.getD 0 default).direct =
      [0, 9, 0, 0, 0, 0, 0, 0, 0, 0, 0, 0] ∧
    (fix_bad_blocks globals_bad_pointer).1.inodes.getD 1 default =
      globals_bad_pointer.inodes.getD 1 default := by
  have hs := (fix_bad_blocks_slots g i).2.2 j
  refine ⟨hs, fun h => ?_, fix_bad_blocks_invalid g i, by decide!, by decide!⟩
  rw [hs, if_neg]
  rintro ⟨_, _, hb⟩
  simp only [bad_pointer, DATA_BLOCK_START, TOTAL_BLOCKS] at hb
  omega

/-! ## Bit addressing -/

theorem set_bitmap_bit_other_byte (bm : List Nat) (i v m : Nat) (hm : m ≠ i / 8) :
    (set_bitmap_bit bm i v).getD m 0 = bm.getD m 0 := by
  unfold set_bitmap_bit
  split_ifs <;> exact getD_set_of_ne _ _ _ _ _ (Ne.symm hm)

theorem set_bitmap_bit_other_bit (bm : List Nat) (i v t : Nat) (ht : t < 8) (hne : t ≠ i % 8) :
    ((set_bitmap_bit bm i v).getD (i / 8) 0).testBit t = (bm.getD (i / 8) 0).testBit t := by
  have h := bit_set_set_other bm i (8 * (i / 8) + t) v (by omega)
  unfold bit_set at h
  have e1 : (8 * (i / 8) + t) / 8 = i / 8 := by omega
  have e2 : (8 * (i / 8) + t) % 8 = t := by omega
  rw [e1, e2] at h
  exact h

/-- C20: for a bitmap buffer, an index `i` within it and a value `v` in
`{0, 1}`: after `set_bitmap_bit(bitmap, i, v)`, `is_block_marked(bitmap, i)`
returns `v`; the bit that is read and written is bit `i % 8`, counted from the
least significant bit, of byte `i / 8` (no other byte and no other bit of that
byte changes); and `is_block_marked(bitmap, k)` is unchanged for every
`k != i`. -/
theorem set_bitmap_bit_addressing (bitmap : List Nat) (i v : Nat) (hi : i / 8 < bitmap.length)
    (hv : v = 0 ∨ v = 1) :
    is_block_marked (set_bitmap_bit bitmap i v) i = v ∧
    (is_block_marked bitmap i = if (bitmap.getD (i / 8) 0).testBit (i % 8) then 1 else 0) ∧
    (((set_bitmap_bit bitmap i v).getD (i / 8) 0).testBit (i % 8) = decide (v = 1)) ∧
    (∀ t, t < 8 → t ≠ i % 8 →
      ((set_bitmap_bit bitmap i v).getD (i / 8) 0).testBit t =
        (bitmap.getD (i / 8) 0).testBit t) ∧
    (∀ m, m ≠ i / 8 → (set_bitmap_bit bitmap i v).getD m 0 = bitmap.getD m 0) ∧
    (set_bitmap_bit bitmap i v).length = bitmap.length ∧
    (∀ k, k ≠ i → is_block_marked (set_bitmap_bit bitmap i v) k = is_block_marked bitmap k) := by
  have hself := bit_set_set_self bitmap i v hi
  refine ⟨?_, is_block_marked_eq bitmap i, ?_, fun t ht hne => set_bitmap_bit_other_bit _ _ _ _ ht hne,
    fun m hm => set_bitmap_bit_other_byte _ _ _ _ hm, set_bitmap_bit_length _ _ _, fun k hk => ?_⟩
  · rw [is_block_marked_eq, hself]
    rcases hv with h | h <;> simp [h]
  · have h := hself
    unfold bit_set at h
    rw [h]
    rcases hv with h | h <;> simp [h]
  · rw [is_block_marked_eq, is_block_marked_eq, bit_set_set_other _ _ _ _ hk]

/-- Witness for C20: setting bit 10 of a two-byte buffer. -/
theorem set_bitmap_bit_addressing_witness :
    10 / 8 < [0, 0].length ∧ (1 = 0 ∨ 1 = 1) ∧
    (is_block_marked (set_bitmap_bit [0, 0] 10 1) 10 = 1 ∧
    (is_block_marked [0, 0] 10 = if (([0, 0] : List Nat).getD (10 / 8) 0).testBit (10 % 8) then 1
      else 0) ∧
    (((set_bitmap_bit [0, 0] 10 1).getD (10 / 8) 0).testBit (10 % 8) = decide (1 = 1)) ∧
    (∀ t, t < 8 → t ≠ 10 % 8 →
      ((set_bitmap_bit [0, 0] 10 1).getD (10 / 8) 0).testBit t =
        (([0, 0] : List Nat).getD (10 / 8) 0).testBit t) ∧
    (∀ m, m ≠ 10 / 8 → (set_bitmap_bit [0, 0] 10 1).getD m 0 = ([0, 0] : List Nat).getD m 0) ∧
    (set_bitmap_bit [0, 0] 10 1).length = ([0, 0] : List Nat).length ∧
    (∀ k, k ≠ 10 → is_block_marked (set_bitmap_bit [0, 0] 10 1) k = is_block_marked [0, 0] k)) :=
  ⟨by decide, by decide, set_bitmap_bit_addressing [0, 0] 10 1 (by decide) (by decide)⟩

/-! ## Counting loops -/

theorem count_below_eq_filter (P : Nat → Prop) [DecidablePred P] (n : Nat) :
    count_below P n = ((List.range n).filter (fun j => decide (P j))).length := by
  induction n with
  | zero => rfl
  | succ k ih =>
    rw [count_below, ih, List.range_succ, List.filter_append, List.length_append]
    congr 1
    by_cases h : P k
    · simp [h]
    · simp [h]

theorem sum_below_eq_sum (f : Nat → Nat) (n : Nat) :
    sum_below f n = ((List.range n).map f).sum := by
  induction n with
  | zero => rfl
  | succ k ih =>
    rw [sum_below, ih, List.range_succ, List.map_append, List.sum_append]
    simp

theorem count_below_congr (P Q : Nat → Prop) [DecidablePred P] [DecidablePred Q] (n : Nat)
    (h : ∀ j, j < n → (P j ↔ Q j)) : count_below P n = count_below Q n := by
  induction n with
  | zero => rfl
  | succ k ih =>
    rw [count_below, count_below, ih (fun j hj => h j (Nat.lt_succ_of_lt hj))]
    congr 1
    by_cases hp : P k
    · rw [if_pos hp, if_pos ((h k (Nat.lt_succ_self k)).mp hp)]
    · rw [if_neg hp, if_neg (fun hq => hp ((h k (Nat.lt_succ_self k)).mpr hq))]

theorem sum_below_congr (f g : Nat → Nat) (n : Nat) (h : ∀ i, i < n → f i = g i) :
    sum_below f n = sum_below g n := by
  induction n with
  | zero => rfl
  | succ k ih =>
    rw [sum_below, sum_below, ih (fun i hi => h i (Nat.lt_succ_of_lt hi)),
      h k (Nat.lt_succ_self k)]

theorem count_below_false (P : Nat → Prop) [DecidablePred P] (n : Nat)
    (h : ∀ j, j < n → ¬ P j) : count_below P n = 0 := by
  induction n with
  | zero => rfl
  | succ k ih =>
    rw [count_below, ih (fun j hj => h j (Nat.lt_succ_of_lt hj)),
      if_neg (h k (Nat.lt_succ_self k))]

theorem count_below_le (P : Nat → Prop) [DecidablePred P] (n : Nat) : count_below P n ≤ n := by
  induction n with
  | zero => exact Nat.le_refl 0
  | succ k ih =>
    rw [count_below]
    split_ifs <;> omega

/-- A loop that counts the indices satisfying `P`. -/
theorem count_loop (P : Nat → Prop) [DecidablePred P] (n e : Nat) :
    forLoop n (fun j e => if P j then e + 1 else e) e = e + count_below P n := by
  induction n with
  | zero => rw [forLoop_zero]; rfl
  | succ k ih =>
    rw [forLoop_succ, ih, count_below]
    by_cases h : P k
    · rw [if_pos h, if_pos h, Nat.add_assoc]
    · rw [if_neg h, if_neg h]
      rfl

/-- The nested counting loop of `check_bad_blocks`. -/
theorem nested_count_loop (V : Nat → Prop) [DecidablePred V] (P : Nat → Nat → Prop)
    [∀ i, DecidablePred (P i)] (n m e : Nat) :
    forLoop n (fun i e =>
        if V i then forLoop m (fun j e => if P i j then e + 1 else e) e else e) e =
      e + sum_below (fun i => if V i then count_below (P i) m else 0) n := by
  induction n with
  | zero => rw [forLoop_zero]; rfl
  | succ k ih =>
    rw [forLoop_succ, ih, sum_below]
    by_cases h : V k
    · rw [if_pos h, if_pos h, count_loop, Nat.add_assoc]
    · rw [if_neg h, if_neg h]
      rfl

theorem check_bad_blocks_eq_sum (g : Globals) :
    check_bad_blocks g =
      sum_below (fun i =>
        if (g.inodes.getD i default).is_valid = true then
          count_below (fun j => bad_pointer ((g.inodes.getD i default).direct.getD j 0)) 12
        else 0) INODE_COUNT := by
  have h := nested_count_loop (fun i => (g.inodes.getD i default).is_valid = true)
    (fun i j => bad_pointer ((g.inodes.getD i default).direct.getD j 0)) INODE_COUNT 12 0
  rw [Nat.zero_add] at h
  rw [← h]
  rfl

theorem check_bad_blocks_eq_bad_pairs (g : Globals) :
    check_bad_blocks g = bad_pairs g.inodes := by
  rw [check_bad_blocks_eq_sum, sum_below_eq_sum]
  unfold bad_pairs
  congr 1
  apply List.map_congr_left
  intro i _
  by_cases hv : (g.inodes.getD i default).is_valid = true
  · rw [if_pos hv, if_pos hv, count_below_eq_filter]
  · rw [if_neg hv, if_neg hv]

/-- C16: `check_bad_blocks` returns the number of pairs of a valid inode `i`
and a direct slot `j` whose pointer `p` satisfies `p != 0` and (`p < 8` or
`p >= 64`); slots holding 0 and slots of invalid inodes are not counted.  In
Scenario D (a valid inode with the pointers 70 and 9, next to a free inode
with the pointer 70) the result is 1. -/
theorem check_bad_blocks_counts_pairs (g : Globals) :
    check_bad_blocks g =
      ((List.range 80).map (fun i =>
        if (g.inodes.getD i default).links_count > 0 ∧ (g.inodes.getD i default).dtime = 0 then
          ((List.range 12).filter (fun j =>
            decide ((g.inodes.getD i default).direct.getD j 0 ≠ 0 ∧
              ((g.inodes.getD i default).direct.getD j 0 < 8 ∨
               (g.inodes.getD i default).direct.getD j 0 ≥ 64)))).length
        else 0)).sum ∧
    check_bad_blocks g = bad_pairs g.inodes ∧
    check_bad_blocks globals_bad_pointer = 1 := by
  refine ⟨?_, check_bad_blocks_eq_bad_pairs g, by decide!⟩
  rw [check_bad_blocks_eq_bad_pairs]
  unfold bad_pairs
  congr 1
  apply List.map_congr_left
  intro i _
  by_cases hv : (g.inodes.getD i default).is_valid = true
  · rw [if_pos hv, if_pos ((is_valid_iff _).mp hv)]
    rfl
  · rw [if_neg hv, if_neg (fun h => hv ((is_valid_iff _).mpr h))]

/-! ## Fix counts, `blocks_count` and `size` in the pointer-clearing loops -/

theorem clear_pointer_counts (ino : Inode) (j : Nat) :
    ((clear_pointer ino j).blocks_count, (clear_pointer ino j).size) =
      clamp_step (ino.blocks_count, ino.size) := by
  unfold clear_pointer clamp_step
  simp only []
  split_ifs <;> rfl

/-- The inner loop on one inode: the fix counter grows by the number of slots
that satisfy `c`, and `blocks_count` and `size` go through one `clamp_step`
for each of them. -/
theorem clear_slots_count (c : Nat → Prop) [DecidablePred c] (hc0 : ¬ c 0) (m : Nat)
    (ino : Inode) (f : Nat) :
    (clear_slots c m (ino, f)).2 = f + count_below (fun j => c (ino.direct.getD j 0)) m ∧
    ((clear_slots c m (ino, f)).1.blocks_count, (clear_slots c m (ino, f)).1.size) =
      clamp_iter (count_below (fun j => c (ino.direct.getD j 0)) m)
        (ino.blocks_count, ino.size) := by
  induction m with
  | zero =>
    unfold clear_slots
    rw [forLoop_zero]
    exact ⟨rfl, rfl⟩
  | succ k ih =>
    obtain ⟨h1, h2⟩ := ih
    have hk : (clear_slots c k (ino, f)).1.direct.getD k 0 = ino.direct.getD k 0 := by
      rw [(clear_slots_spec c hc0 k ino f).2.2 k, if_neg (fun h => absurd h.1 (Nat.lt_irrefl k))]
    have hstep : clear_slots c (k + 1) (ino, f) =
        if c ((clear_slots c k (ino, f)).1.direct.getD k 0) then
          (clear_pointer (clear_slots c k (ino, f)).1 k, (clear_slots c k (ino, f)).2 + 1)
        else clear_slots c k (ino, f) := by
      unfold clear_slots
      rw [forLoop_succ]
    rw [hstep, hk]
    simp only [count_below]
    by_cases hc : c (ino.direct.getD k 0)
    · rw [if_pos hc, if_pos hc]
      refine ⟨?_, ?_⟩
      · show (clear_slots c k (ino, f)).2 + 1 = _
        rw [h1, Nat.add_assoc]
      · show ((clear_pointer _ k).blocks_count, (clear_pointer _ k).size) = _
        rw [clear_pointer_counts, h2]
        rfl
    · rw [if_neg hc, if_neg hc]
      exact ⟨h1, h2⟩

/-- The fix count of `clear_loop`: the number of pairs of a valid inode and a
slot whose pointer satisfies `c`. -/
theorem clear_loop_count (c : Nat → Nat → Prop) [∀ i p, Decidable (c i p)]
    (hc0 : ∀ i, ¬ c i 0) (n : Nat) (tbl : List Inode) (f : Nat) :
    (clear_loop c n (tbl, f)).2 =
      f + sum_below (fun i =>
        if (tbl.getD i default).is_valid = true then
          count_below (fun j => c i ((tbl.getD i default).direct.getD j 0)) 12
        else 0) n := by
  induction n with
  | zero =>
    unfold clear_loop
    rw [forLoop_zero]
    rfl
  | succ k ih =>
    have hspec := clear_loop_spec c k tbl f
    have hstep : clear_loop c (k + 1) (tbl, f) =
        if ((clear_loop c k (tbl, f)).1.getD k default).is_valid = true then
          forLoop 12 (fun j (r : List Inode × Nat) =>
            if c k ((r.1.getD k default).direct.getD j 0) then
              (r.1.set k (clear_pointer (r.1.getD k default) j), r.2 + 1)
            else r) (clear_loop c k (tbl, f))
        else clear_loop c k (tbl, f) := by
      unfold clear_loop
      rw [forLoop_succ]
    have hk : (clear_loop c k (tbl, f)).1.getD k default = tbl.getD k default := by
      rw [hspec.2 k, if_neg (fun h => absurd h.1 (Nat.lt_irrefl k))]
    rw [hstep, hk, sum_below]
    by_cases hv : (tbl.getD k default).is_valid = true
    · have hlen : k < (clear_loop c k (tbl, f)).1.length := by
        rw [hspec.1]
        by_contra hge
        rw [getD_of_length_le _ _ _ (Nat.le_of_not_lt hge), default_not_valid] at hv
        exact Bool.false_ne_true hv
      rw [if_pos hv, if_pos hv]
      generalize clear_loop c k (tbl, f) = r at ih hk hlen
      obtain ⟨t, f'⟩ := r
      rw [clear_inner_eq (c k) k 12 t f' hlen]
      show (clear_slots (c k) 12 (t.getD k default, f')).2 = _
      have hk' : t.getD k default = tbl.getD k default := hk
      have ih' : f' = f + sum_below (fun i =>
        if (tbl.getD i default).is_valid = true then
          count_below (fun j => c i ((tbl.getD i default).direct.getD j 0)) 12
        else 0) k := ih
      rw [(clear_slots_count (c k) (hc0 k) 12 _ f').1, hk', ih', Nat.add_assoc]
    · rw [if_neg hv, if_neg hv, ih]
      rfl

/-- `blocks_count` and `size` of every inode after `clear_loop`. -/
theorem clear_loop_counts (c : Nat → Nat → Prop) [∀ i p, Decidable (c i p)]
    (hc0 : ∀ i, ¬ c i 0) (n : Nat) (tbl : List Inode) (f : Nat) (i : Nat) :
    (((clear_loop c n (tbl, f)).1.getD i default).blocks_count,
     ((clear_loop c n (tbl, f)).1.getD i default).size) =
      clamp_iter
        (if i < n ∧ (tbl.getD i default).is_valid = true then
          count_below (fun j => c i ((tbl.getD i default).direct.getD j 0)) 12
         else 0)
        ((tbl.getD i default).blocks_count, (tbl.getD i default).size) := by
  rw [(clear_loop_spec c n tbl f).2 i]
  by_cases hv : i < n ∧ (tbl.getD i default).is_valid = true
  · rw [if_pos hv, if_pos hv]
    exact (clear_slots_count (c i) (hc0 i) 12 _ 0).2
  · rw [if_neg hv, if_neg hv]
    rfl

/-- The slots that a pass clears in an inode are those that hold a pointer
before and 0 after. -/
theorem pointers_cleared_eq (c : Nat → Prop) [DecidablePred c] (hc0 : ¬ c 0) (V : Prop)
    [Decidable V] (before after : Inode)
    (h : ∀ j, after.direct.getD j 0 =
      if V ∧ j < 12 ∧ c (before.direct.getD j 0) then 0 else before.direct.getD j 0) :
    pointers_cleared before after =
      if V then count_below (fun j => c (before.direct.getD j 0)) 12 else 0 := by
  unfold pointers_cleared
  rw [← count_below_eq_filter (fun j => before.direct.getD j 0 ≠ 0 ∧ after.direct.getD j 0 = 0)]
  by_cases hV : V
  · rw [if_pos hV]
    apply count_below_congr
    intro j hj
    rw [h j]
    by_cases hc : c (before.direct.getD j 0)
    · rw [if_pos ⟨hV, hj, hc⟩]
      exact ⟨fun _ => hc, fun _ => ⟨fun h0 => hc0 (h0 ▸ hc), rfl⟩⟩
    · rw [if_neg (fun g => hc g.2.2)]
      exact ⟨fun g => absurd g.2 g.1, fun g => absurd g hc⟩
  · rw [if_neg hV]
    apply count_below_false
    intro j hj
    rw [h j, if_neg (fun g => hV g.1)]
    exact fun g => g.1 g.2

/-! ## `blocks_count` and `size` after a pass -/

theorem clamp_step_no_wrap (bc s : Nat) (h1 : 1 ≤ bc) (h2 : bc ≤ 1048576) :
    clamp_step (bc, s) = (bc - 1, min s ((bc - 1) * 4096)) := by
  unfold clamp_step
  have e1 : (bc + U32 - 1) % U32 = bc - 1 := by
    simp only [U32]; omega
  have e2 : (bc - 1) * BLOCK_SIZE % U32 = (bc - 1) * 4096 := by
    simp only [U32, BLOCK_SIZE]; omega
  simp only [e1, e2]
  by_cases h : s > (bc - 1) * 4096
  · rw [if_pos h, Nat.min_eq_right (Nat.le_of_lt h)]
  · rw [if_neg h, Nat.min_eq_left (Nat.le_of_not_lt h)]

/-- Without wrap-around, `k >= 1` cleared pointers lower `blocks_count` by `k`
and leave `size` at the minimum of its previous value and the new
`blocks_count` times 4096. -/
theorem clamp_iter_no_wrap (k bc s : Nat) (hk : k + 1 ≤ bc) (h2 : bc ≤ 1048576) :
    clamp_iter (k + 1) (bc, s) = (bc - (k + 1), min s ((bc - (k + 1)) * 4096)) := by
  induction k with
  | zero => exact clamp_step_no_wrap bc s hk h2
  | succ n ih =>
    rw [clamp_iter, ih (by omega), clamp_step_no_wrap _ _ (by omega) (by omega)]
    have e : bc - (n + 1) - 1 = bc - (n + 1 + 1) := by omega
    rw [e, Nat.min_assoc]
    congr 2
    apply Nat.min_eq_right
    apply Nat.mul_le_mul_right
    omega

theorem fix_bad_blocks_counts (g : Globals) (i : Nat) :
    (((fix_bad_blocks g).1.inodes.getD i default).blocks_count,
     ((fix_bad_blocks g).1.inodes.getD i default).size) =
      clamp_iter (pointers_cleared (g.inodes.getD i default)
          ((fix_bad_blocks g).1.inodes.getD i default))
        ((g.inodes.getD i default).blocks_count, (g.inodes.getD i default).size) := by
  rw [pointers_cleared_eq bad_pointer bad_pointer_zero
    (i < INODE_COUNT ∧ (g.inodes.getD i default).is_valid = true) _ _
    (fun j => (fix_bad_blocks_slots g i).2.2 j)]
  rw [fix_bad_blocks_eq]
  exact clear_loop_counts (fun _ p => bad_pointer p) (fun _ => bad_pointer_zero) _ _ _ i

theorem fix_duplicates_counts (g : Globals) (i : Nat) :
    (((fix_duplicates g).1.inodes.getD i default).blocks_count,
     ((fix_duplicates g).1.inodes.getD i default).size) =
      clamp_iter (pointers_cleared (g.inodes.getD i default)
          ((fix_duplicates g).1.inodes.getD i default))
        ((g.inodes.getD i default).blocks_count, (g.inodes.getD i default).size) := by
  rw [pointers_cleared_eq
    (dup_pointer (fix_duplicates_count g.inodes).1 (fix_duplicates_count g.inodes).2 i)
    (dup_pointer_zero _ _ i)
    (i < INODE_COUNT ∧ (g.inodes.getD i default).is_valid = true) _ _
    (fun j => (fix_duplicates_slots g i).2.2 j)]
  rw [fix_duplicates_eq]
  exact clear_loop_counts _ (dup_pointer_zero _ _) _ _ _ i

theorem counts_no_wrap (before after : Inode) (k : Nat)
    (h : (after.blocks_count, after.size) = clamp_iter k (before.blocks_count, before.size))
    (h1 : 1 ≤ k) (h2 : k ≤ before.blocks_count) (h3 : before.blocks_count ≤ 1048576) :
    after.blocks_count = before.blocks_count - k ∧
    after.size = min before.size (after.blocks_count * 4096) := by
  obtain ⟨n, rfl⟩ : ∃ n, k = n + 1 := ⟨k - 1, by omega⟩
  rw [clamp_iter_no_wrap n _ _ h2 h3] at h
  have hb : after.blocks_count = before.blocks_count - (n + 1) := congrArg Prod.fst h
  have hs : after.size = min before.size ((before.blocks_count - (n + 1)) * 4096) :=
    congrArg Prod.snd h
  exact ⟨hb, by rw [hs, hb]⟩

/-- C12, as stated, fails: the product is taken modulo `2^32`.  A valid inode
with `blocks_count = 2^20 + 1`, `size = 5000` and one bad pointer ends with
`blocks_count = 2^20` and `size = 0`, while the minimum of its previous size
and the exact product `2^20 * 4096` is 5000. -/
theorem size_clamp_counterexample :
    (globals_large_count.inodes.getD 0 default).is_valid = true ∧
    pointers_cleared (globals_large_count.inodes.getD 0 default)
      ((fix_bad_blocks globals_large_count).1.inodes.getD 0 default) = 1 ∧
    ((fix_bad_blocks globals_large_count).1.inodes.getD 0 default).blocks_count = 1048576 ∧
    ((fix_bad_blocks globals_large_count).1.inodes.getD 0 default).size = 0 ∧
    min (globals_large_count.inodes.getD 0 default).size
      (((fix_bad_blocks globals_large_count).1.inodes.getD 0 default).blocks_count * 4096)
      = 5000 ∧
    ((fix_bad_blocks globals_large_count).1.inodes.getD 0 default).size ≠
      min (globals_large_count.inodes.getD 0 default).size
        (((fix_bad_blocks globals_large_count).1.inodes.getD 0 default).blocks_count * 4096) := by
  decide!

/-- C12, amended: for every inode, after `fix_bad_blocks` and after
`fix_duplicates`, `blocks_count` and `size` are what `k` successive steps make
of them, `k` being the number of pointers the pass cleared from the inode and
a step being the decrement of `blocks_count` modulo `2^32` followed by the
lowering of `size` to `(blocks_count * 4096) mod 2^32` when it exceeds it.
When `1 <= k <= blocks_count <= 2^20`, so that nothing wraps, the size
afterwards is the minimum of the previous size and the new `blocks_count`
times 4096. -/
theorem size_clamp_modulo (g : Globals) (i : Nat) :
    ((((fix_bad_blocks g).1.inodes.getD i default).blocks_count,
      ((fix_bad_blocks g).1.inodes.getD i default).size) =
      clamp_iter (pointers_cleared (g.inodes.getD i default)
          ((fix_bad_blocks g).1.inodes.getD i default))
        ((g.inodes.getD i default).blocks_count, (g.inodes.getD i default).size)) ∧
    ((((fix_duplicates g).1.inodes.getD i default).blocks_count,
      ((fix_duplicates g).1.inodes.getD i default).size) =
      clamp_iter (pointers_cleared (g.inodes.getD i default)
          ((fix_duplicates g).1.inodes.getD i default))
        ((g.inodes.getD i default).blocks_count, (g.inodes.getD i default).size)) ∧
    (1 ≤ pointers_cleared (g.inodes.getD i default)
          ((fix_bad_blocks g).1.inodes.getD i default) ∧
      pointers_cleared (g.inodes.getD i default)
          ((fix_bad_blocks g).1.inodes.getD i default) ≤ (g.inodes.getD i default).blocks_count ∧
      (g.inodes.getD i default).blocks_count ≤ 1048576 →
      ((fix_bad_blocks g).1.inodes.getD i default).blocks_count =
        (g.inodes.getD i default).blocks_count -
          pointers_cleared (g.inodes.getD i default)
            ((fix_bad_blocks g).1.inodes.getD i default) ∧
      ((fix_bad_blocks g).1.inodes.getD i default).size =
        min (g.inodes.getD i default).size
          (((fix_bad_blocks g).1.inodes.getD i default).blocks_count * 4096)) ∧
    (1 ≤ pointers_cleared (g.inodes.getD i default)
          ((fix_duplicates g).1.inodes.getD i default) ∧
      pointers_cleared (g.inodes.getD i default)
          ((fix_duplicates g).1.inodes.getD i default) ≤ (g.inodes.getD i default).blocks_count ∧
      (g.inodes.getD i default).blocks_count ≤ 1048576 →
      ((fix_duplicates g).1.inodes.getD i default).blocks_count =
        (g.inodes.getD i default).blocks_count -
          pointers_cleared (g.inodes.getD i default)
            ((fix_duplicates g).1.inodes.getD i default) ∧
      ((fix_duplicates g).1.inodes.getD i default).size =
        min (g.inodes.getD i default).size
          (((fix_duplicates g).1.inodes.getD i default).blocks_count * 4096)) :=
  ⟨fix_bad_blocks_counts g i, fix_duplicates_counts g i,
    fun h => counts_no_wrap _ _ _ (fix_bad_blocks_counts g i) h.1 h.2.1 h.2.2,
    fun h => counts_no_wrap _ _ _ (fix_duplicates_counts g i) h.1 h.2.1 h.2.2⟩

/-! ## What `fix_duplicates` changes -/

/-- For a slot of a valid inode that holds the data block `b`, the test of the
second pass (`block_references[b] > 1` and `i != first_inode[b]`) holds
exactly when inode `i` is not the lowest owner of `b`. -/
theorem dup_pointer_iff (g : Globals) (i b : Nat) (hi : i < INODE_COUNT)
    (hv : (g.inodes.getD i default).is_valid = true)
    (hr : (g.inodes.getD i default).references b)
    (hb1 : DATA_BLOCK_START ≤ b) (hb2 : b < TOTAL_BLOCKS) :
    dup_pointer (fix_duplicates_count g.inodes).1 (fix_duplicates_count g.inodes).2 i b ↔
      ¬ lowest_owner g.inodes b i := by
  obtain ⟨_, _, hc⟩ := fix_duplicates_count_spec g.inodes
  obtain ⟨hrefs, hfirst⟩ := hc b hb1 hb2
  have hpos : 0 < ref_count g.inodes b INODE_COUNT :=
    (referenced_iff g.inodes b).mp ⟨i, hi, hv, hr⟩
  have ho := first_ref_lowest_owner g.inodes b hpos
  unfold dup_pointer
  rw [hrefs, hfirst]
  constructor
  · rintro ⟨_, hne⟩ hlow
    exact hne (lowest_owner_unique g.inodes b _ _ hlow ho)
  · intro hnot
    refine ⟨⟨hb1, hb2, ?_⟩, fun he => hnot (he ▸ ho)⟩
    by_contra hle
    exact hnot (lowest_owner_of_single g.inodes b i hi hv hr (by omega))

/-- An inode that references `b` without being its lowest owner is not the
only valid inode referencing `b`, and the reference table counts `b` more
than once. -/
theorem not_lowest_owner_shared (g : Globals) (i b : Nat) (hi : i < INODE_COUNT)
    (hv : (g.inodes.getD i default).is_valid = true)
    (hr : (g.inodes.getD i default).references b)
    (hb1 : DATA_BLOCK_START ≤ b) (hb2 : b < TOTAL_BLOCKS)
    (hnot : ¬ lowest_owner g.inodes b i) :
    (∃ k, k < INODE_COUNT ∧ k ≠ i ∧ (g.inodes.getD k default).is_valid = true ∧
      (g.inodes.getD k default).references b) ∧
    1 < (fix_duplicates g).1.block_references.getD b 0 := by
  have hd := (dup_pointer_iff g i b hi hv hr hb1 hb2).mpr hnot
  have hpos : 0 < ref_count g.inodes b INODE_COUNT :=
    (referenced_iff g.inodes b).mp ⟨i, hi, hv, hr⟩
  have ho := first_ref_lowest_owner g.inodes b hpos
  refine ⟨⟨_, ho.1, fun he => hnot (he ▸ ho), ho.2.1, ho.2.2.1⟩, ?_⟩
  rw [(fix_duplicates_frame g).2.2.1]
  exact hd.1.2.2

theorem fix_duplicates_fix_count (g : Globals) :
    (fix_duplicates g).2 = slots_cleared g.inodes (fix_duplicates g).1.inodes := by
  unfold slots_cleared
  rw [← sum_below_eq_sum]
  have h : ∀ i, i < INODE_COUNT →
      pointers_cleared (g.inodes.getD i default) ((fix_duplicates g).1.inodes.getD i default) =
        if (g.inodes.getD i default).is_valid = true then
          count_below (fun j => dup_pointer (fix_duplicates_count g.inodes).1
            (fix_duplicates_count g.inodes).2 i ((g.inodes.getD i default).direct.getD j 0)) 12
        else 0 := by
    intro i hi
    rw [pointers_cleared_eq
      (dup_pointer (fix_duplicates_count g.inodes).1 (fix_duplicates_count g.inodes).2 i)
      (dup_pointer_zero _ _ i)
      (i < INODE_COUNT ∧ (g.inodes.getD i default).is_valid = true) _ _
      (fun j => (fix_duplicates_slots g i).2.2 j)]
    by_cases hv : (g.inodes.getD i default).is_valid = true
    · rw [if_pos ⟨hi, hv⟩, if_pos hv]
    · rw [if_neg (fun h => hv h.2), if_neg hv]
  rw [sum_below_congr _ _ _ h, fix_duplicates_eq]
  have := clear_loop_count (dup_pointer (fix_duplicates_count g.inodes).1
    (fix_duplicates_count g.inodes).2) (dup_pointer_zero _ _) INODE_COUNT g.inodes 0
  rw [Nat.zero_add] at this
  exact this

theorem fix_bad_blocks_fix_count (g : Globals) :
    (fix_bad_blocks g).2 = slots_cleared g.inodes (fix_bad_blocks g).1.inodes ∧
    (fix_bad_blocks g).2 = check_bad_blocks g := by
  have hc := clear_loop_count (fun _ p => bad_pointer p) (fun _ => bad_pointer_zero)
    INODE_COUNT g.inodes 0
  rw [Nat.zero_add] at hc
  refine ⟨?_, ?_⟩
  · unfold slots_cleared
    rw [← sum_below_eq_sum]
    have h : ∀ i, i < INODE_COUNT →
        pointers_cleared (g.inodes.getD i default)
            ((fix_bad_blocks g).1.inodes.getD i default) =
          if (g.inodes.getD i default).is_valid = true then
            count_below (fun j => bad_pointer ((g.inodes.getD i default).direct.getD j 0)) 12
          else 0 := by
      intro i hi
      rw [pointers_cleared_eq bad_pointer bad_pointer_zero
        (i < INODE_COUNT ∧ (g.inodes.getD i default).is_valid = true) _ _
        (fun j => (fix_bad_blocks_slots g i).2.2 j)]
      by_cases hv : (g.inodes.getD i default).is_valid = true
      · rw [if_pos ⟨hi, hv⟩, if_pos hv]
      · rw [if_neg (fun h => hv h.2), if_neg hv]
    rw [sum_below_congr _ _ _ h, fix_bad_blocks_eq]
    exact hc
  · rw [check_bad_blocks_eq_sum, fix_bad_blocks_eq]
    exact hc

/-- C18: `fix_duplicates` sets to 0 exactly the direct slots `(i, j)` for
which inode `i` is valid, the value `b` of the slot lies in `[8, 64)`, `b` is
referenced by more than one valid inode, and `i` is not the lowest-indexed
valid inode referencing `b`; every other slot of every inode keeps its value;
and the fix count is the number of slots cleared.  In Scenario B (inodes 0
and 1 valid, each listing block 10 once) inode 0 is unchanged, the slot of
inode 1 becomes 0, and the fix count is 1. -/
theorem fix_duplicates_clears_exactly (g : Globals) (i j : Nat) :
    ((((fix_duplicates g).1.inodes.getD i default).direct.getD j 0 = 0 ∧
      (g.inodes.getD i default).direct.getD j 0 ≠ 0) ↔
     (i < 80 ∧ (g.inodes.getD i default).is_valid = true ∧ j < 12 ∧
      (8 ≤ (g.inodes.getD i default).direct.getD j 0 ∧
        (g.inodes.getD i default).direct.getD j 0 < 64) ∧
      (∃ k, k < 80 ∧ k ≠ i ∧ (g.inodes.getD k default).is_valid = true ∧
        (g.inodes.getD k default).references ((g.inodes.getD i default).direct.getD j 0)) ∧
      ¬ lowest_owner g.inodes ((g.inodes.getD i default).direct.getD j 0) i)) ∧
    (¬ (i < 80 ∧ (g.inodes.getD i default).is_valid = true ∧ j < 12 ∧
      (8 ≤ (g.inodes.getD i default).direct.getD j 0 ∧
        (g.inodes.getD i default).direct.getD j 0 < 64) ∧
      (∃ k, k < 80 ∧ k ≠ i ∧ (g.inodes.getD k default).is_valid = true ∧
        (g.inodes.getD k default).references ((g.inodes.getD i default).direct.getD j 0)) ∧
      ¬ lowest_owner g.inodes ((g.inodes.getD i default).direct.getD j 0) i) →
      ((fix_duplicates g).1.inodes.getD i default).direct.getD j 0 =
        (g.inodes.getD i default).direct.getD j 0) ∧
    (fix_duplicates g).2 = slots_cleared g.inodes (fix_duplicates g).1.inodes ∧
    ((fix_duplicates globals_shared_block).1.inodes.getD 0 default =
        globals_shared_block.inodes.getD 0 default ∧
      ((fix_duplicates globals_shared_block).1.inodes.getD 1 default).direct =
        [0, 0, 0, 0, 0, 0, 0, 0, 0, 0, 0, 0] ∧
      (fix_duplicates globals_shared_block).2 = 1) := by
  have hs := (fix_duplicates_slots g i).2.2 j
  have key : ((i < INODE_COUNT ∧ (g.inodes.getD i default).is_valid = true) ∧ j < 12 ∧
      dup_pointer (fix_duplicates_count g.inodes).1 (fix_duplicates_count g.inodes).2 i
        ((g.inodes.getD i default).direct.getD j 0)) ↔
      (i < 80 ∧ (g.inodes.getD i default).is_valid = true ∧ j < 12 ∧
      (8 ≤ (g.inodes.getD i default).direct.getD j 0 ∧
        (g.inodes.getD i default).direct.getD j 0 < 64) ∧
      (∃ k, k < 80 ∧ k ≠ i ∧ (g.inodes.getD k default).is_valid = true ∧
        (g.inodes.getD k default).references ((g.inodes.getD i default).direct.getD j 0)) ∧
      ¬ lowest_owner g.inodes ((g.inodes.getD i default).direct.getD j 0) i) := by
    constructor
    · rintro ⟨⟨hi, hv⟩, hj, hd⟩
      have hr : (g.inodes.getD i default).references
          ((g.inodes.getD i default).direct.getD j 0) := ⟨j, hj, rfl⟩
      have hnot := (dup_pointer_iff g i _ hi hv hr hd.1.1 hd.1.2.1).mp hd
      exact ⟨hi, hv, hj, ⟨hd.1.1, hd.1.2.1⟩,
        (not_lowest_owner_shared g i _ hi hv hr hd.1.1 hd.1.2.1 hnot).1, hnot⟩
    · rintro ⟨hi, hv, hj, ⟨hb1, hb2⟩, _, hnot⟩
      have hr : (g.inodes.getD i default).references
          ((g.inodes.getD i default).direct.getD j 0) := ⟨j, hj, rfl⟩
      exact ⟨⟨hi, hv⟩, hj, (dup_pointer_iff g i _ hi hv hr hb1 hb2).mpr hnot⟩
  refine ⟨?_, ?_, fix_duplicates_fix_count g, by decide!⟩
  · rw [← key]
    constructor
    · rintro ⟨h0, hne⟩
      by_contra hc
      rw [hs, if_neg hc] at h0
      exact hne h0
    · intro hc
      refine ⟨by rw [hs, if_pos hc], fun h0 => ?_⟩
      have hb1 := hc.2.2.1.1
      rw [h0] at hb1
      exact absurd hb1 (by decide)
  · rw [← key]
    intro hc
    rw [hs, if_neg hc]

/-! ## Error counts of the checks -/

theorem mismatch_step_eq (bm : List Nat) (want : Nat → Bool) (i e : Nat) :
    mismatch_step bm want i e = if bit_set bm i ≠ want i then e + 1 else e := by
  unfold mismatch_step
  simp only [is_block_marked_ne_zero, is_block_marked_eq_zero]
  cases hb : bit_set bm i <;> cases hw : want i <;> simp

theorem mismatch_loop (bm : List Nat) (want : Nat → Bool) (lo n e : Nat) :
    forLoop n (fun k => mismatch_step bm want (lo + k)) e =
      e + count_below (fun k => bit_set bm (lo + k) ≠ want (lo + k)) n := by
  rw [← count_loop]
  apply forLoop_congr
  intro k t _
  exact mismatch_step_eq bm want (lo + k) t

/-- The error count of `check_bitmaps`: the inode slots whose bit differs from
the validity of the inode, plus the data blocks whose bit differs from being
referenced. -/
theorem check_bitmaps_count (g : Globals) :
    (check_bitmaps g).2 =
      count_below (fun i =>
        bit_set g.inode_bitmap i ≠ (g.inodes.getD i default).is_valid) INODE_COUNT +
      count_below (fun k =>
        bit_set g.data_bitmap (DATA_BLOCK_START + k) ≠
          decide ((recount g.inodes).getD (DATA_BLOCK_START + k) 0 > 0))
        (TOTAL_BLOCKS - DATA_BLOCK_START) := by
  have h1 := mismatch_loop g.inode_bitmap (fun i => (g.inodes.getD i default).is_valid) 0
    INODE_COUNT 0
  have h2 := mismatch_loop g.data_bitmap (fun i => decide ((recount g.inodes).getD i 0 > 0))
    DATA_BLOCK_START (TOTAL_BLOCKS - DATA_BLOCK_START)
    (forLoop INODE_COUNT (fun k => mismatch_step g.inode_bitmap
      (fun i => (g.inodes.getD i default).is_valid) (0 + k)) 0)
  have e : (check_bitmaps g).2 =
      forLoop (TOTAL_BLOCKS - DATA_BLOCK_START)
        (fun k => mismatch_step g.data_bitmap
          (fun i => decide ((recount g.inodes).getD i 0 > 0)) (DATA_BLOCK_START + k))
        (forLoop INODE_COUNT (fun k => mismatch_step g.inode_bitmap
          (fun i => (g.inodes.getD i default).is_valid) (0 + k)) 0) := by
    have e0 : ∀ (want : Nat → Bool) (bm : List Nat) (s : Nat),
        forLoop INODE_COUNT (fun k => mismatch_step bm want (0 + k)) s =
          forLoop INODE_COUNT (fun k => mismatch_step bm want k) s :=
      fun want bm s => forLoop_congr _ _ _ _ (fun k t _ => by rw [Nat.zero_add])
    rw [e0]
    rfl
  rw [e, h2, h1, Nat.zero_add]
  simp only [Nat.zero_add]

/-- The error count of `check_duplicates`: the data blocks whose entry in the
reference table exceeds 1. -/
theorem check_duplicates_count (g : Globals) :
    check_duplicates g =
      count_below (fun k => g.block_references.getD (DATA_BLOCK_START + k) 0 > 1)
        (TOTAL_BLOCKS - DATA_BLOCK_START) := by
  have h := count_loop (fun k => g.block_references.getD (DATA_BLOCK_START + k) 0 > 1)
    (TOTAL_BLOCKS - DATA_BLOCK_START) 0
  rw [Nat.zero_add] at h
  rw [← h]
  rfl

/-! ## Invalid inodes and the checks -/

theorem same_valid_inodes_valid (t1 t2 : List Inode) (h : same_valid_inodes t1 t2) (i : Nat)
    (hi : i < INODE_COUNT) :
    (t1.getD i default).is_valid = (t2.getD i default).is_valid := by
  unfold Inode.is_valid
  rw [(h i hi).1, (h i hi).2.1]

theorem recount_congr (t1 t2 : List Inode) (h : same_valid_inodes t1 t2) :
    recount t1 = recount t2 := by
  unfold recount
  apply forLoop_congr
  intro i refs hi
  rw [← same_valid_inodes_valid t1 t2 h i hi]
  by_cases hv : (t1.getD i default).is_valid = true
  · rw [if_pos hv, if_pos hv, (h i hi).2.2 hv]
  · rw [if_neg hv, if_neg hv]

/-- C13: invalid inodes are ignored by the checks.  For two states with the
same bitmaps whose inode tables agree on the validity fields of all 80 inodes
and on the whole record of every valid inode (so that they differ only in the
direct pointers and other non-validity fields of inodes with `links_count ==
0` or `dtime != 0`), `check_bitmaps`, `check_duplicates` run after
`check_bitmaps`, and `check_bad_blocks` return the same error counts. -/
theorem checks_ignore_invalid_inodes (g1 g2 : Globals)
    (hib : g1.inode_bitmap = g2.inode_bitmap) (hdb : g1.data_bitmap = g2.data_bitmap)
    (h : same_valid_inodes g1.inodes g2.inodes) :
    (check_bitmaps g1).2 = (check_bitmaps g2).2 ∧
    check_duplicates (check_bitmaps g1).1 = check_duplicates (check_bitmaps g2).1 ∧
    check_bad_blocks g1 = check_bad_blocks g2 ∧
    check_bad_blocks (check_bitmaps g1).1 = check_bad_blocks (check_bitmaps g2).1 := by
  have hrec := recount_congr g1.inodes g2.inodes h
  have hbad : check_bad_blocks g1 = check_bad_blocks g2 := by
    rw [check_bad_blocks_eq_sum, check_bad_blocks_eq_sum]
    apply sum_below_congr
    intro i hi
    rw [← same_valid_inodes_valid _ _ h i hi]
    by_cases hv : (g1.inodes.getD i default).is_valid = true
    · rw [if_pos hv, if_pos hv, (h i hi).2.2 hv]
    · rw [if_neg hv, if_neg hv]
  refine ⟨?_, ?_, hbad, ?_⟩
  · have e1 : count_below (fun i =>
          bit_set g2.inode_bitmap i ≠ (g1.inodes.getD i default).is_valid) INODE_COUNT =
        count_below (fun i =>
          bit_set g2.inode_bitmap i ≠ (g2.inodes.getD i default).is_valid) INODE_COUNT :=
      count_below_congr _ _ _ (fun i hi => by rw [same_valid_inodes_valid _ _ h i hi])
    rw [check_bitmaps_count, check_bitmaps_count, hib, hdb, hrec, e1]
  · rw [check_duplicates_count, check_duplicates_count, check_bitmaps_refs, check_bitmaps_refs,
      hrec]
  · have e : ∀ g : Globals, check_bad_blocks (check_bitmaps g).1 = check_bad_blocks g :=
      fun g => rfl
    rw [e, e, hbad]

theorem globals_bad_pointer_variant_same :
    same_valid_inodes globals_bad_pointer.inodes globals_bad_pointer_variant.inodes := by
  unfold same_valid_inodes
  decide!

/-- Witness for C13: Scenario D and its variant with a different free inode. -/
theorem checks_ignore_invalid_inodes_witness :
    globals_bad_pointer.inode_bitmap = globals_bad_pointer_variant.inode_bitmap ∧
    globals_bad_pointer.data_bitmap = globals_bad_pointer_variant.data_bitmap ∧
    same_valid_inodes globals_bad_pointer.inodes globals_bad_pointer_variant.inodes ∧
    ((check_bitmaps globals_bad_pointer).2 = (check_bitmaps globals_bad_pointer_variant).2 ∧
    check_duplicates (check_bitmaps globals_bad_pointer).1 =
      check_duplicates (check_bitmaps globals_bad_pointer_variant).1 ∧
    check_bad_blocks globals_bad_pointer = check_bad_blocks globals_bad_pointer_variant ∧
    check_bad_blocks (check_bitmaps globals_bad_pointer).1 =
      check_bad_blocks (check_bitmaps globals_bad_pointer_variant).1) :=
  ⟨rfl, rfl, globals_bad_pointer_variant_same,
    checks_ignore_invalid_inodes globals_bad_pointer globals_bad_pointer_variant rfl rfl
      globals_bad_pointer_variant_same⟩

/-! ## Failing and short transfers -/

theorem nonneg_upto_succ (env : Transfers) (n : Nat) (h : nonneg_upto env n)
    (hn : ¬ env.ret n < 0) : nonneg_upto env (n + 1) := by
  intro k hk
  rcases Nat.lt_succ_iff_lt_or_eq.mp hk with h1 | h1
  · exact h k h1
  · rw [h1]; exact Int.not_lt.mp hn

theorem do_calls_true (env : Transfers) (cs : List BlockCall) :
    ∀ (log : List BlockCall) (g : Globals), (do_calls env cs log g).2.2 = true →
      nonneg_upto env log.length →
      (do_calls env cs log g).1 = log ++ cs ∧ nonneg_upto env (do_calls env cs log g).1.length := by
  induction cs with
  | nil =>
    intro log g _ h
    rw [do_calls, List.append_nil]
    exact ⟨rfl, h⟩
  | cons c cs ih =>
    intro log g ht h
    rw [do_calls] at ht ⊢
    by_cases hn : env.ret log.length < 0
    · rw [if_pos hn] at ht
      exact absurd ht (by simp)
    · rw [if_neg hn] at ht ⊢
      have h1 : nonneg_upto env (log ++ [c]).length := by
        rw [List.length_append, List.length_singleton]
        exact nonneg_upto_succ env _ h hn
      have := ih (log ++ [c]) _ ht h1
      rw [List.append_assoc, List.singleton_append] at this
      exact this

theorem do_calls_false (env : Transfers) (cs : List BlockCall) :
    ∀ (log : List BlockCall) (g : Globals), (do_calls env cs log g).2.2 = false →
      nonneg_upto env log.length →
      aborted env { status := 1, calls := (do_calls env cs log g).1 } := by
  induction cs with
  | nil =>
    intro log g hf _
    rw [do_calls] at hf
    exact absurd hf (by simp)
  | cons c cs ih =>
    intro log g hf h
    rw [do_calls] at hf ⊢
    by_cases hn : env.ret log.length < 0
    · rw [if_pos hn]
      refine ⟨rfl, ?_, ?_, ?_⟩
      · show log ++ [c] ≠ []
        simp
      · show env.ret ((log ++ [c]).length - 1) < 0
        rw [List.length_append, List.length_singleton, Nat.add_sub_cancel]
        exact hn
      · show nonneg_upto env ((log ++ [c]).length - 1)
        rw [List.length_append, List.length_singleton, Nat.add_sub_cancel]
        exact h
    · rw [if_neg hn] at hf ⊢
      have h1 : nonneg_upto env (log ++ [c]).length := by
        rw [List.length_append, List.length_singleton]
        exact nonneg_upto_succ env _ h hn
      exact ih (log ++ [c]) _ hf h1

theorem main_recheck_cases (env : Transfers) (log : List BlockCall) (sb : Superblock)
    (g : Globals) (h : nonneg_upto env log.length) :
    aborted env (main_recheck env log sb g) ∨
    (nonneg_upto env (main_recheck env log sb g).calls.length ∧
      (main_recheck env log sb g).calls =
        log ++ [BlockCall.read 0] ++ table_blocks.map BlockCall.read) := by
  unfold main_recheck
  by_cases h0 : env.ret log.length < 0
  · left
    rw [if_pos h0]
    refine ⟨rfl, ?_, ?_, ?_⟩
    · show log ++ [BlockCall.read 0] ≠ []
      simp
    · show env.ret ((log ++ [BlockCall.read 0]).length - 1) < 0
      rw [List.length_append, List.length_singleton, Nat.add_sub_cancel]
      exact h0
    · show nonneg_upto env ((log ++ [BlockCall.read 0]).length - 1)
      rw [List.length_append, List.length_singleton, Nat.add_sub_cancel]
      exact h
  · rw [if_neg h0]
    have h1 : nonneg_upto env (log ++ [BlockCall.read 0]).length := by
      rw [List.length_append, List.length_singleton]
      exact nonneg_upto_succ env _ h h0
    by_cases hr : (do_calls env (table_blocks.map BlockCall.read)
        (log ++ [BlockCall.read 0]) g).2.2 = false
    · left
      simp only [hr, if_true]
      exact do_calls_false env _ _ _ hr h1
    · right
      simp only [hr, if_false]
      have ht := do_calls_true env _ _ g (by simpa using hr) h1
      exact ⟨ht.2, ht.1⟩

theorem main_tables_cases (env : Transfers) (log : List BlockCall) (sb : Superblock)
    (h : nonneg_upto env log.length) :
    aborted env (main_tables env log sb) ∨
    (nonneg_upto env (main_tables env log sb).calls.length ∧
      (main_tables env log sb).calls =
        log ++ table_blocks.map BlockCall.read ++ table_blocks.map BlockCall.write ++
          [BlockCall.read 0] ++ table_blocks.map BlockCall.read) := by
  unfold main_tables
  by_cases hr : (do_calls env (table_blocks.map BlockCall.read) log globals_initial).2.2 = false
  · left
    simp only [hr, if_true]
    exact do_calls_false env _ _ _ hr h
  · simp only [hr, if_false]
    have ht := do_calls_true env _ _ globals_initial (by simpa using hr) h
    generalize (repair (check_all (do_calls env (table_blocks.map BlockCall.read) log
      globals_initial).2.1).1).1 = f at *
    generalize do_calls env (table_blocks.map BlockCall.read) log globals_initial = r at *
    by_cases hw : (do_calls env (table_blocks.map BlockCall.write) r.1 f).2.2 = false
    · left
      simp only [hw, if_true]
      exact do_calls_false env _ _ _ hw ht.2
    · simp only [hw, if_false]
      have hu := do_calls_true env _ _ f (by simpa using hw) ht.2
      generalize do_calls env (table_blocks.map BlockCall.write) r.1 f = w at *
      rcases main_recheck_cases env w.1 sb w.2.1 hu.2 with hc | hc
      · exact Or.inl hc
      · right
        refine ⟨hc.1, ?_⟩
        show (main_recheck env w.1 sb w.2.1).calls = _
        rw [hc.2, hu.1, ht.1]

theorem main_transfers_cases (env : Transfers) (sb0 : Superblock) :
    aborted env (main_transfers env sb0) ∨
    (nonneg_upto env (main_transfers env sb0).calls.length ∧
      (main_transfers env sb0).calls =
        full_calls (decide ((fix_superblock (env.read_sb 0 sb0)).2 > 0))) := by
  unfold main_transfers full_calls
  by_cases h0 : env.ret 0 < 0
  · left
    simp only [h0, if_true]
    exact ⟨rfl, by simp, h0, fun k hk => absurd hk (Nat.not_lt_zero k)⟩
  · simp only [h0, if_false, Nat.zero_add]
    have n1 : nonneg_upto env 1 := nonneg_upto_succ env 0 (fun k hk => absurd hk (Nat.not_lt_zero k)) h0
    generalize fix_superblock (env.read_sb 0 sb0) = fs
    by_cases hf : fs.2 > 0
    · simp only [hf, if_true, decide_True]
      by_cases h1 : env.ret 1 < 0
      · left
        simp only [h1, if_true]
        exact ⟨rfl, by simp, h1, n1⟩
      · simp only [h1, if_false]
        have n2 : nonneg_upto env [BlockCall.read 0, BlockCall.write 0].length :=
          nonneg_upto_succ env 1 n1 h1
        exact main_tables_cases env _ fs.1 n2
    · simp only [hf, if_false, decide_False]
      exact main_tables_cases env [BlockCall.read 0] fs.1 n1

/-- C17, counterexample: on an image file that holds only the superblock
block, the read of block 1 transfers 0 bytes, yet the run ends with status 0
after all its 23 calls, seven of them writes made after the short read. -/
theorem short_read_counterexample :
    transfers_truncated.ret 1 = 0 ∧
    (main_transfers transfers_truncated superblock_good).status = 0 ∧
    (main_transfers transfers_truncated superblock_good).calls =
      [BlockCall.read 0,
       BlockCall.read 1, BlockCall.read 2, BlockCall.read 3, BlockCall.read 4,
       BlockCall.read 5, BlockCall.read 6, BlockCall.read 7,
       BlockCall.write 1, BlockCall.write 2, BlockCall.write 3, BlockCall.write 4,
       BlockCall.write 5, BlockCall.write 6, BlockCall.write 7,
       BlockCall.read 0,
       BlockCall.read 1, BlockCall.read 2, BlockCall.read 3, BlockCall.read 4,
       BlockCall.read 5, BlockCall.read 6, BlockCall.read 7] := by
  decide!

/-- C17, amended: only a negative return value is fatal.  In every run, a
call of `read_block` or `write_block` that returns a negative value is the
last call (so no write follows it) and the exit status is 1; and when no call
returns a negative value, however few bytes the calls transfer, the run makes
all its calls, the seven writes of blocks 1 to 7 among them. -/
theorem negative_transfer_fatal (env : Transfers) (sb0 : Superblock) :
    (∀ k, k < (main_transfers env sb0).calls.length → env.ret k < 0 →
      (main_transfers env sb0).status = 1 ∧ k + 1 = (main_transfers env sb0).calls.length) ∧
    ((∀ k, k < (main_transfers env sb0).calls.length → 0 ≤ env.ret k) →
      (main_transfers env sb0).calls =
        full_calls (decide ((fix_superblock (env.read_sb 0 sb0)).2 > 0))) := by
  rcases main_transfers_cases env sb0 with h | h
  · obtain ⟨hs, hne, hlast, hbefore⟩ := h
    have hpos : 0 < (main_transfers env sb0).calls.length := List.length_pos.mpr hne
    constructor
    · intro k hk hneg
      refine ⟨hs, ?_⟩
      by_contra hc
      have : k < (main_transfers env sb0).calls.length - 1 := by omega
      exact absurd hneg (Int.not_lt.mpr (hbefore k this))
    · intro hall
      exact absurd hlast (Int.not_lt.mpr (hall _ (by omega)))
  · constructor
    · intro k hk hneg
      exact absurd hneg (Int.not_lt.mpr (h.1 k hk))
    · intro _
      exact h.2

theorem do_calls_writes (img : Image) (log : List BlockCall) (g : Globals) (bs : List Nat) :
    do_calls (transfers_of_image img) (bs.map BlockCall.write) log g =
      (log ++ bs.map BlockCall.write, g, true) := by
  induction bs generalizing log with
  | nil => simp [do_calls]
  | cons b bs ih =>
    have ht : transfer (transfers_of_image img) log.length (BlockCall.write b) g = g := rfl
    rw [List.map_cons, do_calls, if_neg (by simp [transfers_of_image]), ht, ih]
    simp

theorem do_calls_rereads (img : Image) (g : Globals) (bs : List Nat) :
    ∀ log : List BlockCall, 9 ≤ log.length →
    do_calls (transfers_of_image img) (bs.map BlockCall.read) log g =
      (log ++ bs.map BlockCall.read, g, true) := by
  induction bs with
  | nil => intro log _; simp [do_calls]
  | cons b bs ih =>
    intro log hl
    have h9 : ¬ log.length < 9 := Nat.not_lt.mpr hl
    have ht : transfer (transfers_of_image img) log.length (BlockCall.read b) g = g := by
      simp only [transfer, transfers_of_image, if_neg h9]
      split_ifs <;> rfl
    rw [List.map_cons, do_calls, if_neg (by simp [transfers_of_image]), ht,
      ih (log ++ [BlockCall.read b]) (by rw [List.length_append]; omega)]
    simp

theorem do_calls_reads (img : Image) (log : List BlockCall) (hl : log.length ≤ 2) :
    do_calls (transfers_of_image img) (table_blocks.map BlockCall.read) log globals_initial =
      (log ++ table_blocks.map BlockCall.read, load img, true) := by
  have e : ∀ k, ¬ (transfers_of_image img).ret k < 0 := fun k => by simp [transfers_of_image]
  have l1 : ∀ k : Nat, k ≤ 8 → k < 9 := fun k h => by omega
  simp only [table_blocks, List.map, do_calls, e, if_false, transfer, transfers_of_image,
    List.length_append, List.length_singleton, List.length_cons, List.length_nil]
  simp only [INODE_BITMAP_BLOCK, DATA_BITMAP_BLOCK, INODE_TABLE_START]
  simp only [if_pos (l1 _ (show log.length ≤ 8 by omega)),
    if_pos (l1 _ (show log.length + 1 ≤ 8 by omega)),
    if_pos (l1 _ (show log.length + 1 + 1 ≤ 8 by omega)),
    if_pos (l1 _ (show log.length + 1 + 1 + 1 ≤ 8 by omega)),
    if_pos (l1 _ (show log.length + 1 + 1 + 1 + 1 ≤ 8 by omega)),
    if_pos (l1 _ (show log.length + 1 + 1 + 1 + 1 + 1 ≤ 8 by omega)),
    if_pos (l1 _ (show log.length + 1 + 1 + 1 + 1 + 1 + 1 ≤ 8 by omega))]
  simp [load, globals_initial]

theorem main_tables_of_image (img : Image) (log : List BlockCall) (sb : Superblock)
    (hl : log.length ≤ 2) :
    main_tables (transfers_of_image img) log sb =
      { status := if validate_superblock sb + (check_all (repair (load img)).1).2 > 0
          then 1 else 0,
        calls := log ++ table_blocks.map BlockCall.read ++ table_blocks.map BlockCall.write ++
          [BlockCall.read 0] ++ table_blocks.map BlockCall.read } := by
  have h1 : repair (check_all (load img)).1 = repair (load img) := rfl
  have hlen : (log ++ table_blocks.map BlockCall.read ++
      table_blocks.map BlockCall.write).length = log.length + 14 := by
    simp [table_blocks]
  have hret : ∀ k, ¬ (transfers_of_image img).ret k < 0 := fun k => by simp [transfers_of_image]
  have hsb : (transfers_of_image img).read_sb (log.length + 14) sb = sb := by
    simp [transfers_of_image]
  unfold main_tables
  rw [do_calls_reads img log hl]
  simp only [Bool.true_eq_false, if_false, h1]
  rw [do_calls_writes]
  simp only [Bool.true_eq_false, if_false]
  unfold main_recheck
  rw [hlen, if_neg (hret _), hsb]
  simp only []
  rw [do_calls_rereads img _ _ _ (by rw [List.length_append, hlen]; omega)]
  simp only [Bool.true_eq_false, if_false, Nat.zero_add]

/-- When every call transfers the whole block, the run with transfers that
can fail makes all its calls and ends with the exit status of `main`. -/
theorem main_transfers_of_image (img : Image) (sb0 : Superblock) :
    (main_transfers (transfers_of_image img) sb0).status = (main img).status ∧
    (main_transfers (transfers_of_image img) sb0).calls =
      full_calls (decide ((fix_superblock img.sb).2 > 0)) := by
  have hret : ∀ k, ¬ (transfers_of_image img).ret k < 0 := fun k => by simp [transfers_of_image]
  have hsb : (transfers_of_image img).read_sb 0 sb0 = img.sb := rfl
  unfold main_transfers full_calls
  rw [if_neg (hret 0), main_status_eq]
  simp only [hsb, if_neg (hret 1), Nat.zero_add]
  generalize fix_superblock img.sb = fs
  by_cases hf : fs.2 > 0
  · simp only [hf, if_true, decide_True]
    rw [main_tables_of_image img _ fs.1 (by simp)]
    exact ⟨rfl, rfl⟩
  · simp only [hf, if_false, decide_False]
    rw [main_tables_of_image img _ fs.1 (by simp)]
    exact ⟨rfl, rfl⟩

/-! ## Fix counts and error counts -/

/-- The fix count of a bitmap loop of `fix_bitmaps`: the number of bits of
the bitmap before the loop that differ from what is wanted. -/
theorem sync_loop_count (want : Nat → Bool) (lo : Nat) (bm : List Nat) (f : Nat) (n : Nat) :
    (forLoop n (fun k => sync_bit want (lo + k)) (bm, f)).2 =
      f + count_below (fun k => bit_set bm (lo + k) ≠ want (lo + k)) n ∧
    ∀ i, lo + n ≤ i →
      bit_set (forLoop n (fun k => sync_bit want (lo + k)) (bm, f)).1 i = bit_set bm i := by
  induction n with
  | zero =>
    rw [forLoop_zero]
    exact ⟨rfl, fun _ _ => rfl⟩
  | succ k ih =>
    rw [forLoop_succ]
    generalize forLoop k (fun k => sync_bit want (lo + k)) (bm, f) = r at ih ⊢
    obtain ⟨ih1, ih2⟩ := ih
    constructor
    · rw [sync_bit_eq, ih2 (lo + k) (Nat.le_refl _), count_below]
      by_cases h : bit_set bm (lo + k) = want (lo + k)
      · rw [if_pos h, if_neg (not_not.mpr h), ih1, Nat.add_zero]
      · rw [if_neg h, if_pos h, ih1, Nat.add_assoc]
    · intro i hi
      rw [sync_bit_other want (lo + k) i r (by omega), ih2 i (by omega)]

theorem fix_bitmaps_fix_count (g : Globals) : (fix_bitmaps g).2 = (check_bitmaps g).2 := by
  have h1 := (sync_loop_count (fun i => (g.inodes.getD i default).is_valid) 0 g.inode_bitmap 0
    INODE_COUNT).1
  have h2 := (sync_loop_count (fun i => decide ((recount g.inodes).getD i 0 > 0))
    DATA_BLOCK_START g.data_bitmap
    (forLoop INODE_COUNT
      (fun k => sync_bit (fun i => (g.inodes.getD i default).is_valid) (0 + k))
      (g.inode_bitmap, 0)).2 (TOTAL_BLOCKS - DATA_BLOCK_START)).1
  rw [fix_bitmaps_eq, check_bitmaps_count]
  show (forLoop (TOTAL_BLOCKS - DATA_BLOCK_START)
    (fun k => sync_bit (fun i => decide ((recount g.inodes).getD i 0 > 0))
      (DATA_BLOCK_START + k))
    (g.data_bitmap, (forLoop INODE_COUNT
      (fun k => sync_bit (fun i => (g.inodes.getD i default).is_valid) (0 + k))
      (g.inode_bitmap, 0)).2)).2 = _
  rw [h2, h1, Nat.zero_add]
  simp only [Nat.zero_add]

/-- C23: on the same state, `fix_superblock` returns the number that
`validate_superblock` returns, `fix_bitmaps` the number that `check_bitmaps`
returns, and `fix_bad_blocks` the number that `check_bad_blocks` returns. -/
theorem fix_counts_mirror_error_counts (sb : Superblock) (g : Globals) :
    (fix_superblock sb).2 = validate_superblock sb ∧
    (fix_bitmaps g).2 = (check_bitmaps g).2 ∧
    (fix_bad_blocks g).2 = check_bad_blocks g :=
  ⟨fix_superblock_snd sb, fix_bitmaps_fix_count g, (fix_bad_blocks_fix_count g).2⟩

/-! ## The decrement of `blocks_count` -/

theorem clamp_iter_fst (k : Nat) (bs : Nat × Nat) :
    ((clamp_iter k bs).1 : Int) % 4294967296 = ((bs.1 : Int) - (k : Int)) % 4294967296 ∧
    (1 ≤ k → (clamp_iter k bs).1 < 4294967296) := by
  induction k with
  | zero =>
    refine ⟨?_, fun h => absurd h (by decide)⟩
    show ((bs.1 : Int)) % 4294967296 = ((bs.1 : Int) - ((0 : Nat) : Int)) % 4294967296
    rw [Nat.cast_zero, Int.sub_zero]
  | succ k ih =>
    have e : (clamp_iter (k + 1) bs).1 = ((clamp_iter k bs).1 + 4294967296 - 1) % 4294967296 :=
      rfl
    rw [e]
    generalize (clamp_iter k bs).1 = x at ih ⊢
    obtain ⟨ih1, -⟩ := ih
    constructor
    · omega
    · intro _
      exact Nat.mod_lt _ (by decide)

theorem blocks_count_after (before after : Inode) (k : Nat)
    (h : (after.blocks_count, after.size) = clamp_iter k (before.blocks_count, before.size))
    (hb : before.blocks_count < 4294967296) :
    (after.blocks_count : Int) = ((before.blocks_count : Int) - (k : Int)) % 4294967296 := by
  have h1 : after.blocks_count = (clamp_iter k (before.blocks_count, before.size)).1 :=
    congrArg Prod.fst h
  have h2 := clamp_iter_fst k (before.blocks_count, before.size)
  rw [← h1] at h2
  have h3 : after.blocks_count < 4294967296 := by
    rcases Nat.eq_zero_or_pos k with hk | hk
    · rw [h1, hk]
      exact hb
    · exact h2.2 hk
  have h4 := h2.1
  simp only at h4
  omega

/-- C21: `blocks_count` is decremented with 32-bit wrap-around.  For every
inode whose `blocks_count` is a `uint32_t` value, after `fix_bad_blocks` (and
likewise after `fix_duplicates`) `blocks_count` is the previous value minus
the number `k` of pointers cleared from the inode, modulo `2^32`; a valid
inode with `blocks_count = 0` and one bad pointer ends with `blocks_count =
4294967295`. -/
theorem blocks_count_wraps (g : Globals) (i : Nat)
    (h : (g.inodes.getD i default).blocks_count < U32) :
    ((((fix_bad_blocks g).1.inodes.getD i default).blocks_count : Int) =
      (((g.inodes.getD i default).blocks_count : Int) -
        (pointers_cleared (g.inodes.getD i default)
          ((fix_bad_blocks g).1.inodes.getD i default) : Int)) % 4294967296) ∧
    ((((fix_duplicates g).1.inodes.getD i default).blocks_count : Int) =
      (((g.inodes.getD i default).blocks_count : Int) -
        (pointers_cleared (g.inodes.getD i default)
          ((fix_duplicates g).1.inodes.getD i default) : Int)) % 4294967296) ∧
    (pointers_cleared (globals_zero_count.inodes.getD 0 default)
        ((fix_bad_blocks globals_zero_count).1.inodes.getD 0 default) = 1 ∧
      ((fix_bad_blocks globals_zero_count).1.inodes.getD 0 default).blocks_count =
        4294967295) :=
  ⟨blocks_count_after _ _ _ (fix_bad_blocks_counts g i) h,
    blocks_count_after _ _ _ (fix_duplicates_counts g i) h, by decide!⟩

/-- Witness for C21: the valid inode 0 of a state with `blocks_count = 0` and
one bad pointer. -/
theorem blocks_count_wraps_witness :
    (globals_zero_count.inodes.getD 0 default).blocks_count < U32 ∧
    (globals_zero_count.inodes.getD 0 default).is_valid = true ∧
    (((fix_bad_blocks globals_zero_count).1.inodes.getD 0 default).blocks_count : Int) =
      (((globals_zero_count.inodes.getD 0 default).blocks_count : Int) -
        (pointers_cleared (globals_zero_count.inodes.getD 0 default)
          ((fix_bad_blocks globals_zero_count).1.inodes.getD 0 default) : Int)) % 4294967296 :=
  ⟨by decide, by decide, (blocks_count_wraps globals_zero_count 0 (by decide)).1⟩

/-! ## A consistent state -/

theorem count_below_eq_zero (P : Nat → Prop) [DecidablePred P] (n : Nat)
    (h : count_below P n = 0) : ∀ j, j < n → ¬ P j := by
  induction n with
  | zero => intro j hj; exact absurd hj (Nat.not_lt_zero j)
  | succ k ih =>
    rw [count_below] at h
    intro j hj
    rcases Nat.lt_succ_iff_lt_or_eq.mp hj with h1 | h1
    · exact ih (Nat.eq_zero_of_add_eq_zero_right h) j h1
    · rw [h1]
      intro hp
      rw [if_pos hp] at h
      omega

theorem sum_below_eq_zero (f : Nat → Nat) (n : Nat) (h : sum_below f n = 0) :
    ∀ i, i < n → f i = 0 := by
  induction n with
  | zero => intro i hi; exact absurd hi (Nat.not_lt_zero i)
  | succ k ih =>
    rw [sum_below] at h
    intro i hi
    rcases Nat.lt_succ_iff_lt_or_eq.mp hi with h1 | h1
    · exact ih (by omega) i h1
    · rw [h1]; omega

theorem no_bad_pointer_of_check (g : Globals) (h : check_bad_blocks g = 0) :
    ∀ i, i < INODE_COUNT → (g.inodes.getD i default).is_valid = true → ∀ j, j < 12 →
      ¬ bad_pointer ((g.inodes.getD i default).direct.getD j 0) := by
  intro i hi hv j hj
  rw [check_bad_blocks_eq_sum] at h
  have h1 := sum_below_eq_zero _ _ h i hi
  simp only [if_pos hv] at h1
  exact count_below_eq_zero _ _ h1 j hj

theorem no_dup_pointer_of_check (g : Globals)
    (h : check_duplicates (check_bitmaps g).1 = 0) :
    ∀ i, i < INODE_COUNT → (g.inodes.getD i default).is_valid = true → ∀ j, j < 12 →
      ¬ dup_pointer (fix_duplicates_count g.inodes).1 (fix_duplicates_count g.inodes).2 i
        ((g.inodes.getD i default).direct.getD j 0) := by
  intro i _ _ j _
  rw [check_duplicates_count, check_bitmaps_refs] at h
  generalize (g.inodes.getD i default).direct.getD j 0 = p
  rintro ⟨⟨hp1, hp2, hp3⟩, -⟩
  have hk : p - DATA_BLOCK_START < TOTAL_BLOCKS - DATA_BLOCK_START := by
    simp only [TOTAL_BLOCKS, DATA_BLOCK_START] at *
    omega
  have h1 := count_below_eq_zero _ _ h (p - DATA_BLOCK_START) hk
  have e : DATA_BLOCK_START + (p - DATA_BLOCK_START) = p := by
    simp only [DATA_BLOCK_START] at *
    omega
  rw [e, (recount_spec g.inodes).2 p hp1 hp2] at h1
  rw [((fix_duplicates_count_spec g.inodes).2.2 p hp1 hp2).1] at hp3
  exact h1 hp3

theorem bitmaps_match_of_check (g : Globals) (h : (check_bitmaps g).2 = 0) :
    (∀ i, i < INODE_COUNT → bit_set g.inode_bitmap i = (g.inodes.getD i default).is_valid) ∧
    (∀ b, DATA_BLOCK_START ≤ b → b < TOTAL_BLOCKS →
      bit_set g.data_bitmap b = decide ((recount g.inodes).getD b 0 > 0)) := by
  rw [check_bitmaps_count] at h
  have h1 := count_below_eq_zero _ _ (Nat.eq_zero_of_add_eq_zero_right h)
  have h2 := count_below_eq_zero _ _ (Nat.eq_zero_of_add_eq_zero_left h)
  constructor
  · intro i hi
    exact not_not.mp (h1 i hi)
  · intro b hb1 hb2
    have hk : b - DATA_BLOCK_START < TOTAL_BLOCKS - DATA_BLOCK_START := by
      simp only [TOTAL_BLOCKS, DATA_BLOCK_START] at *
      omega
    have e : DATA_BLOCK_START + (b - DATA_BLOCK_START) = b := by
      simp only [DATA_BLOCK_START] at *
      omega
    have h3 := h2 (b - DATA_BLOCK_START) hk
    rw [e] at h3
    exact not_not.mp h3

/-- C22: a consistent state is left untouched.  When `validate_superblock`,
`check_bitmaps`, `check_duplicates` (run after `check_bitmaps`) and
`check_bad_blocks` all return 0, each of `fix_superblock`, `fix_bitmaps`,
`fix_duplicates` and `fix_bad_blocks` returns 0 fixes and leaves the
superblock, both bitmaps and the inode table as they are (only the reference
table is recomputed), alone and in the sequence of `main`. -/
theorem consistent_state_untouched (sb : Superblock) (g : Globals)
    (h1 : validate_superblock sb = 0) (h2 : (check_bitmaps g).2 = 0)
    (h3 : check_duplicates (check_bitmaps g).1 = 0)
    (h4 : check_bad_blocks (check_bitmaps g).1 = 0) :
    fix_superblock sb = (sb, 0) ∧
    fix_bitmaps g = ({ g with block_references := recount g.inodes }, 0) ∧
    fix_duplicates g =
      ({ g with block_references := (fix_duplicates_count g.inodes).1 }, 0) ∧
    fix_bad_blocks g = (g, 0) ∧
    (fix_duplicates (fix_bitmaps g).1).2 = 0 ∧
    (fix_bad_blocks (fix_duplicates (fix_bitmaps g).1).1).2 = 0 ∧
    (repair g).2 = 0 ∧ (repair g).1.inode_bitmap = g.inode_bitmap ∧
    (repair g).1.data_bitmap = g.data_bitmap ∧ (repair g).1.inodes = g.inodes := by
  have hb := bitmaps_match_of_check g h2
  have e1 := fix_bitmaps_fixed g hb.1 hb.2
  have e2 := fix_duplicates_fixed g (no_dup_pointer_of_check g h3)
  have e3 := fix_bad_blocks_fixed g (no_bad_pointer_of_check g h4)
  have e2' := fix_duplicates_fixed { g with block_references := recount g.inodes }
    (no_dup_pointer_of_check g h3)
  have e3' := fix_bad_blocks_fixed
    { g with block_references := (fix_duplicates_count g.inodes).1 }
    (no_bad_pointer_of_check g h4)
  have s2 : fix_duplicates (fix_bitmaps g).1 =
      ({ g with block_references := (fix_duplicates_count g.inodes).1 }, 0) := by
    rw [e1]
    exact e2'
  have s3 : fix_bad_blocks (fix_duplicates (fix_bitmaps g).1).1 =
      ({ g with block_references := (fix_duplicates_count g.inodes).1 }, 0) := by
    rw [s2]
    exact e3'
  refine ⟨fix_superblock_of_valid sb h1, e1, e2, e3, ?_, ?_, ?_, ?_, ?_, ?_⟩
  · rw [s2]
  · rw [s3]
  · rw [repair_snd, s3, s2, e1]
    rfl
  · rw [repair_fst, s3]
  · rw [repair_fst, s3]
  · rw [repair_fst, s3]

theorem globals_consistent_checks :
    validate_superblock superblock_good = 0 ∧ (check_bitmaps globals_consistent).2 = 0 ∧
    check_duplicates (check_bitmaps globals_consistent).1 = 0 ∧
    check_bad_blocks (check_bitmaps globals_consistent).1 = 0 := by
  decide!

/-- Witness for C22: a good superblock and a state with one valid inode that
owns block 10. -/
theorem consistent_state_untouched_witness :
    (validate_superblock superblock_good = 0 ∧ (check_bitmaps globals_consistent).2 = 0 ∧
      check_duplicates (check_bitmaps globals_consistent).1 = 0 ∧
      check_bad_blocks (check_bitmaps globals_consistent).1 = 0) ∧
    (fix_superblock superblock_good = (superblock_good, 0) ∧
    fix_bitmaps globals_consistent =
      ({ globals_consistent with block_references := recount globals_consistent.inodes }, 0) ∧
    fix_duplicates globals_consistent =
      ({ globals_consistent with
          block_references := (fix_duplicates_count globals_consistent.inodes).1 }, 0) ∧
    fix_bad_blocks globals_consistent = (globals_consistent, 0) ∧
    (fix_duplicates (fix_bitmaps globals_consistent).1).2 = 0 ∧
    (fix_bad_blocks (fix_duplicates (fix_bitmaps globals_consistent).1).1).2 = 0 ∧
    (repair globals_consistent).2 = 0 ∧
    (repair globals_consistent).1.inode_bitmap = globals_consistent.inode_bitmap ∧
    (repair globals_consistent).1.data_bitmap = globals_consistent.data_bitmap ∧
    (repair globals_consistent).1.inodes = globals_consistent.inodes) :=
  ⟨globals_consistent_checks,
    consistent_state_untouched superblock_good globals_consistent globals_consistent_checks.1
      globals_consistent_checks.2.1 globals_consistent_checks.2.2.1
      globals_consistent_checks.2.2.2⟩

end Vsfsck
